import Mathlib

/-!
# Channel connection manager (`internal/channel/connection.go`)

A shallow embedding of the connection manager of the channel package and a
verification of its reconciliation contract, followed by the config service
(`internal/channel/service.go`), model validation (`internal/models`), the
access checks of the bot service (`internal/bots`) and the merge of user
settings (`internal/settings`).

Modelling conventions.

* The manager's mutable part is `State`: the connection map `m.connections`
  and the state `world` of everything outside the manager (adapters, store,
  cancellation of the context).
* Every operation returns an `Outcome`: the events it produced in
  chronological order (mutex operations, entries into `ensureConnection`, the
  adapter calls `Connection.Stop` and `Receiver.Connect` with what they
  returned, store reads), the state it ended in, and its return value.
* Adapter code is arbitrary: `Stop` and `Connect` are functions of the world
  that return a result and a new world, so that two calls with the same
  arguments may answer differently.  Theorems quantify over all of them.
* A Go map is an association list read by first match; ranging over it visits
  every key once.  Go leaves the iteration order unspecified; the model
  iterates in one fixed order, and the lemma on such loops (`rangeLoop_spec`)
  holds for every order of the keys.
* `time.Time` instants are integers; `a.Before(b)` is `a < b`.
* A call of a method on a nil interface value panics; functions that can
  panic report it in their result.
* Logging has no effect on the manager and is left out.
-/

namespace Channel

/-! ## Data model -/

/-- Go `error` values as far as the manager inspects them: the sentinel
`ErrStopNotSupported`, an error wrapping another one (`%w`), or any other
error. -/
inductive GoError where
  | ErrStopNotSupported : GoError
  | wrapped (msg : String) (inner : GoError) : GoError
  | other (msg : String) : GoError
  deriving DecidableEq, Repr

/-- The test `errors.Is(err, ErrStopNotSupported)`: the sentinel is found
somewhere along the chain of wrapped errors. -/
def GoError.isStopNotSupported : GoError → Bool
  | .ErrStopNotSupported => true
  | .wrapped _ inner => inner.isStopNotSupported
  | .other _ => false

/-- A channel type identifier. -/
abbrev ChannelType := String

/-- The fields of `ChannelConfig`, as `normalizeChannelConfig` fills them in.
Configuration maps are kept as lists of key/value pairs. -/
structure ChannelConfig where
  ID : String
  BotID : String
  ChannelType : ChannelType
  Credentials : List (String × String)
  ExternalIdentity : String
  SelfIdentity : List (String × String)
  Routing : List (String × String)
  Status : String
  VerifiedAt : Int
  CreatedAt : Int
  UpdatedAt : Int
  deriving DecidableEq, Repr

/-- A non-nil `Connection` interface value, identified by a handle.  What its
`Stop` method does is given by `Runtime.Stop`. -/
abbrev Connection := Nat

/-- The struct `connectionEntry`; a nil `connection` is `none`. -/
structure connectionEntry where
  config : ChannelConfig
  connection : Option Connection
  deriving DecidableEq, Repr

/-- Observable events of a run, in the order in which they happen. -/
inductive Event where
  | lock : Event
  | unlock : Event
  | ensureConnection (cfg : ChannelConfig) : Event
  | stop (configID : String) (conn : Connection) (err : Option GoError) : Event
  | connect (cfg : ChannelConfig) (conn : Option Connection) (err : Option GoError) : Event
  | listConfigs (channelType : ChannelType) (err : Option GoError) : Event
  deriving DecidableEq, Repr

/-- The event is a call of `Connection.Stop`. -/
def Event.isStop : Event → Bool
  | .stop _ _ _ => true
  | _ => false

/-- The event is a call of `Receiver.Connect`. -/
def Event.isConnect : Event → Bool
  | .connect _ _ _ => true
  | _ => false

/-- The event is a call of `Connection.Stop` made for the entry tracked under
the given config ID. -/
def Event.isStopOf (id : String) : Event → Bool
  | .stop k _ _ => decide (k = id)
  | _ => false

/-- The event is a call of `Receiver.Connect` with a config of the given ID. -/
def Event.isConnectOf (id : String) : Event → Bool
  | .connect cfg _ _ => decide (cfg.ID = id)
  | _ => false

/-- The event is an adapter call (`Stop` or `Connect`). -/
def Event.isAdapterCall (e : Event) : Bool := e.isStop || e.isConnect

/-- The events a call `ensureConnection(cfg)` can produce. -/
def Event.within (cfg : ChannelConfig) : Event → Bool
  | .lock => true
  | .unlock => true
  | .ensureConnection c => decide (c = cfg)
  | .stop k _ _ => decide (k = cfg.ID)
  | .connect c _ _ => decide (c = cfg)
  | .listConfigs _ _ => false

/-- The config of an entry into `ensureConnection`. -/
def Event.ensureArg : Event → Option ChannelConfig
  | .ensureConnection c => some c
  | _ => none

/-- The event is an adapter call (`Stop` or `Connect`) made for the given
config ID. -/
def Event.touches (id : String) (e : Event) : Bool := e.isStopOf id || e.isConnectOf id

/-! ## Go maps -/

/-- A Go `map[string]V` as an association list read by first match. -/
abbrev GoMap (V : Type) := List (String × V)

namespace GoMap

variable {V : Type}

/-- The comma-ok read `v, ok := m[k]`. -/
def lookup : GoMap V → String → Option V
  | [], _ => none
  | (k, v) :: rest, id => if k = id then some v else lookup rest id

/-- The statement `delete(m, k)`. -/
def delete (m : GoMap V) (id : String) : GoMap V :=
  m.filter (fun p => decide (p.1 ≠ id))

/-- The assignment `m[k] = v`. -/
def insert (m : GoMap V) (id : String) (v : V) : GoMap V :=
  (id, v) :: delete m id

/-- The keys of the map, each once: what a `range` loop visits. -/
def keys (m : GoMap V) : List String :=
  (m.map Prod.fst).dedup

/-- Whether the key is present. -/
def hasKey (m : GoMap V) (id : String) : Bool :=
  (lookup m id).isSome

end GoMap

/-- The read `m.connections[id]` of a map of pointers: nil (`none`) when the
key is absent or holds a nil pointer. -/
def getEntry (conns : GoMap (Option connectionEntry)) (id : String) : Option connectionEntry :=
  (GoMap.lookup conns id).join

/-! ## Strings -/

/-- The predicate `unicode.IsSpace`. -/
def isSpace (c : Char) : Bool :=
  let n := c.toNat
  n = 0x09 || n = 0x0A || n = 0x0B || n = 0x0C || n = 0x0D || n = 0x20 || n = 0x85 || n = 0xA0
    || n = 0x1680 || (0x2000 ≤ n && n ≤ 0x200A) || n = 0x2028 || n = 0x2029 || n = 0x202F
    || n = 0x205F || n = 0x3000

/-- The function `strings.TrimSpace` on a valid UTF-8 string: leading and
trailing white space removed. -/
def TrimSpace (s : String) : String :=
  ⟨((s.data.dropWhile isSpace).reverse.dropWhile isSpace).reverse⟩

/-! ## The manager and its collaborators -/

/-- A `Receiver`: `Connect(ctx, cfg, handler)` returns a connection and an
error, and may change the world. -/
structure Receiver (W H : Type) where
  Connect : ChannelConfig → H → W → (Option Connection × Option GoError) × W

/-- The adapter registry, as far as the manager consults it. -/
structure Registry (W H : Type) where
  Types : List ChannelType
  GetReceiver : ChannelType → Option (Receiver W H)

/-- The config store (`m.service`), as far as the manager consults it. -/
structure ConfigStore (W : Type) where
  ListConfigsByType : ChannelType → W → (List ChannelConfig × Option GoError) × W

/-- Behaviour reached from the manager that lives outside it: the `Stop`
method of connections and the library function `strings.ToLower`. -/
structure Runtime (W : Type) where
  Stop : Connection → W → Option GoError × W
  ToLower : String → String

/-- The immutable fields of `Manager`; `H` is the type of inbound handlers, a
middleware maps a handler to a handler, and a nil `service` is `none`. -/
structure Manager (W H : Type) where
  registry : Registry W H
  service : Option (ConfigStore W)
  middlewares : List (H → H)
  handleInbound : H

/-- The mutable state a manager operation runs in: the world outside the
manager and the map `m.connections`. -/
structure State (W : Type) where
  world : W
  connections : GoMap (Option connectionEntry)

/-- How a call of a function returning `error` ends. -/
inductive Ret where
  | nil : Ret
  | err (e : GoError) : Ret
  | panicked : Ret
  deriving DecidableEq, Repr

/-- What a call leaves behind: the events it produced, in order, the state it
ended in, and what it returned. -/
structure Outcome (W R : Type) where
  trace : List Event
  state : State W
  ret : R

/-- The outcome of a call that was preceded by the given events. -/
def Outcome.after {W R : Type} (evs : List Event) (o : Outcome W R) : Outcome W R :=
  { o with trace := evs ++ o.trace }

/-! ## Operations of the manager -/

section Operations

variable {W H : Type}

/-- The handler handed to `Connect`: starting from `m.handleInbound`, the
middlewares are applied from the last index down to index 0. -/
def Manager.composeHandler (m : Manager W H) : H :=
  m.middlewares.reverse.foldl (fun handler mw => mw handler) m.handleInbound

/-- The second half of `ensureConnection` (from the second `GetReceiver` on):
connect, and store the entry when `Connect` returned no error. -/
def Manager.connectPhase (m : Manager W H) (cfg : ChannelConfig) (s : State W) :
    Outcome W Ret :=
  match m.registry.GetReceiver cfg.ChannelType with
  | none => ⟨[], s, Ret.nil⟩
  | some receiver =>
    let r := receiver.Connect cfg m.composeHandler s.world
    match r.1.2 with
    | some e => ⟨[Event.connect cfg r.1.1 (some e)], { s with world := r.2 }, Ret.err e⟩
    | none =>
      ⟨[Event.connect cfg r.1.1 none, Event.lock, Event.unlock],
        { world := r.2, connections := GoMap.insert s.connections cfg.ID (some ⟨cfg, r.1.1⟩) },
        Ret.nil⟩

/-- The method `Manager.ensureConnection`. -/
def Manager.ensureConnection (rt : Runtime W) (m : Manager W H) (cfg : ChannelConfig)
    (s : State W) : Outcome W Ret :=
  match m.registry.GetReceiver cfg.ChannelType with
  | none => ⟨[Event.ensureConnection cfg], s, Ret.nil⟩
  | some _ =>
    match getEntry s.connections cfg.ID with
    | some entry =>
      if ¬ entry.config.UpdatedAt < cfg.UpdatedAt then
        ⟨[Event.ensureConnection cfg, Event.lock, Event.unlock], s, Ret.nil⟩
      else
        match entry.connection with
        | none => ⟨[Event.ensureConnection cfg, Event.lock, Event.unlock], s, Ret.panicked⟩
        | some conn =>
          let r := rt.Stop conn s.world
          match r.1 with
          | some e =>
            ⟨[Event.ensureConnection cfg, Event.lock, Event.unlock,
                Event.stop cfg.ID conn (some e)],
              { s with world := r.2 },
              if e.isStopNotSupported then Ret.nil else Ret.err e⟩
          | none =>
            (m.connectPhase cfg
                { world := r.2, connections := GoMap.delete s.connections cfg.ID }).after
              [Event.ensureConnection cfg, Event.lock, Event.unlock,
                Event.stop cfg.ID conn none, Event.lock, Event.unlock]
    | none =>
      (m.connectPhase cfg s).after [Event.ensureConnection cfg, Event.lock, Event.unlock]

/-- The status test of `reconcile`: the config has an ID and its status,
trimmed and lower-cased, is blank, `active` or `verified`. -/
def eligible (rt : Runtime W) (cfg : ChannelConfig) : Bool :=
  if cfg.ID = "" then false
  else
    let status := rt.ToLower (TrimSpace cfg.Status)
    if status ≠ "" ∧ status ≠ "active" ∧ status ≠ "verified" then false else true

/-- The first loop of `reconcile`: fills `active` and calls `ensureConnection`
for the eligible configs.  The result holds the map `active` and tells
whether a call panicked. -/
def Manager.reconcileLoop (rt : Runtime W) (m : Manager W H) :
    List ChannelConfig → GoMap ChannelConfig → State W → Outcome W (GoMap ChannelConfig × Bool)
  | [], active, s => ⟨[], s, (active, false)⟩
  | cfg :: rest, active, s =>
    if eligible rt cfg then
      let o := m.ensureConnection rt cfg s
      match o.ret with
      | Ret.panicked => ⟨o.trace, o.state, (GoMap.insert active cfg.ID cfg, true)⟩
      | _ =>
        (Manager.reconcileLoop rt m rest (GoMap.insert active cfg.ID cfg) o.state).after o.trace
    else Manager.reconcileLoop rt m rest active s

/-- A loop `for id := range m.connections` over the given keys; the body
returns the events it produced and the new state. -/
def rangeLoop (body : String → State W → List Event × State W) :
    List String → State W → List Event × State W
  | [], s => ([], s)
  | id :: ids, s =>
    let r := body id s
    let r2 := rangeLoop body ids r.2
    (r.1 ++ r2.1, r2.2)

/-- The body shared by the loops of `reconcile` and `stopAll` once an entry
is to go: stop its connection if it has one, then delete the key. -/
def stopAndDelete (rt : Runtime W) (id : String) (s : State W) : List Event × State W :=
  match getEntry s.connections id with
  | some ⟨_, some conn⟩ =>
    ([Event.stop id conn (rt.Stop conn s.world).1],
      { world := (rt.Stop conn s.world).2, connections := GoMap.delete s.connections id })
  | _ => ([], { s with connections := GoMap.delete s.connections id })

/-- The body of the second loop of `reconcile`. -/
def sweepBody (rt : Runtime W) (active : GoMap ChannelConfig) (id : String) (s : State W) :
    List Event × State W :=
  if GoMap.hasKey active id then ([], s) else stopAndDelete rt id s

/-- The method `Manager.reconcile`; the flag returned tells whether it
panicked. -/
def Manager.reconcile (rt : Runtime W) (m : Manager W H) (configs : List ChannelConfig)
    (s : State W) : Outcome W Bool :=
  let o := m.reconcileLoop rt configs [] s
  if o.ret.2 then ⟨o.trace, o.state, true⟩
  else
    let r := rangeLoop (sweepBody rt o.ret.1) (GoMap.keys o.state.connections) o.state
    ⟨o.trace ++ [Event.lock] ++ r.1 ++ [Event.unlock], r.2, false⟩

/-- The loop of `refresh` over the registry's types: the events, the configs
gathered and the new world. -/
def fetchConfigs (store : ConfigStore W) :
    List ChannelType → List ChannelConfig → W → List Event × List ChannelConfig × W
  | [], configs, w => ([], configs, w)
  | t :: rest, configs, w =>
    let r := store.ListConfigsByType t w
    let r2 :=
      match r.1.2 with
      | some _ => fetchConfigs store rest configs r.2
      | none => fetchConfigs store rest (configs ++ r.1.1) r.2
    (Event.listConfigs t r.1.2 :: r2.1, r2.2)

/-- The method `Manager.refresh`. -/
def Manager.refresh (rt : Runtime W) (m : Manager W H) (s : State W) : Outcome W Bool :=
  match m.service with
  | none => ⟨[], s, false⟩
  | some store =>
    let r := fetchConfigs store m.registry.Types [] s.world
    (m.reconcile rt r.2.1 { s with world := r.2.2 }).after r.1

/-- The method `Manager.stopAll`. -/
def Manager.stopAll (rt : Runtime W) (s : State W) : Outcome W Unit :=
  let r := rangeLoop (stopAndDelete rt) (GoMap.keys s.connections) s
  ⟨[Event.lock] ++ r.1 ++ [Event.unlock], r.2, ()⟩

/-- The method `Manager.Stop`. -/
def Manager.Stop (rt : Runtime W) (configID : String) (s : State W) : Outcome W Ret :=
  let configID := TrimSpace configID
  if configID = "" then ⟨[], s, Ret.err (GoError.other "config id is required")⟩
  else
    match getEntry s.connections configID with
    | some ⟨_, some conn⟩ =>
      let r := rt.Stop conn s.world
      ⟨[Event.lock, Event.unlock, Event.stop configID conn r.1], { s with world := r.2 },
        match r.1 with
        | none => Ret.nil
        | some err => Ret.err err⟩
    | _ => ⟨[Event.lock, Event.unlock], s, Ret.nil⟩

/-- The body of the loop of `StopByBot`. -/
def stopByBotBody (rt : Runtime W) (botID : String) (id : String) (s : State W) :
    List Event × State W :=
  match getEntry s.connections id with
  | some entry =>
    if entry.config.BotID = botID then
      match entry.connection with
      | some conn =>
        ([Event.stop id conn (rt.Stop conn s.world).1],
          { world := (rt.Stop conn s.world).2, connections := GoMap.delete s.connections id })
      | none => ([], { s with connections := GoMap.delete s.connections id })
    else ([], s)
  | none => ([], s)

/-- The method `Manager.StopByBot`. -/
def Manager.StopByBot (rt : Runtime W) (botID : String) (s : State W) : Outcome W Ret :=
  let botID := TrimSpace botID
  if botID = "" then ⟨[], s, Ret.err (GoError.other "bot id is required")⟩
  else
    let r := rangeLoop (stopByBotBody rt botID) (GoMap.keys s.connections) s
    ⟨[Event.lock] ++ r.1 ++ [Event.unlock], r.2, Ret.nil⟩

end Operations

/-! ## Overlapping calls of `ensureConnection`

`ensureConnection` holds the mutex only while it reads or writes the map and
releases it around `Stop` and `Connect`.  Between two such stretches another
goroutine can run.  The call is cut here into its atomic steps: each step is
one stretch under the mutex, or one adapter call made with the mutex
released. -/

/-- Where a call of `ensureConnection` stands between two atomic steps. -/
inductive EnsurePc where
  /-- Not started. -/
  | entry : EnsurePc
  /-- The tracked entry was stale and the mutex is released; next comes
  `entry.connection.Stop(ctx)` on the connection read from the map. -/
  | stopping (conn : Option Connection) : EnsurePc
  /-- `Stop` returned nil; next the key is deleted under the mutex. -/
  | deleting : EnsurePc
  /-- Next come the second `GetReceiver` and `Connect`. -/
  | connecting : EnsurePc
  /-- `Connect` returned this connection and no error; next the entry is
  stored under the mutex. -/
  | storing (conn : Option Connection) : EnsurePc
  /-- The call has ended. -/
  | returned (r : Ret) : EnsurePc
  deriving DecidableEq, Repr

section Steps

variable {W H : Type}

/-- One atomic step of a call `ensureConnection(cfg)`. -/
def Manager.ensureStep (rt : Runtime W) (m : Manager W H) (cfg : ChannelConfig)
    (pc : EnsurePc) (s : State W) : Outcome W EnsurePc :=
  match pc with
  | EnsurePc.entry =>
    match m.registry.GetReceiver cfg.ChannelType with
    | none => ⟨[Event.ensureConnection cfg], s, EnsurePc.returned Ret.nil⟩
    | some _ =>
      match getEntry s.connections cfg.ID with
      | some entry =>
        if ¬ entry.config.UpdatedAt < cfg.UpdatedAt then
          ⟨[Event.ensureConnection cfg, Event.lock, Event.unlock], s, EnsurePc.returned Ret.nil⟩
        else
          ⟨[Event.ensureConnection cfg, Event.lock, Event.unlock], s,
            EnsurePc.stopping entry.connection⟩
      | none => ⟨[Event.ensureConnection cfg, Event.lock, Event.unlock], s, EnsurePc.connecting⟩
  | EnsurePc.stopping none => ⟨[], s, EnsurePc.returned Ret.panicked⟩
  | EnsurePc.stopping (some conn) =>
    let r := rt.Stop conn s.world
    match r.1 with
    | some e =>
      ⟨[Event.stop cfg.ID conn (some e)], { s with world := r.2 },
        EnsurePc.returned (if e.isStopNotSupported then Ret.nil else Ret.err e)⟩
    | none => ⟨[Event.stop cfg.ID conn none], { s with world := r.2 }, EnsurePc.deleting⟩
  | EnsurePc.deleting =>
    ⟨[Event.lock, Event.unlock], { s with connections := GoMap.delete s.connections cfg.ID },
      EnsurePc.connecting⟩
  | EnsurePc.connecting =>
    match m.registry.GetReceiver cfg.ChannelType with
    | none => ⟨[], s, EnsurePc.returned Ret.nil⟩
    | some receiver =>
      let r := receiver.Connect cfg m.composeHandler s.world
      match r.1.2 with
      | some e =>
        ⟨[Event.connect cfg r.1.1 (some e)], { s with world := r.2 },
          EnsurePc.returned (Ret.err e)⟩
      | none => ⟨[Event.connect cfg r.1.1 none], { s with world := r.2 }, EnsurePc.storing r.1.1⟩
  | EnsurePc.storing conn =>
    ⟨[Event.lock, Event.unlock],
      { s with connections := GoMap.insert s.connections cfg.ID (some ⟨cfg, conn⟩) },
      EnsurePc.returned Ret.nil⟩
  | EnsurePc.returned r => ⟨[], s, EnsurePc.returned r⟩

/-- A call `ensureConnection(cfg)` run alone for the given number of steps. -/
def Manager.runSteps (rt : Runtime W) (m : Manager W H) (cfg : ChannelConfig) :
    Nat → EnsurePc → State W → Outcome W EnsurePc
  | 0, pc, s => ⟨[], s, pc⟩
  | n + 1, pc, s =>
    let o := m.ensureStep rt cfg pc s
    (Manager.runSteps rt m cfg n o.ret o.state).after o.trace

/-- Two goroutines, each inside a call of `ensureConnection`, sharing the
manager: where each call stands, the shared state, and the events so far. -/
structure Overlap (W : Type) where
  pc1 : EnsurePc
  pc2 : EnsurePc
  state : State W
  trace : List Event

/-- The scheduler lets one of the two calls make its next atomic step: the
first call when `first` is true, the second otherwise. -/
def Manager.overlapStep (rt : Runtime W) (m : Manager W H) (cfg1 cfg2 : ChannelConfig)
    (o : Overlap W) (first : Bool) : Overlap W :=
  if first then
    let r := m.ensureStep rt cfg1 o.pc1 o.state
    { pc1 := r.ret, pc2 := o.pc2, state := r.state, trace := o.trace ++ r.trace }
  else
    let r := m.ensureStep rt cfg2 o.pc2 o.state
    { pc1 := o.pc1, pc2 := r.ret, state := r.state, trace := o.trace ++ r.trace }

/-- Two calls `ensureConnection(cfg1)` and `ensureConnection(cfg2)` started
in state `s` and interleaved as the schedule says. -/
def Manager.overlap (rt : Runtime W) (m : Manager W H) (cfg1 cfg2 : ChannelConfig)
    (schedule : List Bool) (s : State W) : Overlap W :=
  schedule.foldl (m.overlapStep rt cfg1 cfg2) ⟨EnsurePc.entry, EnsurePc.entry, s, []⟩

end Steps

/-- The connections that are live at the end of a trace: returned by a
`Connect` call without error and not handed since to a `Stop` call that
returned nil. -/
def liveConnections (trace : List Event) : List Connection :=
  trace.foldl
    (fun live e =>
      match e with
      | Event.connect _ (some conn) none => live ++ [conn]
      | Event.stop _ conn none => live.filter (fun c => decide (c ≠ conn))
      | _ => live)
    []

/-! ## Vocabulary of the statements -/

/-- The active set of a config list: the IDs of its eligible configs. -/
def activeIDs {W : Type} (rt : Runtime W) (configs : List ChannelConfig) : List String :=
  (configs.filter (fun c => eligible rt c)).map (fun c => c.ID)

/-! ## A scenario for concrete runs -/

namespace Scenario

/-- Lower-casing of ASCII letters; it stands for `strings.ToLower` in the
scenario, whose strings are ASCII. -/
def lower (s : String) : String := ⟨s.data.map Char.toLower⟩

/-- A telegram config. -/
def config (id botID status : String) (updatedAt : Int) : ChannelConfig :=
  ⟨id, botID, "telegram", [("token", "t")], "", [], [], status, 0, 0, updatedAt⟩

/-- A telegram config without credentials, which the receiver refuses. -/
def badConfig (id : String) (updatedAt : Int) : ChannelConfig :=
  ⟨id, "bot", "telegram", [], "", [], [], "active", 0, 0, updatedAt⟩

/-- A runtime in which connection 7 cannot be stopped, stopping connection 9
fails, and every other `Stop` succeeds. -/
def runtime : Runtime Nat :=
  ⟨fun conn w =>
      (if conn = 7 then some GoError.ErrStopNotSupported
        else if conn = 9 then some (GoError.other "stop failed") else none, w),
    lower⟩

/-- A runtime in which every `Stop` succeeds. -/
def calm : Runtime Nat := ⟨fun _ w => (none, w), lower⟩

/-- A receiver that refuses configs without credentials and otherwise returns
a fresh connection, numbered by the world. -/
def receiver : Receiver Nat Unit :=
  ⟨fun cfg _ w =>
    if cfg.Credentials = [] then ((none, some (GoError.other "no credentials")), w)
    else ((some w, none), w + 1)⟩

/-- A manager whose registry knows `telegram` (with a receiver) and `web`
(without one). -/
def manager : Manager Nat Unit :=
  ⟨⟨["telegram", "web"], fun t => if t = "telegram" then some receiver else none⟩, none, [], ()⟩

/-- A store whose fetch for `web` fails (and returns a list all the same) and
whose fetch for any other type returns the config "x". -/
def store : ConfigStore Nat :=
  ⟨fun t w =>
    if t = "web" then (([config "lost" "a" "active" 1], some (GoError.other "store down")), w)
    else (([config "x" "a" "active" 1], none), w)⟩

/-- The manager of the scenario with the store, its registry listing `web`
before `telegram`. -/
def storeManager : Manager Nat Unit :=
  ⟨⟨["web", "telegram"], fun t => if t = "telegram" then some receiver else none⟩, some store,
    [], ()⟩

/-- The state in which the given entries are tracked; fresh connections are
numbered from 100. -/
def tracking (entries : GoMap (Option connectionEntry)) : State Nat := ⟨100, entries⟩

end Scenario

/-- The entry tracked under the ID belongs to the bot. -/
def ownedBy {W : Type} (botID : String) (s : State W) (id : String) : Bool :=
  match getEntry s.connections id with
  | some entry => decide (entry.config.BotID = botID)
  | none => false

/-- No entry of the map has a nil connection: every value is a nil pointer or
an entry with a connection. -/
def connectionsPresent (conns : GoMap (Option connectionEntry)) : Bool :=
  conns.all (fun p =>
    match p.2 with
    | some entry => entry.connection.isSome
    | none => true)

/-- The receivers of the registry return a connection whenever they return no
error. -/
def Manager.connectsProperly {W H : Type} (m : Manager W H) : Prop :=
  ∀ t receiver cfg w, m.registry.GetReceiver t = some receiver →
    (receiver.Connect cfg m.composeHandler w).1.2 = none →
    (receiver.Connect cfg m.composeHandler w).1.1 ≠ none

/-! ## Vocabulary for handlers and middleware -/

/-- The nesting `m0(m1(...(mn-1(h))...))` of a middleware list around a
handler: the first middleware of the list is the outermost. -/
def nested {H : Type} : List (H → H) → H → H
  | [], h => h
  | mw :: rest, h => mw (nested rest h)

/-- The runtime seen in a world that also keeps a log of handlers: `Stop` does
not touch the log. -/
def Runtime.logging {W : Type} (H : Type) (rt : Runtime W) : Runtime (W × List H) :=
  ⟨fun conn w => ((rt.Stop conn w.1).1, ((rt.Stop conn w.1).2, w.2)), rt.ToLower⟩

/-- The receiver with a probe: it behaves as the given one and appends the
handler it is given to the log. -/
def Receiver.logging {W H : Type} (r : Receiver W H) : Receiver (W × List H) H :=
  ⟨fun cfg handler w =>
    ((r.Connect cfg handler w.1).1, ((r.Connect cfg handler w.1).2, w.2 ++ [handler]))⟩

/-- The manager with a probe on every receiver of its registry. -/
def Manager.logging {W H : Type} (m : Manager W H) : Manager (W × List H) H :=
  ⟨⟨m.registry.Types, fun t => (m.registry.GetReceiver t).map Receiver.logging⟩, none,
    m.middlewares, m.handleInbound⟩

/-- What a handler built from marking middlewares leaves behind for one
inbound event: who saw the event, in which order, and who was done when. -/
inductive Mark where
  | enter (i : Nat) : Mark
  | handled (msg : String) : Mark
  | leave (i : Nat) : Mark
  deriving DecidableEq, Repr

/-- The middleware number `i`: it notes that it has the event, calls the next
handler, and notes that it is done. -/
def marking (i : Nat) (next : String → List Mark) : String → List Mark :=
  fun msg => Mark.enter i :: (next msg ++ [Mark.leave i])

/-- A terminal handler that notes the event it handled. -/
def terminal : String → List Mark := fun msg => [Mark.handled msg]

/-- The string is empty or only white space. -/
def isBlank (s : String) : Bool := s.data.all isSpace

/-! ## Vocabulary for `refresh` -/

section RefreshVocabulary

variable {W : Type}

/-- The fetches of a refresh cycle: one `ListConfigsByType` for each type, in
order, each made in the world the one before left; with each type, the list
and the error returned. -/
def fetchSequence (store : ConfigStore W) :
    List ChannelType → W → List (ChannelType × List ChannelConfig × Option GoError)
  | [], _ => []
  | t :: rest, w =>
    (t, (store.ListConfigsByType t w).1.1, (store.ListConfigsByType t w).1.2)
      :: fetchSequence store rest (store.ListConfigsByType t w).2

/-- The world after the fetches of a refresh cycle. -/
def worldAfterFetches (store : ConfigStore W) : List ChannelType → W → W
  | [], w => w
  | t :: rest, w => worldAfterFetches store rest (store.ListConfigsByType t w).2

/-- The concatenation, in order, of the lists returned by the fetches that
succeeded; a fetch that failed contributes nothing. -/
def succeededConfigs :
    List (ChannelType × List ChannelConfig × Option GoError) → List ChannelConfig
  | [] => []
  | (_, items, none) :: rest => items ++ succeededConfigs rest
  | (_, _, some _) :: rest => succeededConfigs rest

/-- The type of a `ListConfigsByType` call. -/
def Event.fetchArg : Event → Option ChannelType
  | .listConfigs t _ => some t
  | _ => none

end RefreshVocabulary

/-! ## Vocabulary for the mutex -/

/-- Whether the mutex is held after an event, given whether it was held
before. -/
def mutexAfter (held : Bool) : Event → Bool
  | .lock => true
  | .unlock => false
  | _ => held

/-- Whether the mutex is held at the end of a trace, given whether it was held
at its start. -/
def mutexAtEnd (held : Bool) (trace : List Event) : Bool :=
  trace.foldl mutexAfter held

/-- Every adapter call of the trace is made with the mutex released; `held`
tells whether the mutex is held at the start of the trace. -/
def callsOutsideMutex (held : Bool) : List Event → Bool
  | [] => true
  | e :: rest => !(held && e.isAdapterCall) && callsOutsideMutex (mutexAfter held e) rest

/-- Every adapter call of the trace is made with the mutex held; `held` tells
whether the mutex is held at the start of the trace. -/
def callsUnderMutex (held : Bool) : List Event → Bool
  | [] => true
  | e :: rest => !(!held && e.isAdapterCall) && callsUnderMutex (mutexAfter held e) rest

/-! ## Sequences of calls -/

/-- A call of one of the operations of the manager, with its arguments. -/
inductive Call where
  | reconcile (configs : List ChannelConfig) : Call
  | ensureConnection (cfg : ChannelConfig) : Call
  | stopAll : Call
  | Stop (configID : String) : Call
  | StopByBot (botID : String) : Call
  deriving DecidableEq, Repr

section Calls

variable {W H : Type}

/-- The outcome of one call; the flag returned tells whether it panicked. -/
def Manager.call (rt : Runtime W) (m : Manager W H) : Call → State W → Outcome W Bool
  | Call.reconcile configs, s => m.reconcile rt configs s
  | Call.ensureConnection cfg, s =>
    ⟨(m.ensureConnection rt cfg s).trace, (m.ensureConnection rt cfg s).state,
      decide ((m.ensureConnection rt cfg s).ret = Ret.panicked)⟩
  | Call.stopAll, s => ⟨(Manager.stopAll rt s).trace, (Manager.stopAll rt s).state, false⟩
  | Call.Stop configID, s =>
    ⟨(Manager.Stop rt configID s).trace, (Manager.Stop rt configID s).state, false⟩
  | Call.StopByBot botID, s =>
    ⟨(Manager.StopByBot rt botID s).trace, (Manager.StopByBot rt botID s).state, false⟩

/-- A sequence of calls made one after the other; it ends at the first call
that panics. -/
def Manager.run (rt : Runtime W) (m : Manager W H) : List Call → State W → Outcome W Bool
  | [], s => ⟨[], s, false⟩
  | c :: rest, s =>
    if (m.call rt c s).ret then m.call rt c s
    else (Manager.run rt m rest (m.call rt c s).state).after (m.call rt c s).trace

end Calls

/-- Every key of the map holds an entry, not a nil pointer, and the config of
the entry has the key as its ID. -/
def keysConsistent (conns : GoMap (Option connectionEntry)) : Prop :=
  ∀ k v, GoMap.lookup conns k = some v → ∃ entry, v = some entry ∧ entry.config.ID = k

/-- The value is an entry whose config has the key as its ID and whose
connection a `Connect` call of the trace, made with that config, returned
without error. -/
def connectedIn (trace : List Event) (k : String) (v : Option connectionEntry) : Prop :=
  ∃ entry, v = some entry ∧ entry.config.ID = k ∧
    Event.connect entry.config entry.connection none ∈ trace

/-! ## The config service

`Service.ListConfigsByType` of `service.go`.  The store queries, the registry
predicate `IsConfigless` and the JSON decoder `DecodeConfigMap` are not part
of the sources at hand and are parameters.  A `pgtype` value is its payload
with the `Valid` flag; a UUID is kept in its canonical text form, which is
what `db.UUIDToString` returns for a valid value. -/

/-- A `pgtype` value: the payload and the flag `Valid`. -/
structure Pg (α : Type) where
  value : α
  Valid : Bool
  deriving DecidableEq, Repr

/-- The zero value `time.Time{}`. -/
def zeroTime : Int := 0

/-- The function `db.UUIDToString`. -/
def UUIDToString (value : Pg String) : String :=
  if value.Valid then value.value else ""

/-- The function `db.TimeFromPg`. -/
def TimeFromPg (value : Pg Int) : Int :=
  if value.Valid then value.value else zeroTime

/-- The row type `sqlc.BotChannelConfig`; JSON payloads are kept as text. -/
structure BotChannelConfig where
  ID : Pg String
  BotID : Pg String
  ChannelType : String
  Credentials : String
  ExternalIdentity : Pg String
  SelfIdentity : String
  Routing : String
  Status : String
  VerifiedAt : Pg Int
  CreatedAt : Pg Int
  UpdatedAt : Pg Int
  deriving DecidableEq, Repr

/-- The zero value `ChannelConfig{}`. -/
def ChannelConfig.zero : ChannelConfig := ⟨"", "", "", [], "", [], [], "", zeroTime, zeroTime, zeroTime⟩

/-- The function `normalizeChannelConfig`. -/
def normalizeChannelConfig (DecodeConfigMap : String → List (String × String) × Option GoError)
    (row : BotChannelConfig) : ChannelConfig × Option GoError :=
  match (DecodeConfigMap row.Credentials).2 with
  | some err => (ChannelConfig.zero, some err)
  | none =>
    match (DecodeConfigMap row.SelfIdentity).2 with
    | some err => (ChannelConfig.zero, some err)
    | none =>
      match (DecodeConfigMap row.Routing).2 with
      | some err => (ChannelConfig.zero, some err)
      | none =>
        ({ ID := UUIDToString row.ID
           BotID := UUIDToString row.BotID
           ChannelType := row.ChannelType
           Credentials := (DecodeConfigMap row.Credentials).1
           ExternalIdentity :=
             if row.ExternalIdentity.Valid then TrimSpace row.ExternalIdentity.value else ""
           SelfIdentity := (DecodeConfigMap row.SelfIdentity).1
           Routing := (DecodeConfigMap row.Routing).1
           Status := TrimSpace row.Status
           VerifiedAt := if row.VerifiedAt.Valid then row.VerifiedAt.value else zeroTime
           CreatedAt := TimeFromPg row.CreatedAt
           UpdatedAt := TimeFromPg row.UpdatedAt }, none)

/-- The loop of `ListConfigsByType` over the rows: the items in the order of
the rows, or nil and the first error. -/
def normalizeRows (DecodeConfigMap : String → List (String × String) × Option GoError) :
    List BotChannelConfig → List ChannelConfig → List ChannelConfig × Option GoError
  | [], items => (items, none)
  | row :: rest, items =>
    match (normalizeChannelConfig DecodeConfigMap row).2 with
    | some err => ([], some err)
    | none =>
      normalizeRows DecodeConfigMap rest (items ++ [(normalizeChannelConfig DecodeConfigMap row).1])

/-- The store queries the config service makes when it lists configs. -/
structure ConfigQueries (W : Type) where
  ListBotChannelConfigsByType : String → W → (List BotChannelConfig × Option GoError) × W

/-- The struct `Service` of the channel package: a nil `queries` is `none`;
of the registry, the predicate `IsConfigless`. -/
structure Service (W : Type) where
  queries : Option (ConfigQueries W)
  IsConfigless : ChannelType → Bool

/-- The method `Service.ListConfigsByType`. -/
def Service.ListConfigsByType {W : Type}
    (DecodeConfigMap : String → List (String × String) × Option GoError) (s : Service W)
    (channelType : ChannelType) (w : W) : (List ChannelConfig × Option GoError) × W :=
  match s.queries with
  | none => (([], some (GoError.other "channel queries not configured")), w)
  | some queries =>
    if s.IsConfigless channelType then (([], none), w)
    else
      match (queries.ListBotChannelConfigsByType channelType w).1.2 with
      | some err => (([], some err), (queries.ListBotChannelConfigsByType channelType w).2)
      | none =>
        (normalizeRows DecodeConfigMap (queries.ListBotChannelConfigsByType channelType w).1.1 [],
          (queries.ListBotChannelConfigsByType channelType w).2)

/-- The service as the manager holds it in `m.service`. -/
def Service.asConfigStore {W : Type}
    (DecodeConfigMap : String → List (String × String) × Option GoError) (s : Service W) :
    ConfigStore W :=
  ⟨s.ListConfigsByType DecodeConfigMap⟩

namespace Scenario

/-- A decoder for the scenario: the payload "bad" is refused, any other one
decodes to a single pair. -/
def decode (payload : String) : List (String × String) × Option GoError :=
  if payload = "bad" then ([], some (GoError.other "invalid json")) else ([("token", payload)], none)

/-- A row of the given type. -/
def row (id channelType : String) : BotChannelConfig :=
  ⟨⟨id, true⟩, ⟨"a", true⟩, channelType, "t", ⟨"", false⟩, "s", "r", "active", ⟨0, false⟩,
    ⟨1, true⟩, ⟨1, true⟩⟩

/-- Queries that count the reads in the world and return one row of the type
asked for. -/
def configQueries : ConfigQueries Nat :=
  ⟨fun t w => (([row "x" t], none), w + 1)⟩

/-- A config service for which `web` is configless. -/
def configService : Service Nat := ⟨some configQueries, fun t => decide (t = "web")⟩

/-- The manager of the scenario with the config service as its store. -/
def serviceManager : Manager Nat Unit :=
  ⟨⟨["web", "telegram"], fun t => if t = "telegram" then some receiver else none⟩,
    some (configService.asConfigStore decode), [], ()⟩

/-- A receiver whose `Connect` returns a nil connection and a nil error. -/
def nilReceiver : Receiver Nat Unit := ⟨fun _ _ w => ((none, none), w)⟩

/-- A manager whose only receiver, for `telegram`, is the one that returns a
nil connection. -/
def nilManager : Manager Nat Unit :=
  ⟨⟨["telegram"], fun t => if t = "telegram" then some nilReceiver else none⟩, none, [], ()⟩

/-- A `web` config. -/
def webConfig (id : String) (updatedAt : Int) : ChannelConfig :=
  ⟨id, "a", "web", [], "", [], [], "active", 0, 0, updatedAt⟩

end Scenario

end Channel

/-! ## Model validation

`Model.Validate` of `models/types.go`.  The library function `uuid.Parse` is a
parameter: `uuidParse s` tells whether it accepts `s`.  A returned error is
its message; nil is `none`. -/

namespace Models

/-- The string type `ModelType`. -/
abbrev ModelType := String

/-- The constant `ModelTypeChat`. -/
def ModelTypeChat : ModelType := "chat"

/-- The constant `ModelTypeEmbedding`. -/
def ModelTypeEmbedding : ModelType := "embedding"

/-- The string type `EnableAs`. -/
abbrev EnableAs := String

/-- The constant `EnableAsChat`. -/
def EnableAsChat : EnableAs := "chat"

/-- The constant `EnableAsMemory`. -/
def EnableAsMemory : EnableAs := "memory"

/-- The constant `EnableAsEmbedding`. -/
def EnableAsEmbedding : EnableAs := "embedding"

/-- The struct `Model`; a nil `EnableAs` pointer is `none`, and the field
`Type` is written `type`. -/
structure Model where
  ModelID : String
  Name : String
  LlmProviderID : String
  IsMultimodal : Bool
  type : ModelType
  Dimensions : Int
  EnableAs : Option EnableAs
  deriving DecidableEq, Repr

/-- The method `Model.Validate`. -/
def Model.Validate (uuidParse : String → Bool) (m : Model) : Option String :=
  if m.ModelID = "" then some "model ID is required"
  else if m.LlmProviderID = "" then some "llm provider ID is required"
  else if uuidParse m.LlmProviderID = false then some "llm provider ID must be a valid UUID"
  else if m.type ≠ ModelTypeChat ∧ m.type ≠ ModelTypeEmbedding then some "invalid model type"
  else if m.type = ModelTypeEmbedding ∧ m.Dimensions ≤ 0 then
    some "dimensions must be greater than 0"
  else
    match m.EnableAs with
    | some enableAs =>
      if m.type = ModelTypeEmbedding then
        if enableAs ≠ EnableAsEmbedding then
          some "embedding models can only have enable_as set to 'embedding'"
        else none
      else if m.type = ModelTypeChat then
        if enableAs ≠ EnableAsChat ∧ enableAs ≠ EnableAsMemory then
          some "chat models can only have enable_as set to 'chat' or 'memory'"
        else none
      else none
    | none => none

namespace Scenario

/-- A recogniser of the canonical text form of a UUID: 36 characters, hyphens
at the positions 8, 13, 18 and 23, hexadecimal digits elsewhere. It stands for
`uuid.Parse` in the scenario. -/
def canonicalUUID (s : String) : Bool :=
  decide (s.data.length = 36) &&
    (List.range 36).all (fun i =>
      if i = 8 ∨ i = 13 ∨ i = 18 ∨ i = 23 then s.data.getD i 'x' = '-'
      else
        let c := s.data.getD i 'x'
        c.isDigit || ('a' ≤ c && c ≤ 'f') || ('A' ≤ c && c ≤ 'F'))

/-- A chat model enabled as memory. -/
def chatModel : Model :=
  ⟨"gpt", "GPT", "123e4567-e89b-12d3-a456-426614174000", false, "chat", 0, some "memory"⟩

end Scenario

end Models

/-! ## The bot service

`AuthorizeAccess`, `ListAccessible` and the methods they call, of
`bots/service.go`.  The store queries, the library functions `uuid.Parse` and
`json.Unmarshal` and the constant `BotTypePublic` are not part of the sources
at hand and are parameters.  A function returning `(T, error)` returns a pair
whose second component is `none` for a nil error. -/

namespace Bots

open Channel (Pg GoMap TrimSpace zeroTime)

/-- Go `error` values as far as the bot service tells them apart: its own
sentinels, `pgx.ErrNoRows`, an error wrapping another one (`%w`), or any other
error. -/
inductive Error where
  | ErrBotNotFound : Error
  | ErrBotAccessDenied : Error
  | ErrNoRows : Error
  | wrapped (msg : String) (inner : Error) : Error
  | other (msg : String) : Error
  deriving DecidableEq, Repr

/-- The test `errors.Is(err, pgx.ErrNoRows)`. -/
def Error.isNoRows : Error → Bool
  | .ErrNoRows => true
  | .wrapped _ inner => inner.isNoRows
  | _ => false

/-- The struct `Bot`; the field `Type` is written `type`, and the metadata map
is kept as a list of key/value pairs. -/
structure Bot where
  ID : String
  OwnerUserID : String
  type : String
  DisplayName : String
  AvatarURL : String
  IsActive : Bool
  Metadata : List (String × String)
  CreatedAt : Int
  UpdatedAt : Int
  deriving DecidableEq, Repr

/-- The zero value `Bot{}`. -/
def Bot.zero : Bot := ⟨"", "", "", "", "", false, [], zeroTime, zeroTime⟩

/-- The struct `BotMember`. -/
structure BotMember where
  BotID : String
  UserID : String
  Role : String
  CreatedAt : Int
  deriving DecidableEq, Repr

/-- The zero value `BotMember{}`. -/
def BotMember.zero : BotMember := ⟨"", "", "", zeroTime⟩

/-- The struct `AccessPolicy`. -/
structure AccessPolicy where
  AllowPublicMember : Bool
  deriving DecidableEq, Repr

/-- The row type `sqlc.Bot`; the metadata payload is kept as text. -/
structure BotRow where
  ID : Pg String
  OwnerUserID : Pg String
  type : String
  DisplayName : Pg String
  AvatarUrl : Pg String
  IsActive : Bool
  Metadata : String
  CreatedAt : Pg Int
  UpdatedAt : Pg Int
  deriving DecidableEq, Repr

/-- The row type `sqlc.BotMember`. -/
structure BotMemberRow where
  BotID : Pg String
  UserID : Pg String
  Role : String
  CreatedAt : Pg Int
  deriving DecidableEq, Repr

/-- What the sources at hand leave open: `uuid.Parse` (the canonical text of
the UUID, or `none` when the string is refused), `json.Unmarshal` into a map
(the map, nil for the JSON value null, and the error), and the constant
`BotTypePublic`. -/
structure Env where
  uuidParse : String → Option String
  unmarshal : String → Option (List (String × String)) × Option Error
  BotTypePublic : String

/-- The store queries the bot service makes here. -/
structure Queries (W : Type) where
  GetBotByID : Pg String → W → (BotRow × Option Error) × W
  ListBotsByOwner : Pg String → W → (List BotRow × Option Error) × W
  ListBotsByMember : Pg String → W → (List BotRow × Option Error) × W
  GetBotMember : Pg String → Pg String → W → (BotMemberRow × Option Error) × W

/-- The struct `Service` of the bots package; a nil `queries` is `none`. -/
structure Service (W : Type) where
  queries : Option (Queries W)

/-- The function `parseUUID`. -/
def parseUUID (env : Env) (id : String) : Pg String × Option Error :=
  match env.uuidParse (TrimSpace id) with
  | none => (⟨"", false⟩, some (Error.other "invalid UUID"))
  | some parsed => (⟨parsed, true⟩, none)

/-- The function `toUUIDString`. -/
def toUUIDString (value : Pg String) : String :=
  if value.Valid then value.value else ""

/-- The function `decodeMetadata`. -/
def decodeMetadata (env : Env) (payload : String) : List (String × String) × Option Error :=
  if payload = "" then ([], none)
  else
    match (env.unmarshal payload).2 with
    | some err => ([], some err)
    | none =>
      match (env.unmarshal payload).1 with
      | none => ([], none)
      | some data => (data, none)

/-- The function `toBot`. -/
def toBot (env : Env) (row : BotRow) : Bot × Option Error :=
  match (decodeMetadata env row.Metadata).2 with
  | some err => (Bot.zero, some err)
  | none =>
    ({ ID := toUUIDString row.ID
       OwnerUserID := toUUIDString row.OwnerUserID
       type := row.type
       DisplayName := if row.DisplayName.Valid then row.DisplayName.value else ""
       AvatarURL := if row.AvatarUrl.Valid then row.AvatarUrl.value else ""
       IsActive := row.IsActive
       Metadata := (decodeMetadata env row.Metadata).1
       CreatedAt := if row.CreatedAt.Valid then row.CreatedAt.value else zeroTime
       UpdatedAt := if row.UpdatedAt.Valid then row.UpdatedAt.value else zeroTime }, none)

/-- The function `toBotMember`. -/
def toBotMember (row : BotMemberRow) : BotMember :=
  ⟨toUUIDString row.BotID, toUUIDString row.UserID, row.Role,
    if row.CreatedAt.Valid then row.CreatedAt.value else zeroTime⟩

/-- The loop of `ListByOwner` and `ListByMember` over the rows: the items in
the order of the rows, or nil and the first error. -/
def toBots (env : Env) : List BotRow → List Bot → List Bot × Option Error
  | [], items => (items, none)
  | row :: rest, items =>
    match (toBot env row).2 with
    | some err => ([], some err)
    | none => toBots env rest (items ++ [(toBot env row).1])

section Methods

variable {W : Type}

/-- The method `Service.Get`. -/
def Service.Get (env : Env) (s : Service W) (botID : String) (w : W) :
    (Bot × Option Error) × W :=
  match s.queries with
  | none => ((Bot.zero, some (Error.other "bot queries not configured")), w)
  | some queries =>
    match (parseUUID env botID).2 with
    | some err => ((Bot.zero, some err), w)
    | none =>
      match (queries.GetBotByID (parseUUID env botID).1 w).1.2 with
      | some err => ((Bot.zero, some err), (queries.GetBotByID (parseUUID env botID).1 w).2)
      | none =>
        (toBot env (queries.GetBotByID (parseUUID env botID).1 w).1.1,
          (queries.GetBotByID (parseUUID env botID).1 w).2)

/-- The method `Service.GetMember`. -/
def Service.GetMember (env : Env) (s : Service W) (botID channelIdentityID : String) (w : W) :
    (BotMember × Option Error) × W :=
  match s.queries with
  | none => ((BotMember.zero, some (Error.other "bot queries not configured")), w)
  | some queries =>
    match (parseUUID env botID).2 with
    | some err => ((BotMember.zero, some err), w)
    | none =>
      match (parseUUID env channelIdentityID).2 with
      | some err => ((BotMember.zero, some err), w)
      | none =>
        match (queries.GetBotMember (parseUUID env botID).1
            (parseUUID env channelIdentityID).1 w).1.2 with
        | some err =>
          ((BotMember.zero, some err),
            (queries.GetBotMember (parseUUID env botID).1
              (parseUUID env channelIdentityID).1 w).2)
        | none =>
          ((toBotMember (queries.GetBotMember (parseUUID env botID).1
              (parseUUID env channelIdentityID).1 w).1.1, none),
            (queries.GetBotMember (parseUUID env botID).1
              (parseUUID env channelIdentityID).1 w).2)

/-- The method `Service.AuthorizeAccess`. -/
def Service.AuthorizeAccess (env : Env) (s : Service W) (userID botID : String)
    (isAdmin : Bool) (policy : AccessPolicy) (w : W) : (Bot × Option Error) × W :=
  match s.queries with
  | none => ((Bot.zero, some (Error.other "bot queries not configured")), w)
  | some _ =>
    match (s.Get env botID w).1.2 with
    | some err =>
      if err.isNoRows then ((Bot.zero, some Error.ErrBotNotFound), (s.Get env botID w).2)
      else ((Bot.zero, some err), (s.Get env botID w).2)
    | none =>
      if isAdmin = true ∨ (s.Get env botID w).1.1.OwnerUserID = userID then
        (((s.Get env botID w).1.1, none), (s.Get env botID w).2)
      else if policy.AllowPublicMember = true
          ∧ (s.Get env botID w).1.1.type = env.BotTypePublic then
        match (s.GetMember env botID userID (s.Get env botID w).2).1.2 with
        | none =>
          (((s.Get env botID w).1.1, none),
            (s.GetMember env botID userID (s.Get env botID w).2).2)
        | some _ =>
          ((Bot.zero, some Error.ErrBotAccessDenied),
            (s.GetMember env botID userID (s.Get env botID w).2).2)
      else ((Bot.zero, some Error.ErrBotAccessDenied), (s.Get env botID w).2)

/-- The method `Service.ListByOwner`. -/
def Service.ListByOwner (env : Env) (s : Service W) (ownerUserID : String) (w : W) :
    (List Bot × Option Error) × W :=
  match s.queries with
  | none => (([], some (Error.other "bot queries not configured")), w)
  | some queries =>
    match (parseUUID env ownerUserID).2 with
    | some err => (([], some err), w)
    | none =>
      match (queries.ListBotsByOwner (parseUUID env ownerUserID).1 w).1.2 with
      | some err => (([], some err), (queries.ListBotsByOwner (parseUUID env ownerUserID).1 w).2)
      | none =>
        (toBots env (queries.ListBotsByOwner (parseUUID env ownerUserID).1 w).1.1 [],
          (queries.ListBotsByOwner (parseUUID env ownerUserID).1 w).2)

/-- The method `Service.ListByMember`. -/
def Service.ListByMember (env : Env) (s : Service W) (channelIdentityID : String) (w : W) :
    (List Bot × Option Error) × W :=
  match s.queries with
  | none => (([], some (Error.other "bot queries not configured")), w)
  | some queries =>
    match (parseUUID env channelIdentityID).2 with
    | some err => (([], some err), w)
    | none =>
      match (queries.ListBotsByMember (parseUUID env channelIdentityID).1 w).1.2 with
      | some err =>
        (([], some err), (queries.ListBotsByMember (parseUUID env channelIdentityID).1 w).2)
      | none =>
        (toBots env (queries.ListBotsByMember (parseUUID env channelIdentityID).1 w).1.1 [],
          (queries.ListBotsByMember (parseUUID env channelIdentityID).1 w).2)

end Methods

/-- The first loop of `ListAccessible`: every owned bot is stored under its
ID. -/
def seenOwned (owned : List Bot) (seen : GoMap Bot) : GoMap Bot :=
  owned.foldl (fun seen item => GoMap.insert seen item.ID item) seen

/-- The second loop of `ListAccessible`: a member bot is stored under its ID
unless the ID is there already. -/
def seenMembers (members : List Bot) (seen : GoMap Bot) : GoMap Bot :=
  members.foldl
    (fun seen item => if GoMap.hasKey seen item.ID then seen else GoMap.insert seen item.ID item)
    seen

/-- The third loop of `ListAccessible`: the values of the map, one for each
key. Go leaves the order unspecified; the model takes the order of the keys. -/
def seenItems (seen : GoMap Bot) : List Bot :=
  (GoMap.keys seen).filterMap (GoMap.lookup seen)

/-- The method `Service.ListAccessible`. -/
def Service.ListAccessible {W : Type} (env : Env) (s : Service W) (channelIdentityID : String)
    (w : W) : (List Bot × Option Error) × W :=
  match (s.ListByOwner env channelIdentityID w).1.2 with
  | some err => (([], some err), (s.ListByOwner env channelIdentityID w).2)
  | none =>
    match (s.ListByMember env channelIdentityID (s.ListByOwner env channelIdentityID w).2).1.2
      with
    | some err =>
      (([], some err),
        (s.ListByMember env channelIdentityID (s.ListByOwner env channelIdentityID w).2).2)
    | none =>
      ((seenItems
          (seenMembers
            (s.ListByMember env channelIdentityID
              (s.ListByOwner env channelIdentityID w).2).1.1
            (seenOwned (s.ListByOwner env channelIdentityID w).1.1 [])), none),
        (s.ListByMember env channelIdentityID (s.ListByOwner env channelIdentityID w).2).2)

namespace Scenario

/-- An environment for the scenario: a string parses as a UUID when it is not
empty, and is its own canonical form; metadata payloads decode to the empty
map; the public bot type is "public". -/
def env : Env := ⟨fun s => if s = "" then none else some s, fun _ => (some [], none), "public"⟩

/-- A bot row. -/
def botRow (id owner type name : String) : BotRow :=
  ⟨⟨id, true⟩, ⟨owner, true⟩, type, ⟨name, true⟩, ⟨"", false⟩, true, "", ⟨1, true⟩, ⟨1, true⟩⟩

/-- The bot a row is converted to. -/
def bot (id owner type name : String) : Bot := ⟨id, owner, type, name, "", true, [], 1, 1⟩

/-- Queries over a fixed store that count the reads in the world: every bot
asked for is the public bot of "alice"; "alice" owns the bots "b1" and "b2"
and is listed as a member of "b2" (under another name) and "b3"; the only
membership is that of "bob". -/
def queries : Queries Nat :=
  ⟨fun id w => ((botRow id.value "alice" "public" "one", none), w + 1),
    fun _ w => (([botRow "b1" "alice" "public" "one", botRow "b2" "alice" "public" "two"],
      none), w + 1),
    fun _ w => (([botRow "b2" "alice" "public" "deux", botRow "b3" "carol" "public" "three"],
      none), w + 1),
    fun botID userID w =>
      if userID.value = "bob" then ((⟨botID, userID, "member", ⟨1, true⟩⟩, none), w + 1)
      else ((⟨⟨"", false⟩, ⟨"", false⟩, "", ⟨0, false⟩⟩, some Error.ErrNoRows), w + 1)⟩

/-- The bot service of the scenario. -/
def service : Service Nat := ⟨some queries⟩

end Scenario

end Bots

/-! ## The settings service

`Upsert`, `Get` and `normalizeUserSetting` of `settings/service.go`.  The
store queries, the library function `uuid.Parse` and the constants
`DefaultMaxContextLoadTime` and `DefaultLanguage` are not part of the sources
at hand and are parameters.  A Go `int` is 64 bits wide, and values of the
types `int` and `int32` are integers in the range of the type. -/

namespace UserSettings

open Channel (Pg TrimSpace)

/-- Go `error` values as far as the settings service tells them apart:
`pgx.ErrNoRows`, an error wrapping another one (`%w`), or any other error. -/
inductive Error where
  | ErrNoRows : Error
  | wrapped (msg : String) (inner : Error) : Error
  | other (msg : String) : Error
  deriving DecidableEq, Repr

/-- The test `errors.Is(err, pgx.ErrNoRows)`. -/
def Error.isNoRows : Error → Bool
  | .ErrNoRows => true
  | .wrapped _ inner => inner.isNoRows
  | .other _ => false

/-- The conversion `int32(x)` of an `int`: the low 32 bits, read as a signed
number. -/
def toInt32 (x : Int) : Int := (x + 2 ^ 31) % 2 ^ 32 - 2 ^ 31

/-- The struct `Settings`. -/
structure Settings where
  ChatModelID : String
  MemoryModelID : String
  EmbeddingModelID : String
  MaxContextLoadTime : Int
  Language : String
  AllowGuest : Bool
  deriving DecidableEq, Repr

/-- The zero value `Settings{}`. -/
def Settings.zero : Settings := ⟨"", "", "", 0, "", false⟩

/-- The struct `UpsertRequest`; a nil pointer is `none`. -/
structure UpsertRequest where
  ChatModelID : String
  MemoryModelID : String
  EmbeddingModelID : String
  MaxContextLoadTime : Option Int
  Language : String
  AllowGuest : Option Bool
  deriving DecidableEq, Repr

/-- The row type `sqlc.UserSetting`; `MaxContextLoadTime` is an `int32`. -/
structure UserSetting where
  UserID : Pg String
  ChatModelID : Pg String
  MemoryModelID : Pg String
  EmbeddingModelID : Pg String
  MaxContextLoadTime : Int
  Language : String
  deriving DecidableEq, Repr

/-- The zero value `sqlc.UserSetting{}`. -/
def UserSetting.zero : UserSetting := ⟨⟨"", false⟩, ⟨"", false⟩, ⟨"", false⟩, ⟨"", false⟩, 0, ""⟩

/-- The struct `sqlc.UpsertUserSettingsParams`; `MaxContextLoadTime` is an
`int32`. -/
structure UpsertUserSettingsParams where
  UserID : Pg String
  ChatModelID : Pg String
  MemoryModelID : Pg String
  EmbeddingModelID : Pg String
  MaxContextLoadTime : Int
  Language : String
  deriving DecidableEq, Repr

/-- What the sources at hand leave open: `uuid.Parse` (the canonical text of
the UUID, or `none` when the string is refused) and the two default
constants. -/
structure Env where
  uuidParse : String → Option String
  DefaultMaxContextLoadTime : Int
  DefaultLanguage : String

/-- The store queries the settings service makes for user settings. -/
structure Queries (W : Type) where
  GetSettingsByUserID : Pg String → W → (UserSetting × Option Error) × W
  UpsertUserSettings : UpsertUserSettingsParams → W → (UserSetting × Option Error) × W

/-- The struct `Service` of the settings package; a nil `queries` is `none`. -/
structure Service (W : Type) where
  queries : Option (Queries W)

/-- The function `parseUUID`. -/
def parseUUID (env : Env) (id : String) : Pg String × Option Error :=
  match env.uuidParse id with
  | none => (⟨"", false⟩, some (Error.other "invalid UUID"))
  | some parsed => (⟨parsed, true⟩, none)

/-- The function `normalizeUserSetting`. -/
def normalizeUserSetting (env : Env) (row : UserSetting) : Settings :=
  { ChatModelID := TrimSpace row.ChatModelID.value
    MemoryModelID := TrimSpace row.MemoryModelID.value
    EmbeddingModelID := TrimSpace row.EmbeddingModelID.value
    MaxContextLoadTime :=
      if row.MaxContextLoadTime ≤ 0 then env.DefaultMaxContextLoadTime
      else row.MaxContextLoadTime
    Language := if TrimSpace row.Language = "" then env.DefaultLanguage else TrimSpace row.Language
    AllowGuest := false }

/-- The settings `Upsert` and `Get` start from when the store has no row. -/
def defaults (env : Env) : Settings :=
  ⟨"", "", "", env.DefaultMaxContextLoadTime, env.DefaultLanguage, false⟩

/-- The merge of the request into the current settings, the five `if`
statements of `Upsert`. -/
def mergeRequest (current : Settings) (req : UpsertRequest) : Settings :=
  { ChatModelID :=
      if TrimSpace req.ChatModelID ≠ "" then TrimSpace req.ChatModelID else current.ChatModelID
    MemoryModelID :=
      if TrimSpace req.MemoryModelID ≠ "" then TrimSpace req.MemoryModelID
      else current.MemoryModelID
    EmbeddingModelID :=
      if TrimSpace req.EmbeddingModelID ≠ "" then TrimSpace req.EmbeddingModelID
      else current.EmbeddingModelID
    MaxContextLoadTime :=
      match req.MaxContextLoadTime with
      | some value => if value > 0 then value else current.MaxContextLoadTime
      | none => current.MaxContextLoadTime
    Language := if TrimSpace req.Language ≠ "" then TrimSpace req.Language else current.Language
    AllowGuest := current.AllowGuest }

/-- The parameters `Upsert` hands to the store query `UpsertUserSettings`. -/
def upsertParams (pgID : Pg String) (current : Settings) : UpsertUserSettingsParams :=
  { UserID := pgID
    ChatModelID := ⟨current.ChatModelID, decide (current.ChatModelID ≠ "")⟩
    MemoryModelID := ⟨current.MemoryModelID, decide (current.MemoryModelID ≠ "")⟩
    EmbeddingModelID := ⟨current.EmbeddingModelID, decide (current.EmbeddingModelID ≠ "")⟩
    MaxContextLoadTime := toInt32 current.MaxContextLoadTime
    Language := current.Language }

section Methods

variable {W : Type}

/-- The end of `Upsert`, from the merge on: the settings read so far are
merged with the request, handed to the store and returned. -/
def upsertMerged (queries : Queries W) (pgID : Pg String) (current : Settings)
    (req : UpsertRequest) (w : W) : (Settings × Option Error) × W :=
  match (queries.UpsertUserSettings (upsertParams pgID (mergeRequest current req)) w).1.2 with
  | some err =>
    ((Settings.zero, some err),
      (queries.UpsertUserSettings (upsertParams pgID (mergeRequest current req)) w).2)
  | none =>
    ((mergeRequest current req, none),
      (queries.UpsertUserSettings (upsertParams pgID (mergeRequest current req)) w).2)

/-- The method `Service.Upsert`. -/
def Service.Upsert (env : Env) (s : Service W) (userID : String) (req : UpsertRequest) (w : W) :
    (Settings × Option Error) × W :=
  match s.queries with
  | none => ((Settings.zero, some (Error.other "settings queries not configured")), w)
  | some queries =>
    match (parseUUID env userID).2 with
    | some err => ((Settings.zero, some err), w)
    | none =>
      match (queries.GetSettingsByUserID (parseUUID env userID).1 w).1.2 with
      | some err =>
        if err.isNoRows then
          upsertMerged queries (parseUUID env userID).1 (defaults env) req
            (queries.GetSettingsByUserID (parseUUID env userID).1 w).2
        else
          ((Settings.zero, some err), (queries.GetSettingsByUserID (parseUUID env userID).1 w).2)
      | none =>
        upsertMerged queries (parseUUID env userID).1
          (normalizeUserSetting env (queries.GetSettingsByUserID (parseUUID env userID).1 w).1.1)
          req (queries.GetSettingsByUserID (parseUUID env userID).1 w).2

/-- The method `Service.Get`; with nil `queries` the store call panics, which
is `none`. -/
def Service.Get (env : Env) (s : Service W) (userID : String) (w : W) :
    Option ((Settings × Option Error) × W) :=
  match (parseUUID env userID).2 with
  | some err => some ((Settings.zero, some err), w)
  | none =>
    match s.queries with
    | none => none
    | some queries =>
      match (queries.GetSettingsByUserID (parseUUID env userID).1 w).1.2 with
      | some err =>
        if err.isNoRows then
          some ((defaults env, none), (queries.GetSettingsByUserID (parseUUID env userID).1 w).2)
        else
          some ((Settings.zero, some err),
            (queries.GetSettingsByUserID (parseUUID env userID).1 w).2)
      | none =>
        some ((normalizeUserSetting env
            (queries.GetSettingsByUserID (parseUUID env userID).1 w).1.1, none),
          (queries.GetSettingsByUserID (parseUUID env userID).1 w).2)

end Methods

namespace Scenario

/-- An environment for the scenario: a string parses as a UUID when it has the
canonical form of 36 characters, and its canonical text is the string in lower
case; the defaults are 1440 and "auto". -/
def env : Env :=
  ⟨fun s => if Models.Scenario.canonicalUUID s then some ⟨s.data.map Char.toLower⟩ else none,
    1440, "auto"⟩

/-- The row the store keeps for the parameters of an upsert. -/
def rowOf (p : UpsertUserSettingsParams) : UserSetting :=
  ⟨p.UserID, p.ChatModelID, p.MemoryModelID, p.EmbeddingModelID, p.MaxContextLoadTime,
    p.Language⟩

/-- A store whose world is the list of the parameters it was handed, the
latest first: an upsert adds its parameters, a read returns the row of the
latest upsert for the user, or `pgx.ErrNoRows`. -/
def queries : Queries (List UpsertUserSettingsParams) :=
  ⟨fun pgID w =>
      match w.find? (fun p => decide (p.UserID = pgID)) with
      | some p => ((rowOf p, none), w)
      | none => ((UserSetting.zero, some Error.ErrNoRows), w),
    fun p w => ((rowOf p, none), p :: w)⟩

/-- The settings service of the scenario. -/
def service : Service (List UpsertUserSettingsParams) := ⟨some queries⟩

/-- A request that sets `MaxContextLoadTime` only. -/
def request (value : Int) : UpsertRequest := ⟨"", "", "", some value, "", none⟩

/-- A user ID, a UUID in canonical form. -/
def userID : String := "123e4567-e89b-12d3-a456-426614174000"

end Scenario

end UserSettings

namespace Channel

/-! ## Lemmas on Go maps -/

namespace GoMap

variable {V : Type}

theorem lookup_delete_self (m : GoMap V) (id : String) : lookup (delete m id) id = none := by
  induction m with
  | nil => rfl
  | cons p rest ih =>
    by_cases h : p.1 = id
    · simpa [delete, List.filter_cons, h] using ih
    · have : lookup (p :: delete rest id) id = lookup (delete rest id) id := by
        obtain ⟨k, v⟩ := p
        simp only [lookup]
        rw [if_neg h]
      simpa [delete, List.filter_cons, h] using this.trans ih

theorem lookup_delete_ne (m : GoMap V) {id k : String} (h : k ≠ id) :
    lookup (delete m id) k = lookup m k := by
  induction m with
  | nil => rfl
  | cons p rest ih =>
    obtain ⟨a, v⟩ := p
    by_cases ha : a = id
    · have hak : a ≠ k := fun e => h (e ▸ ha)
      have h1 : delete ((a, v) :: rest) id = delete rest id := by
        simp [delete, List.filter_cons, ha]
      rw [h1, ih]
      simp [lookup, hak]
    · have h1 : delete ((a, v) :: rest) id = (a, v) :: delete rest id := by
        simp [delete, List.filter_cons, ha]
      rw [h1]
      simp only [lookup]
      rw [ih]

theorem lookup_insert_self (m : GoMap V) (id : String) (v : V) :
    lookup (insert m id v) id = some v := by
  simp [insert, lookup]

theorem lookup_insert_ne (m : GoMap V) {id k : String} (v : V) (h : k ≠ id) :
    lookup (insert m id v) k = lookup m k := by
  have hne : id ≠ k := fun e => h e.symm
  simp only [insert, lookup]
  rw [if_neg hne, lookup_delete_ne m h]

theorem lookup_isSome_iff (m : GoMap V) (id : String) :
    (lookup m id).isSome = true ↔ id ∈ m.map Prod.fst := by
  induction m with
  | nil => simp [lookup]
  | cons p rest ih =>
    obtain ⟨a, v⟩ := p
    by_cases ha : a = id
    · simp [lookup, ha]
    · have hne : id ≠ a := fun e => ha e.symm
      simp only [lookup]
      rw [if_neg ha, ih]
      simp [hne]

theorem mem_keys (m : GoMap V) (id : String) : id ∈ keys m ↔ (lookup m id).isSome = true := by
  rw [lookup_isSome_iff]
  simp [keys]

theorem nodup_keys (m : GoMap V) : (keys m).Nodup := List.nodup_dedup _

theorem lookup_eq_none_of_not_mem_keys (m : GoMap V) {id : String} (h : id ∉ keys m) :
    lookup m id = none := by
  rw [mem_keys] at h
  cases hl : lookup m id with
  | none => rfl
  | some v => simp [hl] at h

theorem hasKey_insert (m : GoMap V) (id k : String) (v : V) :
    hasKey (insert m id v) k = true ↔ k = id ∨ hasKey m k = true := by
  by_cases h : k = id
  · subst h
    simp [hasKey, lookup_insert_self]
  · simp [hasKey, lookup_insert_ne m v h, h]

end GoMap

theorem getEntry_delete_self (conns : GoMap (Option connectionEntry)) (id : String) :
    getEntry (GoMap.delete conns id) id = none := by
  simp [getEntry, GoMap.lookup_delete_self]

theorem getEntry_delete_ne (conns : GoMap (Option connectionEntry)) {id k : String} (h : k ≠ id) :
    getEntry (GoMap.delete conns id) k = getEntry conns k := by
  simp [getEntry, GoMap.lookup_delete_ne conns h]

theorem getEntry_insert_self (conns : GoMap (Option connectionEntry)) (id : String)
    (e : connectionEntry) : getEntry (GoMap.insert conns id (some e)) id = some e := by
  simp [getEntry, GoMap.lookup_insert_self]

theorem getEntry_eq_none_of_lookup {conns : GoMap (Option connectionEntry)} {id : String}
    (h : GoMap.lookup conns id = none) : getEntry conns id = none := by
  simp [getEntry, h]

/-! ## Case analysis of `ensureConnection` -/

section EnsureLemmas

variable {W H : Type}

/-- The paths through the second half of `ensureConnection`, given that the
registry has a receiver. -/
theorem connectPhase_elim (m : Manager W H) (cfg : ChannelConfig) (s : State W)
    (receiver : Receiver W H) (hr : m.registry.GetReceiver cfg.ChannelType = some receiver)
    (P : Outcome W Ret → Prop)
    (hfail : ∀ e, (receiver.Connect cfg m.composeHandler s.world).1.2 = some e →
      P ⟨[Event.connect cfg (receiver.Connect cfg m.composeHandler s.world).1.1 (some e)],
        { s with world := (receiver.Connect cfg m.composeHandler s.world).2 }, Ret.err e⟩)
    (hok : (receiver.Connect cfg m.composeHandler s.world).1.2 = none →
      P ⟨[Event.connect cfg (receiver.Connect cfg m.composeHandler s.world).1.1 none,
          Event.lock, Event.unlock],
        { world := (receiver.Connect cfg m.composeHandler s.world).2,
          connections := GoMap.insert s.connections cfg.ID
            (some ⟨cfg, (receiver.Connect cfg m.composeHandler s.world).1.1⟩) },
        Ret.nil⟩) :
    P (m.connectPhase cfg s) := by
  unfold Manager.connectPhase
  simp only [hr]
  cases hc : (receiver.Connect cfg m.composeHandler s.world).1.2 with
  | none => simpa [hc] using hok hc
  | some e => simpa [hc] using hfail e hc

/-- The paths through `ensureConnection`: no receiver; entry up to date; stale
entry with a nil connection; `Stop` failed; the entry was absent or was stopped,
and `Connect` follows. -/
theorem ensureConnection_elim (rt : Runtime W) (m : Manager W H) (cfg : ChannelConfig)
    (s : State W) (P : Outcome W Ret → Prop)
    (hnone : m.registry.GetReceiver cfg.ChannelType = none →
      P ⟨[Event.ensureConnection cfg], s, Ret.nil⟩)
    (hfresh : ∀ receiver entry, m.registry.GetReceiver cfg.ChannelType = some receiver →
      getEntry s.connections cfg.ID = some entry → ¬ entry.config.UpdatedAt < cfg.UpdatedAt →
      P ⟨[Event.ensureConnection cfg, Event.lock, Event.unlock], s, Ret.nil⟩)
    (hpanic : ∀ receiver entry, m.registry.GetReceiver cfg.ChannelType = some receiver →
      getEntry s.connections cfg.ID = some entry → entry.config.UpdatedAt < cfg.UpdatedAt →
      entry.connection = none →
      P ⟨[Event.ensureConnection cfg, Event.lock, Event.unlock], s, Ret.panicked⟩)
    (hstopErr : ∀ receiver entry conn e,
      m.registry.GetReceiver cfg.ChannelType = some receiver →
      getEntry s.connections cfg.ID = some entry → entry.config.UpdatedAt < cfg.UpdatedAt →
      entry.connection = some conn → (rt.Stop conn s.world).1 = some e →
      P ⟨[Event.ensureConnection cfg, Event.lock, Event.unlock, Event.stop cfg.ID conn (some e)],
        { s with world := (rt.Stop conn s.world).2 },
        if e.isStopNotSupported then Ret.nil else Ret.err e⟩)
    (hrestart : ∀ receiver entry conn,
      m.registry.GetReceiver cfg.ChannelType = some receiver →
      getEntry s.connections cfg.ID = some entry → entry.config.UpdatedAt < cfg.UpdatedAt →
      entry.connection = some conn → (rt.Stop conn s.world).1 = none →
      P ((m.connectPhase cfg
          { world := (rt.Stop conn s.world).2,
            connections := GoMap.delete s.connections cfg.ID }).after
        [Event.ensureConnection cfg, Event.lock, Event.unlock, Event.stop cfg.ID conn none,
          Event.lock, Event.unlock]))
    (hstart : ∀ receiver, m.registry.GetReceiver cfg.ChannelType = some receiver →
      getEntry s.connections cfg.ID = none →
      P ((m.connectPhase cfg s).after [Event.ensureConnection cfg, Event.lock, Event.unlock])) :
    P (m.ensureConnection rt cfg s) := by
  unfold Manager.ensureConnection
  cases hr : m.registry.GetReceiver cfg.ChannelType with
  | none => simpa using hnone hr
  | some receiver =>
    cases he : getEntry s.connections cfg.ID with
    | none => simpa using hstart receiver hr he
    | some entry =>
      by_cases hlt : entry.config.UpdatedAt < cfg.UpdatedAt
      · cases hc : entry.connection with
        | none => simpa [hlt, hc] using hpanic receiver entry hr he hlt hc
        | some conn =>
          cases hs : (rt.Stop conn s.world).1 with
          | none => simpa [hlt, hc, hs] using hrestart receiver entry conn hr he hlt hc hs
          | some e => simpa [hlt, hc, hs] using hstopErr receiver entry conn e hr he hlt hc hs
      · simpa [hlt] using hfresh receiver entry hr he hlt

/-- All paths through `ensureConnection`, with the second half unfolded. -/
theorem ensureConnection_cases (rt : Runtime W) (m : Manager W H) (cfg : ChannelConfig)
    (s : State W) (P : Outcome W Ret → Prop)
    (hnone : m.registry.GetReceiver cfg.ChannelType = none →
      P ⟨[Event.ensureConnection cfg], s, Ret.nil⟩)
    (hfresh : ∀ entry, getEntry s.connections cfg.ID = some entry →
      ¬ entry.config.UpdatedAt < cfg.UpdatedAt →
      P ⟨[Event.ensureConnection cfg, Event.lock, Event.unlock], s, Ret.nil⟩)
    (hpanic : ∀ entry, getEntry s.connections cfg.ID = some entry →
      entry.config.UpdatedAt < cfg.UpdatedAt → entry.connection = none →
      P ⟨[Event.ensureConnection cfg, Event.lock, Event.unlock], s, Ret.panicked⟩)
    (hstopErr : ∀ entry conn e, getEntry s.connections cfg.ID = some entry →
      entry.config.UpdatedAt < cfg.UpdatedAt →
      entry.connection = some conn → (rt.Stop conn s.world).1 = some e →
      P ⟨[Event.ensureConnection cfg, Event.lock, Event.unlock, Event.stop cfg.ID conn (some e)],
        { s with world := (rt.Stop conn s.world).2 },
        if e.isStopNotSupported then Ret.nil else Ret.err e⟩)
    (hrestartFail : ∀ receiver entry conn e,
      m.registry.GetReceiver cfg.ChannelType = some receiver →
      getEntry s.connections cfg.ID = some entry → entry.config.UpdatedAt < cfg.UpdatedAt →
      entry.connection = some conn → (rt.Stop conn s.world).1 = none →
      (receiver.Connect cfg m.composeHandler (rt.Stop conn s.world).2).1.2 = some e →
      P ⟨[Event.ensureConnection cfg, Event.lock, Event.unlock, Event.stop cfg.ID conn none,
          Event.lock, Event.unlock,
          Event.connect cfg (receiver.Connect cfg m.composeHandler (rt.Stop conn s.world).2).1.1
            (some e)],
        { world := (receiver.Connect cfg m.composeHandler (rt.Stop conn s.world).2).2,
          connections := GoMap.delete s.connections cfg.ID },
        Ret.err e⟩)
    (hrestartOk : ∀ receiver entry conn,
      m.registry.GetReceiver cfg.ChannelType = some receiver →
      getEntry s.connections cfg.ID = some entry → entry.config.UpdatedAt < cfg.UpdatedAt →
      entry.connection = some conn → (rt.Stop conn s.world).1 = none →
      (receiver.Connect cfg m.composeHandler (rt.Stop conn s.world).2).1.2 = none →
      P ⟨[Event.ensureConnection cfg, Event.lock, Event.unlock, Event.stop cfg.ID conn none,
          Event.lock, Event.unlock,
          Event.connect cfg (receiver.Connect cfg m.composeHandler (rt.Stop conn s.world).2).1.1
            none,
          Event.lock, Event.unlock],
        { world := (receiver.Connect cfg m.composeHandler (rt.Stop conn s.world).2).2,
          connections := GoMap.insert (GoMap.delete s.connections cfg.ID) cfg.ID
            (some ⟨cfg,
              (receiver.Connect cfg m.composeHandler (rt.Stop conn s.world).2).1.1⟩) },
        Ret.nil⟩)
    (hstartFail : ∀ receiver e, m.registry.GetReceiver cfg.ChannelType = some receiver →
      getEntry s.connections cfg.ID = none →
      (receiver.Connect cfg m.composeHandler s.world).1.2 = some e →
      P ⟨[Event.ensureConnection cfg, Event.lock, Event.unlock,
          Event.connect cfg (receiver.Connect cfg m.composeHandler s.world).1.1 (some e)],
        { s with world := (receiver.Connect cfg m.composeHandler s.world).2 }, Ret.err e⟩)
    (hstartOk : ∀ receiver, m.registry.GetReceiver cfg.ChannelType = some receiver →
      getEntry s.connections cfg.ID = none →
      (receiver.Connect cfg m.composeHandler s.world).1.2 = none →
      P ⟨[Event.ensureConnection cfg, Event.lock, Event.unlock,
          Event.connect cfg (receiver.Connect cfg m.composeHandler s.world).1.1 none,
          Event.lock, Event.unlock],
        { world := (receiver.Connect cfg m.composeHandler s.world).2,
          connections := GoMap.insert s.connections cfg.ID
            (some ⟨cfg, (receiver.Connect cfg m.composeHandler s.world).1.1⟩) },
        Ret.nil⟩) :
    P (m.ensureConnection rt cfg s) := by
  refine ensureConnection_elim rt m cfg s P hnone (fun _ entry _ => hfresh entry)
    (fun _ entry _ => hpanic entry) (fun _ entry conn e _ => hstopErr entry conn e) ?_ ?_
  · intro receiver entry conn hr he hlt hc hs
    refine connectPhase_elim m cfg _ receiver hr (fun o => P (o.after _)) ?_ ?_
    · intro e hce
      exact hrestartFail receiver entry conn e hr he hlt hc hs hce
    · intro hce
      exact hrestartOk receiver entry conn hr he hlt hc hs hce
  · intro receiver hr he
    refine connectPhase_elim m cfg _ receiver hr (fun o => P (o.after _)) ?_ ?_
    · intro e hce
      exact hstartFail receiver e hr he hce
    · intro hce
      exact hstartOk receiver hr he hce

theorem ensureConnection_within (rt : Runtime W) (m : Manager W H) (cfg : ChannelConfig)
    (s : State W) : ∀ e ∈ (m.ensureConnection rt cfg s).trace, Event.within cfg e = true := by
  refine ensureConnection_cases rt m cfg s (fun o => ∀ e ∈ o.trace, Event.within cfg e = true)
    ?_ ?_ ?_ ?_ ?_ ?_ ?_ ?_
  all_goals intros
  all_goals simp [Event.within]

theorem ensureConnection_ensureArg (rt : Runtime W) (m : Manager W H) (cfg : ChannelConfig)
    (s : State W) : (m.ensureConnection rt cfg s).trace.filterMap Event.ensureArg = [cfg] := by
  refine ensureConnection_cases rt m cfg s
    (fun o => o.trace.filterMap Event.ensureArg = [cfg]) ?_ ?_ ?_ ?_ ?_ ?_ ?_ ?_
  all_goals intros
  all_goals simp [Event.ensureArg]

theorem ensureConnection_lookup_ne (rt : Runtime W) (m : Manager W H) (cfg : ChannelConfig)
    (s : State W) {k : String} (h : k ≠ cfg.ID) :
    GoMap.lookup (m.ensureConnection rt cfg s).state.connections k
      = GoMap.lookup s.connections k := by
  refine ensureConnection_cases rt m cfg s
    (fun o => GoMap.lookup o.state.connections k = GoMap.lookup s.connections k)
    ?_ ?_ ?_ ?_ ?_ ?_ ?_ ?_
  all_goals intros
  all_goals simp [GoMap.lookup_insert_ne _ _ h, GoMap.lookup_delete_ne _ h]

theorem Event.touches_of_within {cfg : ChannelConfig} {id : String} {e : Event}
    (hw : Event.within cfg e = true) (hne : cfg.ID ≠ id) : Event.touches id e = false := by
  cases e <;> simp_all [Event.within, Event.touches, Event.isStopOf, Event.isConnectOf]

end EnsureLemmas

/-! ## The first loop of `reconcile` -/

section LoopLemmas

variable {W H : Type}

theorem Outcome.after_nil {R : Type} (o : Outcome W R) : o.after [] = o := by
  cases o
  simp [Outcome.after]

theorem Outcome.after_after {R : Type} (o : Outcome W R) (a b : List Event) :
    (o.after b).after a = o.after (a ++ b) := by
  simp [Outcome.after]

theorem reconcileLoop_nil (rt : Runtime W) (m : Manager W H) (active : GoMap ChannelConfig)
    (s : State W) : m.reconcileLoop rt [] active s = ⟨[], s, (active, false)⟩ := rfl

theorem reconcileLoop_skip (rt : Runtime W) (m : Manager W H) (cfg : ChannelConfig)
    (rest : List ChannelConfig) (active : GoMap ChannelConfig) (s : State W)
    (h : eligible rt cfg = false) :
    m.reconcileLoop rt (cfg :: rest) active s = m.reconcileLoop rt rest active s := by
  simp [Manager.reconcileLoop, h]

theorem reconcileLoop_panic (rt : Runtime W) (m : Manager W H) (cfg : ChannelConfig)
    (rest : List ChannelConfig) (active : GoMap ChannelConfig) (s : State W)
    (h : eligible rt cfg = true) (hp : (m.ensureConnection rt cfg s).ret = Ret.panicked) :
    m.reconcileLoop rt (cfg :: rest) active s
      = ⟨(m.ensureConnection rt cfg s).trace, (m.ensureConnection rt cfg s).state,
          (GoMap.insert active cfg.ID cfg, true)⟩ := by
  simp [Manager.reconcileLoop, h, hp]

theorem reconcileLoop_step (rt : Runtime W) (m : Manager W H) (cfg : ChannelConfig)
    (rest : List ChannelConfig) (active : GoMap ChannelConfig) (s : State W)
    (h : eligible rt cfg = true) (hp : (m.ensureConnection rt cfg s).ret ≠ Ret.panicked) :
    m.reconcileLoop rt (cfg :: rest) active s
      = (m.reconcileLoop rt rest (GoMap.insert active cfg.ID cfg)
          (m.ensureConnection rt cfg s).state).after (m.ensureConnection rt cfg s).trace := by
  simp only [Manager.reconcileLoop, h, if_true]

/-- The loop over a concatenation: the loop over the first part and, unless
that panicked, the loop over the second part. -/
theorem reconcileLoop_append (rt : Runtime W) (m : Manager W H) (pre post : List ChannelConfig)
    (active : GoMap ChannelConfig) (s : State W) :
    m.reconcileLoop rt (pre ++ post) active s
      = if (m.reconcileLoop rt pre active s).ret.2 = true then m.reconcileLoop rt pre active s
        else (m.reconcileLoop rt post (m.reconcileLoop rt pre active s).ret.1
          (m.reconcileLoop rt pre active s).state).after (m.reconcileLoop rt pre active s).trace := by
  induction pre generalizing active s with
  | nil => simp [reconcileLoop_nil, Outcome.after_nil]
  | cons cfg rest ih =>
    cases he : eligible rt cfg with
    | false =>
      rw [List.cons_append, reconcileLoop_skip _ _ _ _ _ _ he, reconcileLoop_skip _ _ _ _ _ _ he]
      exact ih active s
    | true =>
      by_cases hp : (m.ensureConnection rt cfg s).ret = Ret.panicked
      · rw [List.cons_append, reconcileLoop_panic _ _ _ _ _ _ he hp,
          reconcileLoop_panic _ _ _ _ _ _ he hp]
        simp
      · rw [List.cons_append, reconcileLoop_step _ _ _ _ _ _ he hp,
          reconcileLoop_step _ _ _ _ _ _ he hp, ih]
        split
        · rename_i h
          simp [Outcome.after, h]
        · rename_i h
          simp [Outcome.after, h]

/-- Keys of `active` after the loop: those it had and the IDs of the eligible
configs. -/
theorem reconcileLoop_active (rt : Runtime W) (m : Manager W H) (configs : List ChannelConfig)
    (active : GoMap ChannelConfig) (s : State W)
    (hret : (m.reconcileLoop rt configs active s).ret.2 = false) (id : String) :
    GoMap.hasKey (m.reconcileLoop rt configs active s).ret.1 id = true ↔
      GoMap.hasKey active id = true ∨ ∃ c ∈ configs, eligible rt c = true ∧ c.ID = id := by
  induction configs generalizing active s with
  | nil => simp [reconcileLoop_nil]
  | cons cfg rest ih =>
    cases he : eligible rt cfg with
    | false =>
      rw [reconcileLoop_skip _ _ _ _ _ _ he] at hret ⊢
      rw [ih active s hret]
      constructor
      · rintro (h | ⟨c, hc, h1, h2⟩)
        · exact Or.inl h
        · exact Or.inr ⟨c, List.mem_cons_of_mem _ hc, h1, h2⟩
      · rintro (h | ⟨c, hc, h1, h2⟩)
        · exact Or.inl h
        · rcases List.mem_cons.1 hc with rfl | hc
          · rw [he] at h1
            cases h1
          · exact Or.inr ⟨c, hc, h1, h2⟩
    | true =>
      by_cases hp : (m.ensureConnection rt cfg s).ret = Ret.panicked
      · rw [reconcileLoop_panic _ _ _ _ _ _ he hp] at hret
        cases hret
      · rw [reconcileLoop_step _ _ _ _ _ _ he hp] at hret ⊢
        have hret2 : (m.reconcileLoop rt rest (GoMap.insert active cfg.ID cfg)
            (m.ensureConnection rt cfg s).state).ret.2 = false := by
          simpa [Outcome.after] using hret
        have := ih (GoMap.insert active cfg.ID cfg) (m.ensureConnection rt cfg s).state hret2
        simp only [Outcome.after]
        rw [this, GoMap.hasKey_insert]
        constructor
        · rintro ((h | h) | ⟨c, hc, h1, h2⟩)
          · exact Or.inr ⟨cfg, List.mem_cons_self _ _, he, h.symm⟩
          · exact Or.inl h
          · exact Or.inr ⟨c, List.mem_cons_of_mem _ hc, h1, h2⟩
        · rintro (h | ⟨c, hc, h1, h2⟩)
          · exact Or.inl (Or.inr h)
          · rcases List.mem_cons.1 hc with rfl | hc
            · exact Or.inl (Or.inl h2.symm)
            · exact Or.inr ⟨c, hc, h1, h2⟩

/-- The loop leaves alone every ID that no eligible config has: its key keeps
its value and no adapter call is made for it. -/
theorem reconcileLoop_frame (rt : Runtime W) (m : Manager W H) (configs : List ChannelConfig)
    (active : GoMap ChannelConfig) (s : State W) (id : String)
    (h : ∀ c ∈ configs, eligible rt c = true → c.ID ≠ id) :
    GoMap.lookup (m.reconcileLoop rt configs active s).state.connections id
        = GoMap.lookup s.connections id ∧
      ∀ e ∈ (m.reconcileLoop rt configs active s).trace, Event.touches id e = false := by
  induction configs generalizing active s with
  | nil => simp [reconcileLoop_nil]
  | cons cfg rest ih =>
    have hrest : ∀ c ∈ rest, eligible rt c = true → c.ID ≠ id :=
      fun c hc => h c (List.mem_cons_of_mem _ hc)
    cases he : eligible rt cfg with
    | false =>
      rw [reconcileLoop_skip _ _ _ _ _ _ he]
      exact ih active s hrest
    | true =>
      have hne : cfg.ID ≠ id := h cfg (List.mem_cons_self _ _) he
      have hl := ensureConnection_lookup_ne rt m cfg s (Ne.symm hne)
      have ht : ∀ e ∈ (m.ensureConnection rt cfg s).trace, Event.touches id e = false :=
        fun e hm => Event.touches_of_within (ensureConnection_within rt m cfg s e hm) hne
      by_cases hp : (m.ensureConnection rt cfg s).ret = Ret.panicked
      · rw [reconcileLoop_panic _ _ _ _ _ _ he hp]
        exact ⟨hl, ht⟩
      · rw [reconcileLoop_step _ _ _ _ _ _ he hp]
        obtain ⟨h1, h2⟩ := ih (GoMap.insert active cfg.ID cfg)
          (m.ensureConnection rt cfg s).state hrest
        refine ⟨by simpa [Outcome.after] using h1.trans hl, ?_⟩
        intro e hm
        simp only [Outcome.after, List.mem_append] at hm
        rcases hm with hm | hm
        · exact ht e hm
        · exact h2 e hm

/-- Entries into `ensureConnection` made by the loop: one for each eligible
config, in list order. -/
theorem reconcileLoop_ensureArg (rt : Runtime W) (m : Manager W H)
    (configs : List ChannelConfig) (active : GoMap ChannelConfig) (s : State W)
    (hret : (m.reconcileLoop rt configs active s).ret.2 = false) :
    (m.reconcileLoop rt configs active s).trace.filterMap Event.ensureArg
      = configs.filter (fun c => eligible rt c) := by
  induction configs generalizing active s with
  | nil => simp [reconcileLoop_nil]
  | cons cfg rest ih =>
    cases he : eligible rt cfg with
    | false =>
      rw [reconcileLoop_skip _ _ _ _ _ _ he] at hret ⊢
      rw [ih active s hret]
      simp [List.filter_cons, he]
    | true =>
      by_cases hp : (m.ensureConnection rt cfg s).ret = Ret.panicked
      · rw [reconcileLoop_panic _ _ _ _ _ _ he hp] at hret
        cases hret
      · rw [reconcileLoop_step _ _ _ _ _ _ he hp] at hret ⊢
        have hret2 : (m.reconcileLoop rt rest (GoMap.insert active cfg.ID cfg)
            (m.ensureConnection rt cfg s).state).ret.2 = false := by
          simpa [Outcome.after] using hret
        simp only [Outcome.after, List.filterMap_append]
        rw [ih _ _ hret2, ensureConnection_ensureArg]
        simp [List.filter_cons, he]

end LoopLemmas

/-! ## Loops over the connection map -/

section RangeLemmas

variable {W : Type}

theorem stopAndDelete_connections (rt : Runtime W) (id : String) (s : State W) :
    (stopAndDelete rt id s).2.connections = GoMap.delete s.connections id := by
  unfold stopAndDelete
  split <;> rfl

theorem stopAndDelete_trace_some (rt : Runtime W) (id : String) (s : State W)
    (cfg : ChannelConfig) (conn : Connection)
    (h : getEntry s.connections id = some ⟨cfg, some conn⟩) :
    (stopAndDelete rt id s).1 = [Event.stop id conn (rt.Stop conn s.world).1] := by
  unfold stopAndDelete
  rw [h]

theorem stopAndDelete_trace_mem (rt : Runtime W) (id : String) (s : State W) (e : Event)
    (h : e ∈ (stopAndDelete rt id s).1) :
    ∃ cfg conn err, e = Event.stop id conn err ∧
      getEntry s.connections id = some ⟨cfg, some conn⟩ := by
  unfold stopAndDelete at h
  split at h
  · rename_i cfg conn heq
    simp only [List.mem_singleton] at h
    exact ⟨cfg, conn, _, h, heq⟩
  · simp at h

/-- A loop over distinct keys whose body stops and deletes the keys selected
by `P` and leaves the others alone; `P` may look at the entry of the key. -/
theorem rangeLoop_spec (rt : Runtime W) (P : State W → String → Bool)
    (body : String → State W → List Event × State W)
    (hbody : ∀ id s, body id s = if P s id = true then stopAndDelete rt id s else ([], s))
    (hP : ∀ s s2 id, getEntry s.connections id = getEntry s2.connections id → P s id = P s2 id)
    (ks : List String) (hnd : ks.Nodup) (s : State W) :
    (∀ k, GoMap.lookup (rangeLoop body ks s).2.connections k
        = if k ∈ ks ∧ P s k = true then none else GoMap.lookup s.connections k) ∧
    (∀ e ∈ (rangeLoop body ks s).1, ∃ id cfg conn err, e = Event.stop id conn err ∧ id ∈ ks ∧
        P s id = true ∧ getEntry s.connections id = some ⟨cfg, some conn⟩) ∧
    (∀ id ∈ ks, P s id = true → ∀ cfg conn, getEntry s.connections id = some ⟨cfg, some conn⟩ →
        ∃ err, (rangeLoop body ks s).1.filter (Event.isStopOf id) = [Event.stop id conn err]) := by
  induction ks generalizing s with
  | nil =>
    refine ⟨fun k => by simp [rangeLoop], fun e he => by simp [rangeLoop] at he, ?_⟩
    intro id hid
    cases hid
  | cons k rest ih =>
    have hk : k ∉ rest := (List.nodup_cons.1 hnd).1
    obtain ⟨ih1, ih2, ih3⟩ := ih (List.nodup_cons.1 hnd).2 (body k s).2
    -- entries of the other keys are not touched by the body at `k`
    have hget : ∀ id, id ≠ k → getEntry (body k s).2.connections id = getEntry s.connections id := by
      intro id hne
      rw [hbody]
      split
      · rw [stopAndDelete_connections, getEntry_delete_ne _ hne]
      · rfl
    have hPs : ∀ id, id ≠ k → P (body k s).2 id = P s id := fun id hne => hP _ _ id (hget id hne)
    have hlook : ∀ id, GoMap.lookup (body k s).2.connections id
        = if id = k ∧ P s k = true then none else GoMap.lookup s.connections id := by
      intro id
      rw [hbody]
      by_cases hp : P s k = true
      · simp only [hp, if_true, and_true, stopAndDelete_connections]
        by_cases hid : id = k
        · subst hid
          simp [GoMap.lookup_delete_self]
        · simp [hid, GoMap.lookup_delete_ne _ hid]
      · simp [hp]
    have hmem : ∀ e ∈ (body k s).1, ∃ cfg conn err, e = Event.stop k conn err ∧ P s k = true ∧
        getEntry s.connections k = some ⟨cfg, some conn⟩ := by
      intro e he
      rw [hbody] at he
      by_cases hp : P s k = true
      · simp only [hp, if_true] at he
        obtain ⟨cfg, conn, err, h1, h2⟩ := stopAndDelete_trace_mem rt k s e he
        exact ⟨cfg, conn, err, h1, hp, h2⟩
      · simp [hp] at he
    refine ⟨?_, ?_, ?_⟩
    · intro id
      simp only [rangeLoop]
      rw [ih1, hlook]
      by_cases hid : id = k
      · subst hid
        by_cases hp : P s id = true <;> simp [hp, hk]
      · rw [hPs id hid]
        by_cases hr : id ∈ rest <;> by_cases hp : P s id = true <;> simp [hid, hr, hp]
    · intro e he
      simp only [rangeLoop, List.mem_append] at he
      rcases he with he | he
      · obtain ⟨cfg, conn, err, h1, h2, h3⟩ := hmem e he
        exact ⟨k, cfg, conn, err, h1, List.mem_cons_self _ _, h2, h3⟩
      · obtain ⟨id, cfg, conn, err, h1, h2, h3, h4⟩ := ih2 e he
        have hne : id ≠ k := fun h => hk (h ▸ h2)
        exact ⟨id, cfg, conn, err, h1, List.mem_cons_of_mem _ h2, (hPs id hne) ▸ h3,
          (hget id hne) ▸ h4⟩
    · intro id hid hp cfg conn hent
      simp only [rangeLoop, List.filter_append]
      rcases List.mem_cons.1 hid with rfl | hid
      · have h1 : (body id s).1 = [Event.stop id conn (rt.Stop conn s.world).1] := by
          rw [hbody]
          simp only [hp, if_true]
          exact stopAndDelete_trace_some rt id s cfg conn hent
        have h2 : (rangeLoop body rest (body id s).2).1.filter (Event.isStopOf id) = [] := by
          rw [List.filter_eq_nil_iff]
          intro e he
          obtain ⟨id2, _, conn2, err2, h1, h2, _, _⟩ := ih2 e he
          have hne : id2 ≠ id := fun h => hk (h ▸ h2)
          simp [h1, Event.isStopOf, hne]
        refine ⟨(rt.Stop conn s.world).1, ?_⟩
        rw [h1, h2]
        simp [Event.isStopOf]
      · have hne : id ≠ k := fun h => hk (h ▸ hid)
        have h1 : (body k s).1.filter (Event.isStopOf id) = [] := by
          rw [List.filter_eq_nil_iff]
          intro e he
          obtain ⟨_, conn2, err2, h1, _, _⟩ := hmem e he
          simp [h1, Event.isStopOf, Ne.symm hne]
        obtain ⟨err, h2⟩ := ih3 id hid ((hPs id hne).symm ▸ hp) cfg conn
          ((hget id hne).symm ▸ hent)
        exact ⟨err, by rw [h1, h2]; rfl⟩

theorem sweepBody_eq (rt : Runtime W) (active : GoMap ChannelConfig) (id : String)
    (s : State W) :
    sweepBody rt active id s
      = if (!GoMap.hasKey active id) = true then stopAndDelete rt id s else ([], s) := by
  unfold sweepBody
  cases GoMap.hasKey active id <;> simp

theorem getEntry_congr {c1 c2 : GoMap (Option connectionEntry)} {id : String}
    (h : GoMap.lookup c1 id = GoMap.lookup c2 id) : getEntry c1 id = getEntry c2 id := by
  simp [getEntry, h]

theorem mem_keys_of_getEntry {conns : GoMap (Option connectionEntry)} {id : String}
    {e : connectionEntry} (h : getEntry conns id = some e) : id ∈ GoMap.keys conns := by
  rw [GoMap.mem_keys]
  cases hl : GoMap.lookup conns id with
  | none => simp [getEntry, hl] at h
  | some v => rfl

end RangeLemmas

/-! ## Reconciliation -/

section Reconcile

variable {W H : Type}

theorem mem_activeIDs (rt : Runtime W) (configs : List ChannelConfig) (id : String) :
    id ∈ activeIDs rt configs ↔ ∃ c ∈ configs, eligible rt c = true ∧ c.ID = id := by
  simp [activeIDs, and_assoc]

theorem not_mem_activeIDs (rt : Runtime W) (configs : List ChannelConfig) (id : String) :
    id ∉ activeIDs rt configs ↔ ∀ c ∈ configs, eligible rt c = true → c.ID ≠ id := by
  simp [activeIDs]

theorem reconcile_ret (rt : Runtime W) (m : Manager W H) (configs : List ChannelConfig)
    (s : State W) : (m.reconcile rt configs s).ret = (m.reconcileLoop rt configs [] s).ret.2 := by
  unfold Manager.reconcile
  dsimp only
  split
  · rename_i h
    simp [h]
  · rename_i h
    simpa using h

/-- What `reconcile` amounts to when its first loop does not panic. -/
theorem reconcile_eq (rt : Runtime W) (m : Manager W H) (configs : List ChannelConfig)
    (s : State W) (h : (m.reconcileLoop rt configs [] s).ret.2 = false) :
    m.reconcile rt configs s
      = ⟨(m.reconcileLoop rt configs [] s).trace ++ [Event.lock]
            ++ (rangeLoop (sweepBody rt (m.reconcileLoop rt configs [] s).ret.1)
                (GoMap.keys (m.reconcileLoop rt configs [] s).state.connections)
                (m.reconcileLoop rt configs [] s).state).1 ++ [Event.unlock],
          (rangeLoop (sweepBody rt (m.reconcileLoop rt configs [] s).ret.1)
                (GoMap.keys (m.reconcileLoop rt configs [] s).state.connections)
                (m.reconcileLoop rt configs [] s).state).2, false⟩ := by
  unfold Manager.reconcile
  simp [h]

/-- After the first loop, the keys of `active` are the IDs of the active set. -/
theorem reconcileLoop_active_nil (rt : Runtime W) (m : Manager W H)
    (configs : List ChannelConfig) (s : State W)
    (hret : (m.reconcileLoop rt configs [] s).ret.2 = false) (id : String) :
    GoMap.hasKey (m.reconcileLoop rt configs [] s).ret.1 id = true ↔ id ∈ activeIDs rt configs := by
  rw [reconcileLoop_active rt m configs [] s hret id, mem_activeIDs]
  simp [GoMap.hasKey, GoMap.lookup]

/-- The removal sweep, for an ID outside the active set: the key is gone, and
`Stop` was called for it exactly as often as it had a connection. -/
theorem reconcile_sweep_inactive (rt : Runtime W) (m : Manager W H)
    (configs : List ChannelConfig) (s : State W) (hret : (m.reconcile rt configs s).ret = false)
    (id : String) (hid : id ∉ activeIDs rt configs) :
    GoMap.lookup (m.reconcile rt configs s).state.connections id = none ∧
      (∀ cfg conn, getEntry s.connections id = some ⟨cfg, some conn⟩ →
        ∃ err, (m.reconcile rt configs s).trace.filter (Event.isStopOf id)
          = [Event.stop id conn err]) ∧
      ((∀ cfg conn, getEntry s.connections id ≠ some ⟨cfg, some conn⟩) →
        (m.reconcile rt configs s).trace.filter (Event.isStopOf id) = []) := by
  rw [reconcile_ret] at hret
  rw [reconcile_eq rt m configs s hret]
  have hina := (not_mem_activeIDs rt configs id).1 hid
  obtain ⟨hlook, htr⟩ := reconcileLoop_frame rt m configs [] s id hina
  have hP : (!GoMap.hasKey (m.reconcileLoop rt configs [] s).ret.1 id) = true := by
    have := (reconcileLoop_active_nil rt m configs s hret id).not.2 hid
    simpa using this
  obtain ⟨h1, h2, h3⟩ := rangeLoop_spec rt
    (fun _ k => !GoMap.hasKey (m.reconcileLoop rt configs [] s).ret.1 k)
    (sweepBody rt (m.reconcileLoop rt configs [] s).ret.1)
    (sweepBody_eq rt _) (fun _ _ _ _ => rfl)
    (GoMap.keys (m.reconcileLoop rt configs [] s).state.connections)
    (GoMap.nodup_keys _) (m.reconcileLoop rt configs [] s).state
  have hloop : (m.reconcileLoop rt configs [] s).trace.filter (Event.isStopOf id) = [] := by
    rw [List.filter_eq_nil_iff]
    intro e he
    have := htr e he
    simp only [Event.touches, Bool.or_eq_false_iff] at this
    simp [this.1]
  have hent : getEntry (m.reconcileLoop rt configs [] s).state.connections id
      = getEntry s.connections id := getEntry_congr hlook
  refine ⟨?_, ?_, ?_⟩
  · dsimp only
    rw [h1]
    split
    · rfl
    · rename_i hn
      apply GoMap.lookup_eq_none_of_not_mem_keys
      intro hk
      exact hn ⟨hk, hP⟩
  · intro cfg conn hc
    have hc2 := hent.trans hc
    obtain ⟨err, he⟩ := h3 id (mem_keys_of_getEntry hc2) hP cfg conn hc2
    refine ⟨err, ?_⟩
    simp only [List.filter_append, hloop, he]
    simp [Event.isStopOf]
  · intro hno
    have hsw : (rangeLoop (sweepBody rt (m.reconcileLoop rt configs [] s).ret.1)
        (GoMap.keys (m.reconcileLoop rt configs [] s).state.connections)
        (m.reconcileLoop rt configs [] s).state).1.filter (Event.isStopOf id) = [] := by
      rw [List.filter_eq_nil_iff]
      intro e he
      obtain ⟨id2, cfg, conn, err, e1, _, _, e4⟩ := h2 e he
      have hne : id2 ≠ id := by
        rintro rfl
        exact hno cfg conn (hent ▸ e4)
      simp [e1, Event.isStopOf, hne]
    simp only [List.filter_append, hloop, hsw]
    simp [Event.isStopOf]

/-- C1. After `reconcile` returns, every ID outside the active set of the list
is gone from the connection map, whatever the `Stop` calls returned: if it was
tracked with a connection, `Stop` was called for it exactly once, on that
connection; if it was tracked without one, or not at all, `Stop` was not
called for it.  Hence every key left in the map belongs to the active set. -/
theorem reconcile_removes_deactivated (rt : Runtime W) (m : Manager W H)
    (configs : List ChannelConfig) (s : State W)
    (hret : (m.reconcile rt configs s).ret = false) :
    (∀ id, id ∉ activeIDs rt configs →
      GoMap.lookup (m.reconcile rt configs s).state.connections id = none ∧
      (∀ cfg conn, getEntry s.connections id = some ⟨cfg, some conn⟩ →
        ∃ err, (m.reconcile rt configs s).trace.filter (Event.isStopOf id)
          = [Event.stop id conn err]) ∧
      ((∀ cfg conn, getEntry s.connections id ≠ some ⟨cfg, some conn⟩) →
        (m.reconcile rt configs s).trace.filter (Event.isStopOf id) = [])) ∧
    (∀ id, GoMap.hasKey (m.reconcile rt configs s).state.connections id = true →
      id ∈ activeIDs rt configs) := by
  refine ⟨fun id hid => reconcile_sweep_inactive rt m configs s hret id hid, ?_⟩
  intro id hk
  by_contra hid
  have := (reconcile_sweep_inactive rt m configs s hret id hid).1
  simp [GoMap.hasKey, this] at hk

/-- An instance of C1: the tracked config "x" comes back with status `pending`; its
connection 7 cannot be stopped, and the key is removed all the same. -/
theorem reconcile_removes_deactivated_witness :
    (Scenario.manager.reconcile Scenario.runtime [Scenario.config "x" "a" "pending" 1]
        (Scenario.tracking [("x", some ⟨Scenario.config "x" "a" "active" 1, some 7⟩)])).ret
      = false ∧
    ((∀ id, id ∉ activeIDs Scenario.runtime [Scenario.config "x" "a" "pending" 1] →
      GoMap.lookup (Scenario.manager.reconcile Scenario.runtime
          [Scenario.config "x" "a" "pending" 1]
          (Scenario.tracking [("x", some ⟨Scenario.config "x" "a" "active" 1, some 7⟩)])
        ).state.connections id = none ∧
      (∀ cfg conn, getEntry (Scenario.tracking
            [("x", some ⟨Scenario.config "x" "a" "active" 1, some 7⟩)]).connections id
          = some ⟨cfg, some conn⟩ →
        ∃ err, (Scenario.manager.reconcile Scenario.runtime
            [Scenario.config "x" "a" "pending" 1]
            (Scenario.tracking [("x", some ⟨Scenario.config "x" "a" "active" 1, some 7⟩)])
          ).trace.filter (Event.isStopOf id) = [Event.stop id conn err]) ∧
      ((∀ cfg conn, getEntry (Scenario.tracking
            [("x", some ⟨Scenario.config "x" "a" "active" 1, some 7⟩)]).connections id
          ≠ some ⟨cfg, some conn⟩) →
        (Scenario.manager.reconcile Scenario.runtime [Scenario.config "x" "a" "pending" 1]
            (Scenario.tracking [("x", some ⟨Scenario.config "x" "a" "active" 1, some 7⟩)])
          ).trace.filter (Event.isStopOf id) = [])) ∧
    (∀ id, GoMap.hasKey (Scenario.manager.reconcile Scenario.runtime
          [Scenario.config "x" "a" "pending" 1]
          (Scenario.tracking [("x", some ⟨Scenario.config "x" "a" "active" 1, some 7⟩)])
        ).state.connections id = true →
      id ∈ activeIDs Scenario.runtime [Scenario.config "x" "a" "pending" 1])) :=
  ⟨by decide, reconcile_removes_deactivated _ _ _ _ (by decide)⟩

/-- The entries into `ensureConnection` made by a `reconcile` that returns
are exactly the eligible elements of the list, once each and in list order,
whatever the earlier calls returned; an element is eligible when its ID is not
empty and its status, trimmed and lower-cased, is blank, `active` or
`verified`. -/
theorem reconcile_ensures_eligible (rt : Runtime W) (m : Manager W H)
    (configs : List ChannelConfig) (s : State W)
    (hret : (m.reconcile rt configs s).ret = false) :
    (m.reconcile rt configs s).trace.filterMap Event.ensureArg
        = configs.filter (fun c => eligible rt c) ∧
      ∀ c, eligible rt c = true ↔
        (c.ID ≠ "" ∧ (rt.ToLower (TrimSpace c.Status) = "" ∨
          rt.ToLower (TrimSpace c.Status) = "active" ∨
          rt.ToLower (TrimSpace c.Status) = "verified")) := by
  constructor
  · rw [reconcile_ret] at hret
    rw [reconcile_eq rt m configs s hret]
    obtain ⟨_, h2, _⟩ := rangeLoop_spec rt
      (fun _ k => !GoMap.hasKey (m.reconcileLoop rt configs [] s).ret.1 k)
      (sweepBody rt (m.reconcileLoop rt configs [] s).ret.1)
      (sweepBody_eq rt _) (fun _ _ _ _ => rfl)
      (GoMap.keys (m.reconcileLoop rt configs [] s).state.connections)
      (GoMap.nodup_keys _) (m.reconcileLoop rt configs [] s).state
    have hsw : (rangeLoop (sweepBody rt (m.reconcileLoop rt configs [] s).ret.1)
        (GoMap.keys (m.reconcileLoop rt configs [] s).state.connections)
        (m.reconcileLoop rt configs [] s).state).1.filterMap Event.ensureArg = [] := by
      rw [List.filterMap_eq_nil_iff]
      intro e he
      obtain ⟨_, _, _, _, e1, _⟩ := h2 e he
      simp [e1, Event.ensureArg]
    simp only [List.filterMap_append, hsw, reconcileLoop_ensureArg rt m configs [] s hret]
    simp [Event.ensureArg]
  · intro c
    unfold eligible
    by_cases hid : c.ID = ""
    · simp [hid]
    · simp only [hid, if_false]
      by_cases h1 : rt.ToLower (TrimSpace c.Status) = ""
      · simp [h1, hid]
      · by_cases h2 : rt.ToLower (TrimSpace c.Status) = "active"
        · simp [h2, hid]
        · by_cases h3 : rt.ToLower (TrimSpace c.Status) = "verified"
          · simp [h3, hid]
          · simp [h1, h2, h3]

/-- A run that returns: of five configs the first is refused by `Connect`, the
third is pending and the fourth has no ID; `ensureConnection` is entered for
the first, the second and the fifth. -/
theorem reconcile_ensures_eligible_witness :
    (Scenario.manager.reconcile Scenario.runtime
        [Scenario.badConfig "w" 1, Scenario.config "x" "a" " Active " 1,
          Scenario.config "y" "a" "pending" 1, Scenario.config "" "a" "active" 1,
          Scenario.config "z" "a" "" 1] (Scenario.tracking [])).ret = false ∧
    (Scenario.manager.reconcile Scenario.runtime
        [Scenario.badConfig "w" 1, Scenario.config "x" "a" " Active " 1,
          Scenario.config "y" "a" "pending" 1, Scenario.config "" "a" "active" 1,
          Scenario.config "z" "a" "" 1] (Scenario.tracking [])).trace.filterMap Event.ensureArg
      = [Scenario.badConfig "w" 1, Scenario.config "x" "a" " Active " 1,
          Scenario.config "z" "a" "" 1] :=
  ⟨by decide,
    (reconcile_ensures_eligible Scenario.runtime Scenario.manager _ (Scenario.tracking [])
      (by decide)).1.trans (by decide)⟩

/-- C2, failing run. The receiver for `telegram` returns a nil connection and
a nil error. From the empty map, `reconcile` with the config "x" returns and
leaves "x" tracked with a nil connection. The next `reconcile` gets a newer
"x" followed by "y", both eligible: `ensureConnection` for "x" finds the stale
entry and calls `Stop` on its nil connection, which panics, so `reconcile`
does not return and `ensureConnection` is never called for "y". -/
theorem reconcile_panic_skips_eligible :
    (Scenario.nilManager.reconcile Scenario.runtime [Scenario.config "x" "a" "active" 1]
        (Scenario.tracking [])).ret = false ∧
    (Scenario.nilManager.reconcile Scenario.runtime [Scenario.config "x" "a" "active" 1]
        (Scenario.tracking [])).state.connections
      = [("x", some ⟨Scenario.config "x" "a" "active" 1, none⟩)] ∧
    [Scenario.config "x" "a" "active" 2, Scenario.config "y" "a" "active" 1].filter
        (fun c => eligible Scenario.runtime c)
      = [Scenario.config "x" "a" "active" 2, Scenario.config "y" "a" "active" 1] ∧
    (Scenario.nilManager.reconcile Scenario.runtime
        [Scenario.config "x" "a" "active" 2, Scenario.config "y" "a" "active" 1]
        (Scenario.nilManager.reconcile Scenario.runtime [Scenario.config "x" "a" "active" 1]
          (Scenario.tracking [])).state).ret = true ∧
    (Scenario.nilManager.reconcile Scenario.runtime
        [Scenario.config "x" "a" "active" 2, Scenario.config "y" "a" "active" 1]
        (Scenario.nilManager.reconcile Scenario.runtime [Scenario.config "x" "a" "active" 1]
          (Scenario.tracking [])).state).trace.filterMap Event.ensureArg
      = [Scenario.config "x" "a" "active" 2] := by
  refine ⟨?_, ?_, ?_, ?_, ?_⟩ <;> decide

/-- The sweep of a `reconcile` that returns leaves the IDs of the active set
alone: their keys keep the value the first loop left, and the adapter calls
made for them are those of the first loop. -/
theorem reconcile_active_id (rt : Runtime W) (m : Manager W H) (configs : List ChannelConfig)
    (s : State W) (hret : (m.reconcile rt configs s).ret = false) (id : String)
    (hid : id ∈ activeIDs rt configs) :
    GoMap.lookup (m.reconcile rt configs s).state.connections id
        = GoMap.lookup (m.reconcileLoop rt configs [] s).state.connections id ∧
      (m.reconcile rt configs s).trace.filter (Event.touches id)
        = (m.reconcileLoop rt configs [] s).trace.filter (Event.touches id) := by
  rw [reconcile_ret] at hret
  rw [reconcile_eq rt m configs s hret]
  have hP : (!GoMap.hasKey (m.reconcileLoop rt configs [] s).ret.1 id) = false := by
    have := (reconcileLoop_active_nil rt m configs s hret id).2 hid
    simp [this]
  obtain ⟨h1, h2, _⟩ := rangeLoop_spec rt
    (fun _ k => !GoMap.hasKey (m.reconcileLoop rt configs [] s).ret.1 k)
    (sweepBody rt (m.reconcileLoop rt configs [] s).ret.1)
    (sweepBody_eq rt _) (fun _ _ _ _ => rfl)
    (GoMap.keys (m.reconcileLoop rt configs [] s).state.connections)
    (GoMap.nodup_keys _) (m.reconcileLoop rt configs [] s).state
  constructor
  · dsimp only
    rw [h1]
    simp [hP]
  · have hsw : (rangeLoop (sweepBody rt (m.reconcileLoop rt configs [] s).ret.1)
        (GoMap.keys (m.reconcileLoop rt configs [] s).state.connections)
        (m.reconcileLoop rt configs [] s).state).1.filter (Event.touches id) = [] := by
      rw [List.filter_eq_nil_iff]
      intro e he
      obtain ⟨id2, _, _, _, e1, _, e3, _⟩ := h2 e he
      have hne : id2 ≠ id := by
        rintro rfl
        simp [hP] at e3
      simp [e1, Event.touches, Event.isStopOf, Event.isConnectOf, hne]
    simp only [List.filter_append, hsw]
    simp [Event.touches, Event.isStopOf, Event.isConnectOf]

/-- A `reconcile` that returns, seen from the last eligible config `cfg` of
its ID in the list: the loop over the configs before it did not panic, the
call `ensureConnection(cfg)` did not panic, and what is tracked under the ID
afterwards, like the adapter calls made for the ID, is what that call left. -/
theorem reconcile_split (rt : Runtime W) (m : Manager W H) (pre post : List ChannelConfig)
    (cfg : ChannelConfig) (s : State W) (helig : eligible rt cfg = true)
    (hpost : ∀ c ∈ post, eligible rt c = true → c.ID ≠ cfg.ID)
    (hret : (m.reconcile rt (pre ++ cfg :: post) s).ret = false) :
    (m.reconcileLoop rt pre [] s).ret.2 = false ∧
      (m.ensureConnection rt cfg (m.reconcileLoop rt pre [] s).state).ret ≠ Ret.panicked ∧
      GoMap.lookup (m.reconcile rt (pre ++ cfg :: post) s).state.connections cfg.ID
        = GoMap.lookup
            (m.ensureConnection rt cfg (m.reconcileLoop rt pre [] s).state).state.connections
            cfg.ID ∧
      (m.reconcile rt (pre ++ cfg :: post) s).trace.filter (Event.touches cfg.ID)
        = (m.reconcileLoop rt pre [] s).trace.filter (Event.touches cfg.ID)
          ++ (m.ensureConnection rt cfg (m.reconcileLoop rt pre [] s).state).trace.filter
              (Event.touches cfg.ID) := by
  have hmem : cfg.ID ∈ activeIDs rt (pre ++ cfg :: post) :=
    (mem_activeIDs rt _ _).2 ⟨cfg, by simp, helig, rfl⟩
  obtain ⟨hl, ht⟩ := reconcile_active_id rt m _ s hret cfg.ID hmem
  rw [reconcile_ret] at hret
  rw [hl, ht]
  rw [reconcileLoop_append] at hret ⊢
  by_cases h1 : (m.reconcileLoop rt pre [] s).ret.2 = true
  · rw [if_pos h1] at hret
    rw [h1] at hret
    cases hret
  · rw [if_neg h1] at hret ⊢
    have h1f : (m.reconcileLoop rt pre [] s).ret.2 = false := by simpa using h1
    by_cases hp : (m.ensureConnection rt cfg (m.reconcileLoop rt pre [] s).state).ret
        = Ret.panicked
    · rw [reconcileLoop_panic _ _ _ _ _ _ helig hp] at hret
      simp [Outcome.after] at hret
    · rw [reconcileLoop_step _ _ _ _ _ _ helig hp]
      obtain ⟨f1, f2⟩ := reconcileLoop_frame rt m post
        (GoMap.insert (m.reconcileLoop rt pre [] s).ret.1 cfg.ID cfg)
        (m.ensureConnection rt cfg (m.reconcileLoop rt pre [] s).state).state cfg.ID hpost
      refine ⟨h1f, hp, ?_, ?_⟩
      · simpa [Outcome.after] using f1
      · have : (m.reconcileLoop rt post
            (GoMap.insert (m.reconcileLoop rt pre [] s).ret.1 cfg.ID cfg)
            (m.ensureConnection rt cfg (m.reconcileLoop rt pre [] s).state).state).trace.filter
              (Event.touches cfg.ID) = [] := by
          rw [List.filter_eq_nil_iff]
          intro e he
          simp [f2 e he]
        simp [Outcome.after, List.filter_append, this]

end Reconcile

/-! ## Contract of `ensureConnection` -/

section EnsureContract

variable {W H : Type}

/-- C5. When the tracked entry is stale and `Stop` on its connection returns
an error matching `ErrStopNotSupported`, `ensureConnection` returns nil, makes
no `Connect` call and leaves the connection map as it was, so the original
entry is still the one tracked under the ID. -/
theorem ensureConnection_stop_not_supported (rt : Runtime W) (m : Manager W H)
    (cfg : ChannelConfig) (s : State W) (entry : connectionEntry) (conn : Connection)
    (e : GoError) (he : getEntry s.connections cfg.ID = some entry)
    (hstale : entry.config.UpdatedAt < cfg.UpdatedAt) (hc : entry.connection = some conn)
    (hs : (rt.Stop conn s.world).1 = some e) (hns : e.isStopNotSupported = true) :
    (m.ensureConnection rt cfg s).ret = Ret.nil ∧
      (m.ensureConnection rt cfg s).trace.filter Event.isConnect = [] ∧
      (m.ensureConnection rt cfg s).state.connections = s.connections ∧
      getEntry (m.ensureConnection rt cfg s).state.connections cfg.ID = some entry := by
  refine ensureConnection_cases rt m cfg s
    (fun o => o.ret = Ret.nil ∧ o.trace.filter Event.isConnect = [] ∧
      o.state.connections = s.connections ∧ getEntry o.state.connections cfg.ID = some entry)
    ?_ ?_ ?_ ?_ ?_ ?_ ?_ ?_
  · intro _
    simp [Event.isConnect, he]
  · intro entry2 he2 hf
    rw [he] at he2
    cases he2
    exact absurd hstale hf
  · intro entry2 he2 _ hc2
    rw [he] at he2
    cases he2
    rw [hc] at hc2
    cases hc2
  · intro entry2 conn2 e2 he2 _ hc2 hs2
    rw [he] at he2
    cases he2
    rw [hc] at hc2
    cases hc2
    rw [hs] at hs2
    cases hs2
    simp [Event.isConnect, he, hns]
  · intro _ entry2 conn2 _ _ he2 _ hc2 hs2
    rw [he] at he2
    cases he2
    rw [hc] at hc2
    cases hc2
    rw [hs] at hs2
    cases hs2
  · intro _ entry2 conn2 _ he2 _ hc2 hs2
    rw [he] at he2
    cases he2
    rw [hc] at hc2
    cases hc2
    rw [hs] at hs2
    cases hs2
  · intro _ _ _ he2
    rw [he] at he2
    cases he2
  · intro _ _ he2
    rw [he] at he2
    cases he2

/-- An instance of C5: connection 7 answers `Stop` with `ErrStopNotSupported`. -/
theorem ensureConnection_stop_not_supported_witness :
    getEntry (Scenario.tracking [("x", some ⟨Scenario.config "x" "a" "active" 1, some 7⟩)]
        ).connections (Scenario.config "x" "a" "active" 2).ID
      = some ⟨Scenario.config "x" "a" "active" 1, some 7⟩ ∧
    (Scenario.manager.ensureConnection Scenario.runtime (Scenario.config "x" "a" "active" 2)
        (Scenario.tracking [("x", some ⟨Scenario.config "x" "a" "active" 1, some 7⟩)])).ret
      = Ret.nil ∧
    (Scenario.manager.ensureConnection Scenario.runtime (Scenario.config "x" "a" "active" 2)
        (Scenario.tracking [("x", some ⟨Scenario.config "x" "a" "active" 1, some 7⟩)])
      ).state.connections = [("x", some ⟨Scenario.config "x" "a" "active" 1, some 7⟩)] :=
  ⟨by decide,
    (ensureConnection_stop_not_supported Scenario.runtime Scenario.manager
      (Scenario.config "x" "a" "active" 2)
      (Scenario.tracking [("x", some ⟨Scenario.config "x" "a" "active" 1, some 7⟩)])
      ⟨Scenario.config "x" "a" "active" 1, some 7⟩ 7 GoError.ErrStopNotSupported
      (by decide) (by decide) rfl (by decide) (by decide)).1,
    (ensureConnection_stop_not_supported Scenario.runtime Scenario.manager
      (Scenario.config "x" "a" "active" 2)
      (Scenario.tracking [("x", some ⟨Scenario.config "x" "a" "active" 1, some 7⟩)])
      ⟨Scenario.config "x" "a" "active" 1, some 7⟩ 7 GoError.ErrStopNotSupported
      (by decide) (by decide) rfl (by decide) (by decide)).2.2.1⟩

/-- C7. When an entry is tracked under the config's ID and its stored config
is not older than the config, `ensureConnection` returns nil, calls neither
`Stop` nor `Connect`, and leaves the connection map and the world as they
were (whether or not the registry has a receiver for the type). -/
theorem ensureConnection_up_to_date (rt : Runtime W) (m : Manager W H) (cfg : ChannelConfig)
    (s : State W) (entry : connectionEntry) (he : getEntry s.connections cfg.ID = some entry)
    (hfresh : ¬ entry.config.UpdatedAt < cfg.UpdatedAt) :
    (m.ensureConnection rt cfg s).ret = Ret.nil ∧
      (m.ensureConnection rt cfg s).trace.filter Event.isAdapterCall = [] ∧
      (m.ensureConnection rt cfg s).state = s := by
  refine ensureConnection_cases rt m cfg s
    (fun o => o.ret = Ret.nil ∧ o.trace.filter Event.isAdapterCall = [] ∧ o.state = s)
    ?_ ?_ ?_ ?_ ?_ ?_ ?_ ?_
  · intro _
    simp [Event.isAdapterCall, Event.isStop, Event.isConnect]
  · intro _ _ _
    simp [Event.isAdapterCall, Event.isStop, Event.isConnect]
  · intro entry2 he2 hlt _
    rw [he] at he2
    cases he2
    exact absurd hlt hfresh
  · intro entry2 _ _ he2 hlt _ _
    rw [he] at he2
    cases he2
    exact absurd hlt hfresh
  · intro _ entry2 _ _ _ he2 hlt _ _ _
    rw [he] at he2
    cases he2
    exact absurd hlt hfresh
  · intro _ entry2 _ _ he2 hlt _ _ _
    rw [he] at he2
    cases he2
    exact absurd hlt hfresh
  · intro _ _ _ he2
    rw [he] at he2
    cases he2
  · intro _ _ he2
    rw [he] at he2
    cases he2

/-- An instance of C7: the tracked config has the same `UpdatedAt` as the incoming
one, which differs from it in its bot. -/
theorem ensureConnection_up_to_date_witness :
    getEntry (Scenario.tracking [("x", some ⟨Scenario.config "x" "a" "active" 5, some 3⟩)]
        ).connections (Scenario.config "x" "b" "active" 5).ID
      = some ⟨Scenario.config "x" "a" "active" 5, some 3⟩ ∧
    (Scenario.manager.ensureConnection Scenario.runtime (Scenario.config "x" "b" "active" 5)
        (Scenario.tracking [("x", some ⟨Scenario.config "x" "a" "active" 5, some 3⟩)])
      ).trace.filter Event.isAdapterCall = [] :=
  ⟨by decide,
    (ensureConnection_up_to_date Scenario.runtime Scenario.manager
      (Scenario.config "x" "b" "active" 5)
      (Scenario.tracking [("x", some ⟨Scenario.config "x" "a" "active" 5, some 3⟩)])
      ⟨Scenario.config "x" "a" "active" 5, some 3⟩ (by decide) (by decide)).2.1⟩

/-- C6. When `ensureConnection` reaches its `Connect` step (the registry has a
receiver and either nothing is tracked under the ID, or the tracked entry was
stale and its `Stop` returned nil), `Connect` is called once, with the config:
if it returns no error, `ensureConnection` returns nil and the entry tracked
under the ID is the config with the connection returned; if it returns an
error, `ensureConnection` returns that error and nothing is tracked under the
ID. -/
theorem ensureConnection_connect_step (rt : Runtime W) (m : Manager W H) (cfg : ChannelConfig)
    (s : State W) (receiver : Receiver W H) (w : W)
    (hr : m.registry.GetReceiver cfg.ChannelType = some receiver)
    (hreach : (getEntry s.connections cfg.ID = none ∧ w = s.world) ∨
      (∃ entry conn, getEntry s.connections cfg.ID = some entry ∧
        entry.config.UpdatedAt < cfg.UpdatedAt ∧ entry.connection = some conn ∧
        (rt.Stop conn s.world).1 = none ∧ w = (rt.Stop conn s.world).2)) :
    (m.ensureConnection rt cfg s).trace.filter Event.isConnect
        = [Event.connect cfg (receiver.Connect cfg m.composeHandler w).1.1
            (receiver.Connect cfg m.composeHandler w).1.2] ∧
      ((receiver.Connect cfg m.composeHandler w).1.2 = none →
        (m.ensureConnection rt cfg s).ret = Ret.nil ∧
        getEntry (m.ensureConnection rt cfg s).state.connections cfg.ID
          = some ⟨cfg, (receiver.Connect cfg m.composeHandler w).1.1⟩) ∧
      (∀ e, (receiver.Connect cfg m.composeHandler w).1.2 = some e →
        (m.ensureConnection rt cfg s).ret = Ret.err e ∧
        getEntry (m.ensureConnection rt cfg s).state.connections cfg.ID = none) := by
  refine ensureConnection_cases rt m cfg s
    (fun o => o.trace.filter Event.isConnect
        = [Event.connect cfg (receiver.Connect cfg m.composeHandler w).1.1
            (receiver.Connect cfg m.composeHandler w).1.2] ∧
      ((receiver.Connect cfg m.composeHandler w).1.2 = none →
        o.ret = Ret.nil ∧ getEntry o.state.connections cfg.ID
          = some ⟨cfg, (receiver.Connect cfg m.composeHandler w).1.1⟩) ∧
      (∀ e, (receiver.Connect cfg m.composeHandler w).1.2 = some e →
        o.ret = Ret.err e ∧ getEntry o.state.connections cfg.ID = none))
    ?_ ?_ ?_ ?_ ?_ ?_ ?_ ?_
  · intro hn
    rw [hr] at hn
    cases hn
  · intro entry2 he2 hf
    rcases hreach with ⟨hn, _⟩ | ⟨entry, conn, he, hlt, _, _, _⟩
    · rw [hn] at he2
      cases he2
    · rw [he] at he2
      cases he2
      exact absurd hlt hf
  · intro entry2 he2 _ hc2
    rcases hreach with ⟨hn, _⟩ | ⟨entry, conn, he, _, hc, _, _⟩
    · rw [hn] at he2
      cases he2
    · rw [he] at he2
      cases he2
      rw [hc] at hc2
      cases hc2
  · intro entry2 conn2 e2 he2 _ hc2 hs2
    rcases hreach with ⟨hn, _⟩ | ⟨entry, conn, he, _, hc, hs, _⟩
    · rw [hn] at he2
      cases he2
    · rw [he] at he2
      cases he2
      rw [hc] at hc2
      cases hc2
      rw [hs] at hs2
      cases hs2
  · intro r2 entry2 conn2 e2 hr2 he2 _ hc2 _ hce
    rw [hr] at hr2
    cases hr2
    rcases hreach with ⟨hn, _⟩ | ⟨entry, conn, he, _, hc, _, hw⟩
    · rw [hn] at he2
      cases he2
    · rw [he] at he2
      cases he2
      rw [hc] at hc2
      cases hc2
      subst hw
      simp [Event.isConnect, Event.isStop, hce, getEntry_delete_self]
  · intro r2 entry2 conn2 hr2 he2 _ hc2 _ hce
    rw [hr] at hr2
    cases hr2
    rcases hreach with ⟨hn, _⟩ | ⟨entry, conn, he, _, hc, _, hw⟩
    · rw [hn] at he2
      cases he2
    · rw [he] at he2
      cases he2
      rw [hc] at hc2
      cases hc2
      subst hw
      simp [Event.isConnect, Event.isStop, hce, getEntry_insert_self]
  · intro r2 e2 hr2 he2 hce
    rw [hr] at hr2
    cases hr2
    rcases hreach with ⟨_, hw⟩ | ⟨entry, conn, he, _, _, _, _⟩
    · subst hw
      simp [Event.isConnect, hce, he2]
    · rw [he] at he2
      cases he2
  · intro r2 hr2 he2 hce
    rw [hr] at hr2
    cases hr2
    rcases hreach with ⟨_, hw⟩ | ⟨entry, conn, he, _, _, _, _⟩
    · subst hw
      simp [Event.isConnect, hce, getEntry_insert_self]
    · rw [he] at he2
      cases he2

/-- An instance of C6: nothing is tracked, and `Connect` returns connection 100. -/
theorem ensureConnection_connect_step_witness :
    (Scenario.manager.registry.GetReceiver (Scenario.config "x" "a" "active" 2).ChannelType
        = some Scenario.receiver ∧
      getEntry (Scenario.tracking []).connections (Scenario.config "x" "a" "active" 2).ID
        = none) ∧
    (Scenario.manager.ensureConnection Scenario.runtime (Scenario.config "x" "a" "active" 2)
        (Scenario.tracking [])).trace.filter Event.isConnect
      = [Event.connect (Scenario.config "x" "a" "active" 2) (some 100) none] :=
  ⟨⟨rfl, by decide⟩,
    (ensureConnection_connect_step Scenario.runtime Scenario.manager
      (Scenario.config "x" "a" "active" 2) (Scenario.tracking []) Scenario.receiver 100
      rfl (Or.inl ⟨by decide, rfl⟩)).1.trans (by decide)⟩

/-- The restart path of `ensureConnection` when both `Stop` and `Connect`
return no error. -/
theorem ensureConnection_restart_ok (rt : Runtime W) (m : Manager W H) (cfg : ChannelConfig)
    (s : State W) (receiver : Receiver W H) (entry : connectionEntry) (conn : Connection)
    (hr : m.registry.GetReceiver cfg.ChannelType = some receiver)
    (he : getEntry s.connections cfg.ID = some entry)
    (hstale : entry.config.UpdatedAt < cfg.UpdatedAt) (hc : entry.connection = some conn)
    (hs : (rt.Stop conn s.world).1 = none)
    (hce : (receiver.Connect cfg m.composeHandler (rt.Stop conn s.world).2).1.2 = none) :
    m.ensureConnection rt cfg s
      = ⟨[Event.ensureConnection cfg, Event.lock, Event.unlock, Event.stop cfg.ID conn none,
          Event.lock, Event.unlock,
          Event.connect cfg (receiver.Connect cfg m.composeHandler (rt.Stop conn s.world).2).1.1
            none,
          Event.lock, Event.unlock],
        { world := (receiver.Connect cfg m.composeHandler (rt.Stop conn s.world).2).2,
          connections := GoMap.insert (GoMap.delete s.connections cfg.ID) cfg.ID
            (some ⟨cfg,
              (receiver.Connect cfg m.composeHandler (rt.Stop conn s.world).2).1.1⟩) },
        Ret.nil⟩ := by
  unfold Manager.ensureConnection Manager.connectPhase
  simp [hr, he, hstale, hc, hs, hce, Outcome.after]

/-- Where a tracked entry comes from after `ensureConnection(cfg)`: it was
tracked before, or it stores `cfg` under the ID of `cfg`. -/
theorem ensureConnection_provenance (rt : Runtime W) (m : Manager W H) (cfg : ChannelConfig)
    (s : State W) (id : String) (e : connectionEntry)
    (h : getEntry (m.ensureConnection rt cfg s).state.connections id = some e) :
    getEntry s.connections id = some e ∨ (id = cfg.ID ∧ e.config = cfg) := by
  by_cases hid : id = cfg.ID
  · subst hid
    revert h
    refine ensureConnection_cases rt m cfg s
      (fun o => getEntry o.state.connections cfg.ID = some e →
        getEntry s.connections cfg.ID = some e ∨ (cfg.ID = cfg.ID ∧ e.config = cfg))
      ?_ ?_ ?_ ?_ ?_ ?_ ?_ ?_
    all_goals intros
    all_goals simp_all [getEntry_insert_self, getEntry_delete_self]
    · rintro rfl
      exact Or.inr rfl
    · rintro rfl
      rfl
  · left
    rw [← h]
    exact (getEntry_congr (ensureConnection_lookup_ne rt m cfg s hid)).symm

end EnsureContract

/-! ## Restart on update, duplicates in the list -/

section Restart

variable {W H : Type}

/-- Every event of the first loop of `reconcile` belongs to the call
`ensureConnection(c)` of an eligible config `c` of the list. -/
theorem reconcileLoop_within (rt : Runtime W) (m : Manager W H) (configs : List ChannelConfig)
    (active : GoMap ChannelConfig) (s : State W) :
    ∀ e ∈ (m.reconcileLoop rt configs active s).trace,
      ∃ c ∈ configs, eligible rt c = true ∧ Event.within c e = true := by
  induction configs generalizing active s with
  | nil => simp [reconcileLoop_nil]
  | cons cfg rest ih =>
    cases he : eligible rt cfg with
    | false =>
      rw [reconcileLoop_skip _ _ _ _ _ _ he]
      intro e hm
      obtain ⟨c, hc, h1, h2⟩ := ih active s e hm
      exact ⟨c, List.mem_cons_of_mem _ hc, h1, h2⟩
    | true =>
      have key : ∀ e ∈ (m.ensureConnection rt cfg s).trace,
          ∃ c ∈ cfg :: rest, eligible rt c = true ∧ Event.within c e = true :=
        fun e hm => ⟨cfg, List.mem_cons_self _ _, he, ensureConnection_within rt m cfg s e hm⟩
      by_cases hp : (m.ensureConnection rt cfg s).ret = Ret.panicked
      · rw [reconcileLoop_panic _ _ _ _ _ _ he hp]
        exact key
      · rw [reconcileLoop_step _ _ _ _ _ _ he hp]
        intro e hm
        simp only [Outcome.after, List.mem_append] at hm
        rcases hm with hm | hm
        · exact key e hm
        · obtain ⟨c, hc, h1, h2⟩ := ih _ _ e hm
          exact ⟨c, List.mem_cons_of_mem _ hc, h1, h2⟩

theorem Event.touches_of_within_adapterCall {cfg : ChannelConfig} {e : Event}
    (hw : Event.within cfg e = true) (ha : Event.isAdapterCall e = true) :
    Event.touches cfg.ID e = true := by
  cases e <;>
    simp_all [Event.within, Event.touches, Event.isStopOf, Event.isConnectOf,
      Event.isAdapterCall, Event.isStop, Event.isConnect]

theorem Event.isAdapterCall_of_touches {id : String} {e : Event}
    (h : Event.touches id e = true) : Event.isAdapterCall e = true := by
  cases e <;>
    simp_all [Event.touches, Event.isStopOf, Event.isConnectOf, Event.isAdapterCall,
      Event.isStop, Event.isConnect]

/-- When one ID is all the active set of the list and no key outside the
active set is tracked, every adapter call of a `reconcile` that returns is
made for that ID. -/
theorem reconcile_calls_single (rt : Runtime W) (m : Manager W H)
    (configs : List ChannelConfig) (s : State W) (id : String)
    (hret : (m.reconcile rt configs s).ret = false)
    (honly : ∀ c ∈ configs, eligible rt c = true → c.ID = id)
    (hkeys : ∀ k, k ∉ activeIDs rt configs → GoMap.lookup s.connections k = none) :
    (m.reconcile rt configs s).trace.filter Event.isAdapterCall
      = (m.reconcile rt configs s).trace.filter (Event.touches id) := by
  apply List.filter_congr
  intro e he
  cases ht : Event.touches id e with
  | true => exact Event.isAdapterCall_of_touches ht
  | false =>
    cases ha : Event.isAdapterCall e with
    | false => rfl
    | true =>
      exfalso
      have hret1 := hret
      rw [reconcile_ret] at hret1
      rw [reconcile_eq rt m configs s hret1] at he
      simp only [List.mem_append, List.mem_singleton] at he
      rcases he with ((he | he) | he) | he
      · obtain ⟨c, hc, h1, h2⟩ := reconcileLoop_within rt m configs [] s e he
        have := Event.touches_of_within_adapterCall h2 ha
        rw [honly c hc h1, ht] at this
        cases this
      · subst he
        simp [Event.isAdapterCall, Event.isStop, Event.isConnect] at ha
      · obtain ⟨_, h2, _⟩ := rangeLoop_spec rt
          (fun _ k => !GoMap.hasKey (m.reconcileLoop rt configs [] s).ret.1 k)
          (sweepBody rt (m.reconcileLoop rt configs [] s).ret.1)
          (sweepBody_eq rt _) (fun _ _ _ _ => rfl)
          (GoMap.keys (m.reconcileLoop rt configs [] s).state.connections)
          (GoMap.nodup_keys _) (m.reconcileLoop rt configs [] s).state
        obtain ⟨k, _, _, _, _, hk, hP, _⟩ := h2 e he
        have hna : k ∉ activeIDs rt configs := by
          intro hin
          have := (reconcileLoop_active_nil rt m configs s hret1 k).2 hin
          simp [this] at hP
        have hfr := (reconcileLoop_frame rt m configs [] s k
          ((not_mem_activeIDs rt configs k).1 hna)).1
        rw [GoMap.mem_keys, hfr, hkeys k hna] at hk
        cases hk
      · subst he
        simp [Event.isAdapterCall, Event.isStop, Event.isConnect] at ha

/-- Where a tracked entry comes from after the first loop of `reconcile`: it
was tracked before, or it stores an eligible config of the list under that
config's ID. -/
theorem reconcileLoop_provenance (rt : Runtime W) (m : Manager W H)
    (configs : List ChannelConfig) (active : GoMap ChannelConfig) (s : State W) (id : String)
    (e : connectionEntry)
    (h : getEntry (m.reconcileLoop rt configs active s).state.connections id = some e) :
    getEntry s.connections id = some e ∨
      ∃ c ∈ configs, eligible rt c = true ∧ c.ID = id ∧ e.config = c := by
  induction configs generalizing active s with
  | nil => exact Or.inl h
  | cons cfg rest ih =>
    cases he : eligible rt cfg with
    | false =>
      rw [reconcileLoop_skip _ _ _ _ _ _ he] at h
      rcases ih active s h with h1 | ⟨c, hc, h1, h2, h3⟩
      · exact Or.inl h1
      · exact Or.inr ⟨c, List.mem_cons_of_mem _ hc, h1, h2, h3⟩
    | true =>
      have key : ∀ e2, getEntry (m.ensureConnection rt cfg s).state.connections id = some e2 →
          getEntry s.connections id = some e2 ∨
            ∃ c ∈ cfg :: rest, eligible rt c = true ∧ c.ID = id ∧ e2.config = c := by
        intro e2 h2
        rcases ensureConnection_provenance rt m cfg s id e2 h2 with h3 | ⟨h3, h4⟩
        · exact Or.inl h3
        · exact Or.inr ⟨cfg, List.mem_cons_self _ _, he, h3.symm, h4⟩
      by_cases hp : (m.ensureConnection rt cfg s).ret = Ret.panicked
      · rw [reconcileLoop_panic _ _ _ _ _ _ he hp] at h
        exact key e h
      · rw [reconcileLoop_step _ _ _ _ _ _ he hp] at h
        simp only [Outcome.after] at h
        rcases ih _ _ h with h1 | ⟨c, hc, h1, h2, h3⟩
        · exact key e h1
        · exact Or.inr ⟨c, List.mem_cons_of_mem _ hc, h1, h2, h3⟩

/-- C3. Let an entry with a connection be tracked under the ID of `cfg`, with
a stored config older than `cfg`; let `cfg` be the one eligible config of its
ID in the list, its type have a receiver, and `Stop` on the old connection and
`Connect` of `cfg` succeed.  Then a `reconcile` that returns makes, for that
ID, exactly one `Stop` call, on the old connection, followed by exactly one
`Connect` call, with `cfg`, and afterwards the entry tracked under the ID
holds `cfg` and the connection that `Connect` returned.  When moreover no
other config of the list is eligible and no other key is tracked, these two
are all the adapter calls of the run. -/
theorem reconcile_restart_on_update (rt : Runtime W) (m : Manager W H)
    (pre post : List ChannelConfig) (cfg : ChannelConfig) (s : State W) (old : ChannelConfig)
    (oldConn : Connection) (receiver : Receiver W H)
    (hentry : getEntry s.connections cfg.ID = some ⟨old, some oldConn⟩)
    (hnewer : old.UpdatedAt < cfg.UpdatedAt) (helig : eligible rt cfg = true)
    (hothers : ∀ c ∈ pre ++ post, eligible rt c = true → c.ID ≠ cfg.ID)
    (hr : m.registry.GetReceiver cfg.ChannelType = some receiver)
    (hstop : ∀ w, (rt.Stop oldConn w).1 = none)
    (hconn : ∀ w, (receiver.Connect cfg m.composeHandler w).1.2 = none)
    (hret : (m.reconcile rt (pre ++ cfg :: post) s).ret = false) :
    ∃ newConn,
      (m.reconcile rt (pre ++ cfg :: post) s).trace.filter (Event.touches cfg.ID)
        = [Event.stop cfg.ID oldConn none, Event.connect cfg newConn none] ∧
      getEntry (m.reconcile rt (pre ++ cfg :: post) s).state.connections cfg.ID
        = some ⟨cfg, newConn⟩ ∧
      ((∀ c ∈ pre ++ post, eligible rt c = false) →
        (∀ k, k ≠ cfg.ID → GoMap.lookup s.connections k = none) →
        (m.reconcile rt (pre ++ cfg :: post) s).trace.filter Event.isAdapterCall
          = [Event.stop cfg.ID oldConn none, Event.connect cfg newConn none]) := by
  have hpre : ∀ c ∈ pre, eligible rt c = true → c.ID ≠ cfg.ID :=
    fun c hc => hothers c (List.mem_append_left _ hc)
  have hpost : ∀ c ∈ post, eligible rt c = true → c.ID ≠ cfg.ID :=
    fun c hc => hothers c (List.mem_append_right _ hc)
  obtain ⟨_, _, hl, ht⟩ := reconcile_split rt m pre post cfg s helig hpost hret
  obtain ⟨f1, f2⟩ := reconcileLoop_frame rt m pre [] s cfg.ID hpre
  have he1 : getEntry (m.reconcileLoop rt pre [] s).state.connections cfg.ID
      = some ⟨old, some oldConn⟩ := (getEntry_congr f1).trans hentry
  have hpt : (m.reconcileLoop rt pre [] s).trace.filter (Event.touches cfg.ID) = [] := by
    rw [List.filter_eq_nil_iff]
    intro e he
    simp [f2 e he]
  have heq := ensureConnection_restart_ok rt m cfg (m.reconcileLoop rt pre [] s).state receiver
    ⟨old, some oldConn⟩ oldConn hr he1 hnewer rfl (hstop _) (hconn _)
  have htouch : (m.reconcile rt (pre ++ cfg :: post) s).trace.filter (Event.touches cfg.ID)
      = [Event.stop cfg.ID oldConn none, Event.connect cfg (receiver.Connect cfg m.composeHandler
          (rt.Stop oldConn (m.reconcileLoop rt pre [] s).state.world).2).1.1 none] := by
    rw [ht, hpt, heq]
    simp [Event.touches, Event.isStopOf, Event.isConnectOf]
  refine ⟨(receiver.Connect cfg m.composeHandler
    (rt.Stop oldConn (m.reconcileLoop rt pre [] s).state.world).2).1.1, htouch, ?_, ?_⟩
  · rw [getEntry_congr hl, heq]
    exact getEntry_insert_self _ _ _
  · intro hnone hkeys
    rw [reconcile_calls_single rt m _ s cfg.ID hret ?_ ?_, htouch]
    · intro c hc hel
      simp only [List.mem_append, List.mem_cons] at hc
      rcases hc with hc | rfl | hc
      · rw [hnone c (List.mem_append_left _ hc)] at hel
        cases hel
      · rfl
      · rw [hnone c (List.mem_append_right _ hc)] at hel
        cases hel
    · intro k hk
      apply hkeys
      rintro rfl
      exact hk ((mem_activeIDs rt _ _).2 ⟨cfg, by simp, helig, rfl⟩)

/-- An instance of C3: the config "x" tracked with `UpdatedAt` 1 and connection 3
comes back with `UpdatedAt` 2, next to a pending config. -/
theorem reconcile_restart_on_update_witness :
    (getEntry (Scenario.tracking [("x", some ⟨Scenario.config "x" "a" "active" 1, some 3⟩)]
        ).connections (Scenario.config "x" "a" "active" 2).ID
      = some ⟨Scenario.config "x" "a" "active" 1, some 3⟩ ∧
      (Scenario.manager.reconcile Scenario.runtime
        ([] ++ Scenario.config "x" "a" "active" 2 :: [Scenario.config "y" "a" "pending" 1])
        (Scenario.tracking [("x", some ⟨Scenario.config "x" "a" "active" 1, some 3⟩)])).ret
      = false) ∧
    ∃ newConn,
      (Scenario.manager.reconcile Scenario.runtime
          ([] ++ Scenario.config "x" "a" "active" 2 :: [Scenario.config "y" "a" "pending" 1])
          (Scenario.tracking [("x", some ⟨Scenario.config "x" "a" "active" 1, some 3⟩)])
        ).trace.filter Event.isAdapterCall
        = [Event.stop (Scenario.config "x" "a" "active" 2).ID 3 none,
            Event.connect (Scenario.config "x" "a" "active" 2) newConn none] ∧
      getEntry (Scenario.manager.reconcile Scenario.runtime
          ([] ++ Scenario.config "x" "a" "active" 2 :: [Scenario.config "y" "a" "pending" 1])
          (Scenario.tracking [("x", some ⟨Scenario.config "x" "a" "active" 1, some 3⟩)])
        ).state.connections (Scenario.config "x" "a" "active" 2).ID
        = some ⟨Scenario.config "x" "a" "active" 2, newConn⟩ :=
  ⟨⟨by decide, by decide⟩,
    (reconcile_restart_on_update Scenario.runtime Scenario.manager []
      [Scenario.config "y" "a" "pending" 1] (Scenario.config "x" "a" "active" 2)
      (Scenario.tracking [("x", some ⟨Scenario.config "x" "a" "active" 1, some 3⟩)])
      (Scenario.config "x" "a" "active" 1) 3 Scenario.receiver (by decide) (by decide)
      (by decide) (by decide) rfl (fun _ => rfl) (fun _ => rfl) (by decide)).imp
      (fun _ h => ⟨h.2.2 (by decide) (by
        intro k hk
        have hk2 : ¬ ("x" = k) := fun e => hk e.symm
        simp [Scenario.tracking, GoMap.lookup, hk2]), h.2.1⟩)⟩

/-- C8, as amended. Let `cfg` be the last eligible config of its ID in the
list, newer than every earlier eligible config of that ID in the list and than
the entry tracked under the ID before the call, if any; let its type have a
receiver, every `Stop` succeed and `Connect` of `cfg` succeed.  Then after a
`reconcile` that returns, the entry tracked under the ID stores `cfg`. -/
theorem reconcile_newest_last_wins (rt : Runtime W) (m : Manager W H)
    (pre post : List ChannelConfig) (cfg : ChannelConfig) (s : State W)
    (receiver : Receiver W H) (helig : eligible rt cfg = true)
    (hpost : ∀ c ∈ post, eligible rt c = true → c.ID ≠ cfg.ID)
    (hpre : ∀ c ∈ pre, eligible rt c = true → c.ID = cfg.ID → c.UpdatedAt < cfg.UpdatedAt)
    (hinit : ∀ e, getEntry s.connections cfg.ID = some e → e.config.UpdatedAt < cfg.UpdatedAt)
    (hr : m.registry.GetReceiver cfg.ChannelType = some receiver)
    (hstop : ∀ conn w, (rt.Stop conn w).1 = none)
    (hconn : ∀ w, (receiver.Connect cfg m.composeHandler w).1.2 = none)
    (hret : (m.reconcile rt (pre ++ cfg :: post) s).ret = false) :
    ∃ conn, getEntry (m.reconcile rt (pre ++ cfg :: post) s).state.connections cfg.ID
      = some ⟨cfg, conn⟩ := by
  obtain ⟨_, hp, hl, _⟩ := reconcile_split rt m pre post cfg s helig hpost hret
  rw [getEntry_congr hl]
  have hstale : ∀ e, getEntry (m.reconcileLoop rt pre [] s).state.connections cfg.ID = some e →
      e.config.UpdatedAt < cfg.UpdatedAt := by
    intro e he
    rcases reconcileLoop_provenance rt m pre [] s cfg.ID e he with h1 | ⟨c, hc, h1, h2, h3⟩
    · exact hinit e h1
    · rw [h3]
      exact hpre c hc h1 h2
  revert hp
  refine ensureConnection_cases rt m cfg (m.reconcileLoop rt pre [] s).state
    (fun o => o.ret ≠ Ret.panicked →
      ∃ conn, getEntry o.state.connections cfg.ID = some ⟨cfg, conn⟩)
    ?_ ?_ ?_ ?_ ?_ ?_ ?_ ?_
  · intro hn
    rw [hr] at hn
    cases hn
  · intro entry he hf
    exact absurd (hstale entry he) hf
  · intro _ _ _ _ hp
    exact absurd rfl hp
  · intro _ conn e _ _ _ hs
    rw [hstop] at hs
    cases hs
  · intro r2 _ _ e hr2 _ _ _ _ hce
    rw [hr] at hr2
    cases hr2
    rw [hconn] at hce
    cases hce
  · intro _ _ _ _ _ _ _ _ _ _
    exact ⟨_, getEntry_insert_self _ _ _⟩
  · intro r2 e hr2 _ hce
    rw [hr] at hr2
    cases hr2
    rw [hconn] at hce
    cases hce
  · intro _ _ _ _ _
    exact ⟨_, getEntry_insert_self _ _ _⟩

/-- An instance of C8 as amended: two eligible configs for "x", the last one
newer. -/
theorem reconcile_newest_last_wins_witness :
    (Scenario.manager.reconcile Scenario.calm
        ([Scenario.config "x" "a" "active" 1] ++ Scenario.config "x" "b" "active" 2 :: [])
        (Scenario.tracking [])).ret = false ∧
    ∃ conn, getEntry (Scenario.manager.reconcile Scenario.calm
        ([Scenario.config "x" "a" "active" 1] ++ Scenario.config "x" "b" "active" 2 :: [])
        (Scenario.tracking [])).state.connections (Scenario.config "x" "b" "active" 2).ID
      = some ⟨Scenario.config "x" "b" "active" 2, conn⟩ :=
  ⟨by decide,
    reconcile_newest_last_wins Scenario.calm Scenario.manager
      [Scenario.config "x" "a" "active" 1] [] (Scenario.config "x" "b" "active" 2)
      (Scenario.tracking []) Scenario.receiver (by decide) (by simp) (by decide)
      (by simp [Scenario.tracking, getEntry, GoMap.lookup])
      rfl (fun _ _ => rfl) (fun _ => rfl) (by decide)⟩

/-- C8, counterexample. Two eligible configs with the same ID, the last one
older than the first: with a receiver present and `Stop` and `Connect`
succeeding, the entry tracked after `reconcile` stores the first config, not
the last. -/
theorem reconcile_last_wins_counterexample :
    eligible Scenario.runtime (Scenario.config "x" "a" "active" 2) = true ∧
    eligible Scenario.runtime (Scenario.config "x" "b" "active" 1) = true ∧
    (Scenario.manager.reconcile Scenario.runtime
        [Scenario.config "x" "a" "active" 2, Scenario.config "x" "b" "active" 1]
        (Scenario.tracking [])).ret = false ∧
    (Scenario.manager.reconcile Scenario.runtime
        [Scenario.config "x" "a" "active" 2, Scenario.config "x" "b" "active" 1]
        (Scenario.tracking [])).trace.filter Event.isAdapterCall
      = [Event.connect (Scenario.config "x" "a" "active" 2) (some 100) none] ∧
    getEntry (Scenario.manager.reconcile Scenario.runtime
        [Scenario.config "x" "a" "active" 2, Scenario.config "x" "b" "active" 1]
        (Scenario.tracking [])).state.connections "x"
      = some ⟨Scenario.config "x" "a" "active" 2, some 100⟩ ∧
    Scenario.config "x" "a" "active" 2 ≠ Scenario.config "x" "b" "active" 1 := by
  decide

end Restart

/-! ## Idempotence -/

section Idempotence

variable {W H : Type}

/-- A call `ensureConnection(cfg)` does nothing when the type has no receiver
or an entry not older than `cfg` is tracked under its ID. -/
theorem ensureConnection_noop (rt : Runtime W) (m : Manager W H) (cfg : ChannelConfig)
    (s : State W)
    (h : m.registry.GetReceiver cfg.ChannelType = none ∨
      ∃ e, getEntry s.connections cfg.ID = some e ∧ ¬ e.config.UpdatedAt < cfg.UpdatedAt) :
    (m.ensureConnection rt cfg s).ret = Ret.nil ∧
      (m.ensureConnection rt cfg s).trace.filter Event.isAdapterCall = [] ∧
      (m.ensureConnection rt cfg s).state = s := by
  have hcontra : ∀ receiver entry, m.registry.GetReceiver cfg.ChannelType = some receiver →
      getEntry s.connections cfg.ID = some entry → entry.config.UpdatedAt < cfg.UpdatedAt →
      False := by
    intro receiver entry hr he hlt
    rcases h with h | ⟨e, h1, h2⟩
    · rw [hr] at h
      cases h
    · rw [he] at h1
      cases h1
      exact h2 hlt
  refine ensureConnection_elim rt m cfg s
    (fun o => o.ret = Ret.nil ∧ o.trace.filter Event.isAdapterCall = [] ∧ o.state = s)
    ?_ ?_ ?_ ?_ ?_ ?_
  · intro _
    simp [Event.isAdapterCall, Event.isStop, Event.isConnect]
  · intro _ _ _ _ _
    simp [Event.isAdapterCall, Event.isStop, Event.isConnect]
  · intro receiver entry hr he hlt _
    exact (hcontra receiver entry hr he hlt).elim
  · intro receiver entry _ _ hr he hlt _ _
    exact (hcontra receiver entry hr he hlt).elim
  · intro receiver entry _ hr he hlt _ _
    exact (hcontra receiver entry hr he hlt).elim
  · intro receiver hr he
    rcases h with h | ⟨e, h1, _⟩
    · rw [hr] at h
      cases h
    · rw [he] at h1
      cases h1

end Idempotence

/-! ## Stopping and removal -/

section StopRemoval

variable {W H : Type}

theorem stopByBotBody_eq (rt : Runtime W) (botID : String) (id : String) (s : State W) :
    stopByBotBody rt botID id s
      = if ownedBy botID s id = true then stopAndDelete rt id s else ([], s) := by
  unfold stopByBotBody ownedBy stopAndDelete
  cases he : getEntry s.connections id with
  | none => simp
  | some entry =>
    obtain ⟨cfg, conn⟩ := entry
    by_cases hb : cfg.BotID = botID
    · cases conn <;> simp [hb]
    · simp [hb]

theorem ownedBy_congr (botID : String) (s s2 : State W) (id : String)
    (h : getEntry s.connections id = getEntry s2.connections id) :
    ownedBy botID s id = ownedBy botID s2 id := by
  unfold ownedBy
  rw [h]

/-- After `stopAll` no key is left in the connection map. -/
theorem stopAll_lookup (rt : Runtime W) (s : State W) (id : String) :
    GoMap.lookup (Manager.stopAll rt s).state.connections id = none := by
  obtain ⟨h1, _, _⟩ := rangeLoop_spec rt (fun _ _ => true) (stopAndDelete rt)
    (fun _ _ => by simp) (fun _ _ _ _ => rfl) (GoMap.keys s.connections)
    (GoMap.nodup_keys _) s
  unfold Manager.stopAll
  dsimp only
  rw [h1]
  split
  · rfl
  · rename_i hn
    apply GoMap.lookup_eq_none_of_not_mem_keys
    intro hk
    exact hn ⟨hk, rfl⟩

/-- After `StopByBot` every key for which `Stop` was called is gone. -/
theorem stopByBot_stop_removed (rt : Runtime W) (botID : String) (s : State W) (id : String)
    (conn : Connection) (err : Option GoError)
    (h : Event.stop id conn err ∈ (Manager.StopByBot rt botID s).trace) :
    GoMap.lookup (Manager.StopByBot rt botID s).state.connections id = none := by
  unfold Manager.StopByBot at h ⊢
  dsimp only at h ⊢
  by_cases hb : TrimSpace botID = ""
  · simp [hb] at h
  · simp only [hb, if_false] at h ⊢
    obtain ⟨h1, h2, _⟩ := rangeLoop_spec rt (fun st k => ownedBy (TrimSpace botID) st k)
      (stopByBotBody rt (TrimSpace botID)) (stopByBotBody_eq rt _)
      (ownedBy_congr _) (GoMap.keys s.connections) (GoMap.nodup_keys _) s
    simp only [List.mem_append, List.mem_singleton, List.mem_cons, List.not_mem_nil,
      or_false] at h
    rcases h with (h | h) | h
    · cases h
    · obtain ⟨id2, _, _, _, e1, e2, e3, _⟩ := h2 _ h
      cases e1
      rw [h1]
      simp [e2, e3]
    · cases h

/-- The restart of `ensureConnection` and the entry it stopped: after a `Stop`
that returned nil the entry tracked under the ID is gone or is a new one
storing `cfg`; after a `Stop` that returned an error the map is as before. -/
theorem ensureConnection_stop_then (rt : Runtime W) (m : Manager W H) (cfg : ChannelConfig)
    (s : State W) (conn : Connection) (err : Option GoError)
    (h : Event.stop cfg.ID conn err ∈ (m.ensureConnection rt cfg s).trace) :
    (err = none →
      getEntry (m.ensureConnection rt cfg s).state.connections cfg.ID = none ∨
      ∃ c, getEntry (m.ensureConnection rt cfg s).state.connections cfg.ID = some ⟨cfg, c⟩) ∧
    (err ≠ none → (m.ensureConnection rt cfg s).state.connections = s.connections) := by
  revert h
  refine ensureConnection_cases rt m cfg s
    (fun o => Event.stop cfg.ID conn err ∈ o.trace →
      (err = none → getEntry o.state.connections cfg.ID = none ∨
        ∃ c, getEntry o.state.connections cfg.ID = some ⟨cfg, c⟩) ∧
      (err ≠ none → o.state.connections = s.connections))
    ?_ ?_ ?_ ?_ ?_ ?_ ?_ ?_
  · intro _ h
    simp at h
  · intro _ _ _ h
    simp at h
  · intro _ _ _ _ h
    simp at h
  · intro _ _ _ _ _ _ _ h
    simp only [List.mem_cons, List.mem_singleton, List.not_mem_nil, or_false] at h
    rcases h with h | h | h | h
    · cases h
    · cases h
    · cases h
    · cases h
      simp
  · intro _ _ _ _ _ _ _ _ _ _ h
    simp only [List.mem_cons, List.mem_singleton, List.not_mem_nil, or_false] at h
    rcases h with h | h | h | h | h | h | h
    all_goals cases h
    simp [getEntry_delete_self]
  · intro _ _ _ _ _ _ _ _ _ h
    simp only [List.mem_cons, List.mem_singleton, List.not_mem_nil, or_false] at h
    rcases h with h | h | h | h | h | h | h | h | h
    all_goals cases h
    simp [getEntry_insert_self]
  · intro _ _ _ _ _ h
    simp at h
  · intro _ _ _ _ h
    simp at h

/-- C9, as amended. Once `Stop` has been invoked for an entry, whatever it
returns: in the removal sweep of a `reconcile` that returns (IDs outside the
active set), in `stopAll` and in `StopByBot` the key is gone from the map;
in the restart of `ensureConnection` the entry is gone (nothing, or a new
entry storing the config, is tracked under the ID) when `Stop` returned nil,
and the map is left as it was when `Stop` returned an error. -/
theorem stop_removes_entry (rt : Runtime W) (m : Manager W H) :
    (∀ configs s id conn err, (m.reconcile rt configs s).ret = false →
      id ∉ activeIDs rt configs → Event.stop id conn err ∈ (m.reconcile rt configs s).trace →
      GoMap.lookup (m.reconcile rt configs s).state.connections id = none) ∧
    (∀ s id, GoMap.lookup (Manager.stopAll rt s).state.connections id = none) ∧
    (∀ botID s id conn err, Event.stop id conn err ∈ (Manager.StopByBot rt botID s).trace →
      GoMap.lookup (Manager.StopByBot rt botID s).state.connections id = none) ∧
    (∀ cfg s conn err, Event.stop cfg.ID conn err ∈ (m.ensureConnection rt cfg s).trace →
      (err = none →
        getEntry (m.ensureConnection rt cfg s).state.connections cfg.ID = none ∨
        ∃ c, getEntry (m.ensureConnection rt cfg s).state.connections cfg.ID
          = some ⟨cfg, c⟩) ∧
      (err ≠ none → (m.ensureConnection rt cfg s).state.connections = s.connections)) :=
  ⟨fun configs s id _ _ hret hid _ => (reconcile_sweep_inactive rt m configs s hret id hid).1,
    stopAll_lookup rt, stopByBot_stop_removed rt, ensureConnection_stop_then rt m⟩

/-- An instance of C9 as amended: `StopByBot` for bot "a" calls `Stop` on
connection 9, which fails, and removes the key "x". -/
theorem stop_removes_entry_witness :
    Event.stop "x" 9 (some (GoError.other "stop failed"))
      ∈ (Manager.StopByBot Scenario.runtime " a "
          (Scenario.tracking [("x", some ⟨Scenario.config "x" "a" "active" 1, some 9⟩),
            ("y", some ⟨Scenario.config "y" "b" "active" 1, some 4⟩)])).trace ∧
    GoMap.lookup (Manager.StopByBot Scenario.runtime " a "
        (Scenario.tracking [("x", some ⟨Scenario.config "x" "a" "active" 1, some 9⟩),
          ("y", some ⟨Scenario.config "y" "b" "active" 1, some 4⟩)])).state.connections "x"
      = none :=
  ⟨by decide,
    (stop_removes_entry Scenario.runtime Scenario.manager).2.2.1 " a "
      (Scenario.tracking [("x", some ⟨Scenario.config "x" "a" "active" 1, some 9⟩),
        ("y", some ⟨Scenario.config "y" "b" "active" 1, some 4⟩)])
      "x" 9 (some (GoError.other "stop failed")) (by decide)⟩

/-- C9, counterexample. The restart of `ensureConnection` with a connection
that cannot be stopped: `Stop` is invoked on the tracked connection, and the
entry with that connection is still tracked afterwards. -/
theorem stop_keeps_entry_counterexample :
    (Scenario.manager.ensureConnection Scenario.runtime (Scenario.config "x" "a" "active" 2)
        (Scenario.tracking [("x", some ⟨Scenario.config "x" "a" "active" 1, some 7⟩)])
      ).trace.filter Event.isStop
      = [Event.stop "x" 7 (some GoError.ErrStopNotSupported)] ∧
    getEntry (Scenario.manager.ensureConnection Scenario.runtime
        (Scenario.config "x" "a" "active" 2)
        (Scenario.tracking [("x", some ⟨Scenario.config "x" "a" "active" 1, some 7⟩)])
      ).state.connections "x"
      = some ⟨Scenario.config "x" "a" "active" 1, some 7⟩ := by
  decide

end StopRemoval

/-! ## Runs without panic -/

section NoPanic

variable {W H : Type}

theorem connectionsPresent_getEntry {conns : GoMap (Option connectionEntry)} {id : String}
    {e : connectionEntry} (hw : connectionsPresent conns = true)
    (h : getEntry conns id = some e) : ∃ conn, e.connection = some conn := by
  induction conns with
  | nil => simp [getEntry, GoMap.lookup] at h
  | cons p rest ih =>
    obtain ⟨k, v⟩ := p
    simp only [connectionsPresent, List.all_cons, Bool.and_eq_true] at hw
    by_cases hk : k = id
    · simp only [getEntry, GoMap.lookup, hk, if_true, Option.join] at h
      subst h
      simpa [Option.isSome_iff_exists] using hw.1
    · simp only [getEntry, GoMap.lookup, hk, if_false] at h
      exact ih hw.2 h

theorem connectionsPresent_delete {conns : GoMap (Option connectionEntry)} (id : String)
    (hw : connectionsPresent conns = true) :
    connectionsPresent (GoMap.delete conns id) = true := by
  simp only [connectionsPresent, GoMap.delete, List.all_eq_true] at hw ⊢
  intro p hp
  exact hw p (List.mem_filter.1 hp).1

theorem connectionsPresent_insert {conns : GoMap (Option connectionEntry)} (id : String)
    (cfg : ChannelConfig) (conn : Option Connection) (hc : conn ≠ none)
    (hw : connectionsPresent conns = true) :
    connectionsPresent (GoMap.insert conns id (some ⟨cfg, conn⟩)) = true := by
  have hd := connectionsPresent_delete id hw
  simp only [connectionsPresent, GoMap.insert, List.all_cons, Bool.and_eq_true] at hd ⊢
  refine ⟨?_, hd⟩
  cases conn with
  | none => exact absurd rfl hc
  | some c => rfl

/-- With no nil connection tracked and receivers that return a connection
whenever they return no error, `ensureConnection` does not panic and tracks no
nil connection afterwards. -/
theorem ensureConnection_no_panic (rt : Runtime W) (m : Manager W H) (cfg : ChannelConfig)
    (s : State W) (hm : m.connectsProperly) (hw : connectionsPresent s.connections = true) :
    (m.ensureConnection rt cfg s).ret ≠ Ret.panicked ∧
      connectionsPresent (m.ensureConnection rt cfg s).state.connections = true := by
  refine ensureConnection_cases rt m cfg s
    (fun o => o.ret ≠ Ret.panicked ∧ connectionsPresent o.state.connections = true)
    ?_ ?_ ?_ ?_ ?_ ?_ ?_ ?_
  · intro _
    exact ⟨Ret.noConfusion, hw⟩
  · intro _ _ _
    exact ⟨Ret.noConfusion, hw⟩
  · intro entry he _ hc
    obtain ⟨conn, hconn⟩ := connectionsPresent_getEntry hw he
    rw [hc] at hconn
    cases hconn
  · intro _ _ e _ _ _ _
    refine ⟨?_, hw⟩
    dsimp only
    split <;> exact Ret.noConfusion
  · intro _ _ _ _ _ _ _ _ _ _
    exact ⟨Ret.noConfusion, connectionsPresent_delete _ hw⟩
  · intro receiver _ conn hr _ _ _ _ hce
    exact ⟨Ret.noConfusion, connectionsPresent_insert _ _ _
      (hm _ receiver cfg _ hr hce) (connectionsPresent_delete _ hw)⟩
  · intro _ _ _ _ _
    exact ⟨Ret.noConfusion, hw⟩
  · intro receiver hr _ hce
    exact ⟨Ret.noConfusion, connectionsPresent_insert _ _ _ (hm _ receiver cfg _ hr hce) hw⟩

theorem reconcileLoop_no_panic (rt : Runtime W) (m : Manager W H) (configs : List ChannelConfig)
    (active : GoMap ChannelConfig) (s : State W) (hm : m.connectsProperly)
    (hw : connectionsPresent s.connections = true) :
    (m.reconcileLoop rt configs active s).ret.2 = false ∧
      connectionsPresent (m.reconcileLoop rt configs active s).state.connections = true := by
  induction configs generalizing active s with
  | nil => exact ⟨rfl, hw⟩
  | cons cfg rest ih =>
    cases he : eligible rt cfg with
    | false =>
      rw [reconcileLoop_skip _ _ _ _ _ _ he]
      exact ih active s hw
    | true =>
      obtain ⟨hp, hw2⟩ := ensureConnection_no_panic rt m cfg s hm hw
      rw [reconcileLoop_step _ _ _ _ _ _ he hp]
      simpa [Outcome.after] using ih (GoMap.insert active cfg.ID cfg) _ hw2

theorem rangeLoop_connectionsPresent (rt : Runtime W) (P : State W → String → Bool)
    (body : String → State W → List Event × State W)
    (hbody : ∀ id s, body id s = if P s id = true then stopAndDelete rt id s else ([], s))
    (ks : List String) (s : State W) (hw : connectionsPresent s.connections = true) :
    connectionsPresent (rangeLoop body ks s).2.connections = true := by
  induction ks generalizing s with
  | nil => exact hw
  | cons k rest ih =>
    simp only [rangeLoop]
    apply ih
    rw [hbody]
    split
    · rw [stopAndDelete_connections]
      exact connectionsPresent_delete _ hw
    · exact hw

/-- With no nil connection tracked and receivers that return a connection
whenever they return no error, `reconcile` returns, and tracks no nil
connection afterwards. -/
theorem reconcile_returns (rt : Runtime W) (m : Manager W H) (configs : List ChannelConfig)
    (s : State W) (hm : m.connectsProperly) (hw : connectionsPresent s.connections = true) :
    (m.reconcile rt configs s).ret = false ∧
      connectionsPresent (m.reconcile rt configs s).state.connections = true := by
  obtain ⟨h1, h2⟩ := reconcileLoop_no_panic rt m configs [] s hm hw
  rw [reconcile_eq rt m configs s h1]
  exact ⟨rfl, rangeLoop_connectionsPresent rt _ _ (sweepBody_eq rt _) _ _ h2⟩

end NoPanic

/-! ## Overlapping calls -/

section Overlapping

variable {W H : Type}

theorem runSteps_returned (rt : Runtime W) (m : Manager W H) (cfg : ChannelConfig) (n : Nat)
    (r : Ret) (s : State W) :
    m.runSteps rt cfg n (EnsurePc.returned r) s = ⟨[], s, EnsurePc.returned r⟩ := by
  induction n with
  | zero => rfl
  | succ n ih => simp [Manager.runSteps, Manager.ensureStep, ih, Outcome.after]

/-- The atomic steps of a call, run alone from the start, make up the
connect half of `ensureConnection`. -/
theorem runSteps_connecting (rt : Runtime W) (m : Manager W H) (cfg : ChannelConfig) (n : Nat)
    (s : State W) :
    m.runSteps rt cfg (n + 2) EnsurePc.connecting s
      = ⟨(m.connectPhase cfg s).trace, (m.connectPhase cfg s).state,
          EnsurePc.returned (m.connectPhase cfg s).ret⟩ := by
  unfold Manager.connectPhase
  cases hr : m.registry.GetReceiver cfg.ChannelType with
  | none => simp [Manager.runSteps, Manager.ensureStep, hr, runSteps_returned, Outcome.after]
  | some receiver =>
    cases hc : (receiver.Connect cfg m.composeHandler s.world).1.2 with
    | none => simp [Manager.runSteps, Manager.ensureStep, hr, hc, runSteps_returned, Outcome.after]
    | some e => simp [Manager.runSteps, Manager.ensureStep, hr, hc, runSteps_returned, Outcome.after]

/-- The atomic steps of a call, run alone, are `ensureConnection`: five steps
from the start end the call with the events, the state and the result of
`ensureConnection`. -/
theorem runSteps_eq_ensureConnection (rt : Runtime W) (m : Manager W H) (cfg : ChannelConfig)
    (s : State W) :
    m.runSteps rt cfg 5 EnsurePc.entry s
      = ⟨(m.ensureConnection rt cfg s).trace, (m.ensureConnection rt cfg s).state,
          EnsurePc.returned (m.ensureConnection rt cfg s).ret⟩ := by
  unfold Manager.ensureConnection
  cases hr : m.registry.GetReceiver cfg.ChannelType with
  | none => simp [Manager.runSteps, Manager.ensureStep, hr, runSteps_returned, Outcome.after]
  | some receiver =>
    cases he : getEntry s.connections cfg.ID with
    | none =>
      rw [Manager.runSteps]
      simp [Manager.ensureStep, hr, he, runSteps_connecting, Outcome.after]
    | some entry =>
      by_cases hlt : entry.config.UpdatedAt < cfg.UpdatedAt
      · cases hc : entry.connection with
        | none =>
          simp [Manager.runSteps, Manager.ensureStep, hr, he, hlt, hc, runSteps_returned,
            Outcome.after]
        | some conn =>
          cases hs : (rt.Stop conn s.world).1 with
          | none =>
            rw [Manager.runSteps, Manager.ensureStep]
            simp only [hr, he, hlt, hc, not_true_eq_false, if_false]
            rw [Manager.runSteps, Manager.ensureStep]
            simp only [hs]
            rw [Manager.runSteps, Manager.ensureStep]
            simp [runSteps_connecting, Outcome.after]
          | some e =>
            simp [Manager.runSteps, Manager.ensureStep, hr, he, hlt, hc, hs, runSteps_returned,
              Outcome.after]
      · simp [Manager.runSteps, Manager.ensureStep, hr, he, hlt, runSteps_returned,
          Outcome.after]

/-- C10, failing run. Two calls `ensureConnection` for the same config start
on an empty map and overlap: each reads the map before the other has stored.
Both find no entry, both call `Connect`, both store.  The map ends with the
second connection only; the first was never stopped, so two connections are
live for the one ID. -/
theorem ensureConnection_overlap_duplicates :
    (Scenario.manager.overlap Scenario.runtime (Scenario.config "x" "a" "active" 1)
        (Scenario.config "x" "a" "active" 1) [true, false, true, true, false, false]
        (Scenario.tracking [])).pc1 = EnsurePc.returned Ret.nil ∧
    (Scenario.manager.overlap Scenario.runtime (Scenario.config "x" "a" "active" 1)
        (Scenario.config "x" "a" "active" 1) [true, false, true, true, false, false]
        (Scenario.tracking [])).pc2 = EnsurePc.returned Ret.nil ∧
    (Scenario.manager.overlap Scenario.runtime (Scenario.config "x" "a" "active" 1)
        (Scenario.config "x" "a" "active" 1) [true, false, true, true, false, false]
        (Scenario.tracking [])).trace
      = [Event.ensureConnection (Scenario.config "x" "a" "active" 1), Event.lock, Event.unlock,
          Event.ensureConnection (Scenario.config "x" "a" "active" 1), Event.lock, Event.unlock,
          Event.connect (Scenario.config "x" "a" "active" 1) (some 100) none,
          Event.lock, Event.unlock,
          Event.connect (Scenario.config "x" "a" "active" 1) (some 101) none,
          Event.lock, Event.unlock] ∧
    (Scenario.manager.overlap Scenario.runtime (Scenario.config "x" "a" "active" 1)
        (Scenario.config "x" "a" "active" 1) [true, false, true, true, false, false]
        (Scenario.tracking [])).state.connections
      = [("x", some ⟨Scenario.config "x" "a" "active" 1, some 101⟩)] ∧
    liveConnections (Scenario.manager.overlap Scenario.runtime
        (Scenario.config "x" "a" "active" 1) (Scenario.config "x" "a" "active" 1)
        [true, false, true, true, false, false] (Scenario.tracking [])).trace
      = [100, 101] := by
  decide

end Overlapping

/-! ## Middleware composition -/

section Middleware

variable {W H : Type}

theorem foldl_reverse_eq_nested (mws : List (H → H)) (h : H) :
    mws.reverse.foldl (fun handler mw => mw handler) h = nested mws h := by
  induction mws with
  | nil => rfl
  | cons mw rest ih => simp [List.foldl_append, nested, ih]

theorem composeHandler_eq_nested (m : Manager W H) :
    m.composeHandler = nested m.middlewares m.handleInbound :=
  foldl_reverse_eq_nested _ _

theorem composeHandler_logging (m : Manager W H) :
    m.logging.composeHandler = m.composeHandler := rfl

/-- The handlers logged by the probes during `ensureConnection`: one for each
`Connect` call, and each is the composed handler. -/
theorem ensureConnection_logging (rt : Runtime W) (m : Manager W H) (cfg : ChannelConfig)
    (s : State (W × List H)) :
    (m.logging.ensureConnection (rt.logging H) cfg s).state.world.2
      = s.world.2 ++ ((m.logging.ensureConnection (rt.logging H) cfg s).trace.filter
          Event.isConnect).map (fun _ => m.composeHandler) := by
  refine ensureConnection_cases (rt.logging H) m.logging cfg s
    (fun o => o.state.world.2
      = s.world.2 ++ (o.trace.filter Event.isConnect).map (fun _ => m.composeHandler))
    ?_ ?_ ?_ ?_ ?_ ?_ ?_ ?_
  · intro _
    simp [Event.isConnect]
  · intro _ _ _
    simp [Event.isConnect]
  · intro _ _ _ _
    simp [Event.isConnect]
  · intro _ _ _ _ _ _ _
    simp [Event.isConnect, Runtime.logging]
  · intro receiver _ _ _ hr _ _ _ _ _
    simp only [Manager.logging, Option.map_eq_some'] at hr
    obtain ⟨r, _, rfl⟩ := hr
    simp [Event.isConnect, Runtime.logging, Receiver.logging, composeHandler_logging]
  · intro receiver _ _ hr _ _ _ _ _
    simp only [Manager.logging, Option.map_eq_some'] at hr
    obtain ⟨r, _, rfl⟩ := hr
    simp [Event.isConnect, Runtime.logging, Receiver.logging, composeHandler_logging]
  · intro receiver _ hr _ _
    simp only [Manager.logging, Option.map_eq_some'] at hr
    obtain ⟨r, _, rfl⟩ := hr
    simp [Event.isConnect, Receiver.logging, composeHandler_logging]
  · intro receiver hr _ _
    simp only [Manager.logging, Option.map_eq_some'] at hr
    obtain ⟨r, _, rfl⟩ := hr
    simp [Event.isConnect, Receiver.logging, composeHandler_logging]

theorem nested_marking (ids : List Nat) (msg : String) :
    nested (ids.map marking) terminal msg
      = ids.map Mark.enter ++ [Mark.handled msg] ++ ids.reverse.map Mark.leave := by
  induction ids with
  | nil => rfl
  | cons i rest ih => simp [nested, marking, ih]

/-- C11. The handler that `ensureConnection` hands to `Connect` is the nesting
`m0(m1(...(mn-1(h))...))` of the middleware list around the terminal handler,
and the terminal handler itself when the list is empty: probes on the
receivers log that handler, once for each `Connect` call.  So the first
middleware of the list is the outermost: with middlewares that note when they
get an event and when they are done, the first of the list is the first to
get each event and the last to be done. -/
theorem composeHandler_first_outermost (rt : Runtime W) (m : Manager W H) :
    m.composeHandler = nested m.middlewares m.handleInbound ∧
    (m.middlewares = [] → m.composeHandler = m.handleInbound) ∧
    (∀ mw rest, m.middlewares = mw :: rest →
      m.composeHandler = mw (nested rest m.handleInbound)) ∧
    (∀ cfg s, (m.logging.ensureConnection (rt.logging H) cfg s).state.world.2
      = s.world.2 ++ ((m.logging.ensureConnection (rt.logging H) cfg s).trace.filter
          Event.isConnect).map (fun _ => nested m.middlewares m.handleInbound)) ∧
    (∀ (registry : Registry W (String → List Mark)) (ids : List Nat) (msg : String),
      (Manager.mk registry none (ids.map marking) terminal).composeHandler msg
        = ids.map Mark.enter ++ [Mark.handled msg] ++ ids.reverse.map Mark.leave) := by
  refine ⟨composeHandler_eq_nested m, ?_, ?_, ?_, ?_⟩
  · intro h
    rw [composeHandler_eq_nested, h]
    rfl
  · intro mw rest h
    rw [composeHandler_eq_nested, h]
    rfl
  · intro cfg s
    rw [← composeHandler_eq_nested]
    exact ensureConnection_logging rt m cfg s
  · intro registry ids msg
    rw [composeHandler_eq_nested]
    exact nested_marking ids msg

/-- An instance of C11: a manager with the marking middlewares 0, 1 and 2;
the handler logged at `Connect` sends an event through 0, 1, 2, the terminal
handler, and back through 2, 1, 0. -/
theorem composeHandler_first_outermost_witness :
    ((Manager.mk (W := Nat) ⟨[], fun _ => some ⟨fun _ _ w => ((some w, none), w + 1)⟩⟩ none
          [marking 0, marking 1, marking 2] terminal).logging.ensureConnection
        (Scenario.calm.logging (String → List Mark)) (Scenario.config "x" "a" "active" 1)
        ⟨(100, []), []⟩).state.world.2.map (fun handler => handler "hello")
      = [[Mark.enter 0, Mark.enter 1, Mark.enter 2, Mark.handled "hello", Mark.leave 2,
          Mark.leave 1, Mark.leave 0]] := by
  rw [(composeHandler_first_outermost Scenario.calm
    (Manager.mk (W := Nat) ⟨[], fun _ => some ⟨fun _ _ w => ((some w, none), w + 1)⟩⟩ none
      [marking 0, marking 1, marking 2] terminal)).2.2.2.1]
  decide

end Middleware

/-! ## Targeted termination -/

section Termination

variable {W : Type}

theorem TrimSpace_of_isBlank (s : String) (h : isBlank s = true) : TrimSpace s = "" := by
  have h1 : s.data.dropWhile isSpace = [] := by
    rw [List.dropWhile_eq_nil_iff]
    simpa [isBlank] using h
  simp only [TrimSpace, h1]
  rfl

theorem filter_isStopOf_locked (id : String) (evs : List Event) :
    ([Event.lock] ++ evs ++ [Event.unlock]).filter (Event.isStopOf id)
      = evs.filter (Event.isStopOf id) := by
  simp [List.filter_append, Event.isStopOf]

theorem ownedBy_eq_true {botID : String} {s : State W} {id : String} :
    ownedBy botID s id = true ↔
      ∃ entry, getEntry s.connections id = some entry ∧ entry.config.BotID = botID := by
  unfold ownedBy
  cases getEntry s.connections id with
  | none => simp
  | some entry => simp

/-- C12. For a bot ID that is not blank once trimmed, `StopByBot` returns nil
whatever the `Stop` calls return.  Every entry whose config belongs to the
trimmed bot ID is removed, with exactly one `Stop` call, on its connection, if
it has one, and none otherwise.  Every other key keeps its value, and no `Stop`
call is made for it. -/
theorem stopByBot_scoped (rt : Runtime W) (botID : String) (s : State W)
    (hb : TrimSpace botID ≠ "") :
    (Manager.StopByBot rt botID s).ret = Ret.nil ∧
    (∀ id entry, getEntry s.connections id = some entry →
      entry.config.BotID = TrimSpace botID →
      GoMap.lookup (Manager.StopByBot rt botID s).state.connections id = none ∧
      (∀ conn, entry.connection = some conn →
        ∃ err, (Manager.StopByBot rt botID s).trace.filter (Event.isStopOf id)
          = [Event.stop id conn err]) ∧
      (entry.connection = none →
        (Manager.StopByBot rt botID s).trace.filter (Event.isStopOf id) = [])) ∧
    (∀ id, (∀ entry, getEntry s.connections id = some entry →
        entry.config.BotID ≠ TrimSpace botID) →
      GoMap.lookup (Manager.StopByBot rt botID s).state.connections id
        = GoMap.lookup s.connections id ∧
      (Manager.StopByBot rt botID s).trace.filter (Event.isStopOf id) = []) := by
  obtain ⟨h1, h2, h3⟩ := rangeLoop_spec rt (fun st k => ownedBy (TrimSpace botID) st k)
    (stopByBotBody rt (TrimSpace botID)) (stopByBotBody_eq rt _)
    (ownedBy_congr _) (GoMap.keys s.connections) (GoMap.nodup_keys _) s
  have heq : Manager.StopByBot rt botID s
      = ⟨[Event.lock] ++ (rangeLoop (stopByBotBody rt (TrimSpace botID))
            (GoMap.keys s.connections) s).1 ++ [Event.unlock],
          (rangeLoop (stopByBotBody rt (TrimSpace botID)) (GoMap.keys s.connections) s).2,
          Ret.nil⟩ := by
    unfold Manager.StopByBot
    simp [hb]
  rw [heq]
  refine ⟨rfl, ?_, ?_⟩
  · intro id entry he hbot
    have hown : ownedBy (TrimSpace botID) s id = true := ownedBy_eq_true.2 ⟨entry, he, hbot⟩
    have hk : id ∈ GoMap.keys s.connections := mem_keys_of_getEntry he
    refine ⟨?_, ?_, ?_⟩
    · dsimp only
      rw [h1]
      simp [hk, hown]
    · intro conn hc
      obtain ⟨cfg, c⟩ := entry
      simp only at hc
      subst hc
      obtain ⟨err, herr⟩ := h3 id hk hown cfg conn he
      exact ⟨err, by rw [filter_isStopOf_locked]; exact herr⟩
    · intro hc
      rw [filter_isStopOf_locked, List.filter_eq_nil_iff]
      intro e hm
      obtain ⟨id2, cfg2, conn2, err2, e1, _, _, e4⟩ := h2 e hm
      have hne : id2 ≠ id := by
        rintro rfl
        rw [he] at e4
        cases e4
        cases hc
      simp [e1, Event.isStopOf, hne]
  · intro id hother
    have hown : ¬ ownedBy (TrimSpace botID) s id = true := by
      intro h
      obtain ⟨entry, he, hbot⟩ := ownedBy_eq_true.1 h
      exact hother entry he hbot
    refine ⟨?_, ?_⟩
    · dsimp only
      rw [h1]
      simp [hown]
    · rw [filter_isStopOf_locked, List.filter_eq_nil_iff]
      intro e hm
      obtain ⟨id2, _, _, _, e1, _, e3, _⟩ := h2 e hm
      have hne : id2 ≠ id := by
        rintro rfl
        exact hown e3
      simp [e1, Event.isStopOf, hne]

/-- An instance of C12: bot "a" has the config "x", whose `Stop` fails, bot "b"
has the config "y"; `StopByBot(" a ")` returns nil and leaves "y" as it was. -/
theorem stopByBot_scoped_witness :
    TrimSpace " a " ≠ "" ∧
    (Manager.StopByBot Scenario.runtime " a "
        (Scenario.tracking [("x", some ⟨Scenario.config "x" "a" "active" 1, some 9⟩),
          ("y", some ⟨Scenario.config "y" "b" "active" 1, some 4⟩)])).ret = Ret.nil ∧
    (Manager.StopByBot Scenario.runtime " a "
        (Scenario.tracking [("x", some ⟨Scenario.config "x" "a" "active" 1, some 9⟩),
          ("y", some ⟨Scenario.config "y" "b" "active" 1, some 4⟩)])).state.connections
      = [("y", some ⟨Scenario.config "y" "b" "active" 1, some 4⟩)] :=
  ⟨by decide,
    (stopByBot_scoped Scenario.runtime " a "
      (Scenario.tracking [("x", some ⟨Scenario.config "x" "a" "active" 1, some 9⟩),
        ("y", some ⟨Scenario.config "y" "b" "active" 1, some 4⟩)]) (by decide)).1,
    by decide⟩

/-- C13. For a config ID that is not blank once trimmed: when no entry with a
connection is tracked under the trimmed ID (no entry, or an entry with a nil
connection), `Manager.Stop` returns nil and makes no `Stop` call; when an entry
with a connection is tracked, `Manager.Stop` makes exactly one `Stop` call, on
that connection, returns what it returned, and leaves the map as it was. -/
theorem Stop_exactly_one (rt : Runtime W) (configID : String) (s : State W)
    (hb : TrimSpace configID ≠ "") :
    ((∀ cfg conn, getEntry s.connections (TrimSpace configID) ≠ some ⟨cfg, some conn⟩) →
      (Manager.Stop rt configID s).ret = Ret.nil ∧
      (Manager.Stop rt configID s).trace.filter Event.isAdapterCall = [] ∧
      (Manager.Stop rt configID s).state = s) ∧
    (∀ cfg conn, getEntry s.connections (TrimSpace configID) = some ⟨cfg, some conn⟩ →
      (Manager.Stop rt configID s).trace.filter Event.isAdapterCall
        = [Event.stop (TrimSpace configID) conn (rt.Stop conn s.world).1] ∧
      (Manager.Stop rt configID s).ret
        = (match (rt.Stop conn s.world).1 with
          | none => Ret.nil
          | some err => Ret.err err) ∧
      (Manager.Stop rt configID s).state.connections = s.connections) := by
  constructor
  · intro hno
    unfold Manager.Stop
    simp only [hb, if_false]
    simp [Event.isAdapterCall, Event.isStop, Event.isConnect]
  · intro cfg conn he
    unfold Manager.Stop
    simp only [hb, if_false, he]
    simp [Event.isAdapterCall, Event.isStop, Event.isConnect]

/-- An instance of C13: `Stop(" x ")` with "x" tracked on connection 9, whose
`Stop` fails. -/
theorem Stop_exactly_one_witness :
    TrimSpace " x " ≠ "" ∧
    (Manager.Stop Scenario.runtime " x "
        (Scenario.tracking [("x", some ⟨Scenario.config "x" "a" "active" 1, some 9⟩),
          ("y", some ⟨Scenario.config "y" "b" "active" 1, some 4⟩)])).trace.filter
        Event.isAdapterCall
      = [Event.stop "x" 9 (some (GoError.other "stop failed"))] :=
  ⟨by decide,
    ((Stop_exactly_one Scenario.runtime " x "
      (Scenario.tracking [("x", some ⟨Scenario.config "x" "a" "active" 1, some 9⟩),
        ("y", some ⟨Scenario.config "y" "b" "active" 1, some 4⟩)]) (by decide)).2
      (Scenario.config "x" "a" "active" 1) 9 (by decide)).1.trans (by decide)⟩

/-- C15. Called with an ID that is empty or only white space, `Manager.Stop`
and `Manager.StopByBot` return an error, make no call at all and leave the
state as it was. -/
theorem blank_id_rejected (rt : Runtime W) (id : String) (s : State W)
    (hblank : isBlank id = true) :
    ((Manager.Stop rt id s).ret = Ret.err (GoError.other "config id is required") ∧
      (Manager.Stop rt id s).trace = [] ∧ (Manager.Stop rt id s).state = s) ∧
    ((Manager.StopByBot rt id s).ret = Ret.err (GoError.other "bot id is required") ∧
      (Manager.StopByBot rt id s).trace = [] ∧ (Manager.StopByBot rt id s).state = s) := by
  have h := TrimSpace_of_isBlank id hblank
  constructor
  · unfold Manager.Stop
    simp [h]
  · unfold Manager.StopByBot
    simp [h]

/-- An instance of C15: the ID is a blank, a tab and a line feed. -/
theorem blank_id_rejected_witness :
    isBlank " \t\n" = true ∧
    (Manager.StopByBot Scenario.runtime " \t\n"
        (Scenario.tracking [("x", some ⟨Scenario.config "x" "" "active" 1, some 9⟩)])).ret
      = Ret.err (GoError.other "bot id is required") ∧
    (Manager.Stop Scenario.runtime " \t\n"
        (Scenario.tracking [("x", some ⟨Scenario.config "x" "" "active" 1, some 9⟩)])).trace
      = [] :=
  ⟨by decide,
    (blank_id_rejected Scenario.runtime " \t\n"
      (Scenario.tracking [("x", some ⟨Scenario.config "x" "" "active" 1, some 9⟩)])
      (by decide)).2.1,
    (blank_id_rejected Scenario.runtime " \t\n"
      (Scenario.tracking [("x", some ⟨Scenario.config "x" "" "active" 1, some 9⟩)])
      (by decide)).1.2.1⟩

theorem GoMap.eq_nil_of_lookup_none {V : Type} (m : GoMap V)
    (h : ∀ k, GoMap.lookup m k = none) : m = [] := by
  cases m with
  | nil => rfl
  | cons p rest =>
    obtain ⟨k, v⟩ := p
    have := h k
    simp [GoMap.lookup] at this

/-- C16. `stopAll` leaves the connection map empty, whatever the `Stop` calls
return; it makes exactly one `Stop` call for every key tracked with a
connection, on that connection, and none for any other key. -/
theorem stopAll_stops_everything (rt : Runtime W) (s : State W) :
    (Manager.stopAll rt s).state.connections = [] ∧
    (∀ id cfg conn, getEntry s.connections id = some ⟨cfg, some conn⟩ →
      ∃ err, (Manager.stopAll rt s).trace.filter (Event.isStopOf id)
        = [Event.stop id conn err]) ∧
    (∀ id, (∀ cfg conn, getEntry s.connections id ≠ some ⟨cfg, some conn⟩) →
      (Manager.stopAll rt s).trace.filter (Event.isStopOf id) = []) ∧
    (Manager.stopAll rt s).trace.filter Event.isConnect = [] := by
  obtain ⟨_, h2, h3⟩ := rangeLoop_spec rt (fun _ _ => true) (stopAndDelete rt)
    (fun _ _ => by simp) (fun _ _ _ _ => rfl) (GoMap.keys s.connections)
    (GoMap.nodup_keys _) s
  refine ⟨GoMap.eq_nil_of_lookup_none _ (stopAll_lookup rt s), ?_, ?_, ?_⟩
  · intro id cfg conn he
    obtain ⟨err, herr⟩ := h3 id (mem_keys_of_getEntry he) rfl cfg conn he
    refine ⟨err, ?_⟩
    unfold Manager.stopAll
    dsimp only
    rw [filter_isStopOf_locked]
    exact herr
  · intro id hno
    unfold Manager.stopAll
    dsimp only
    rw [filter_isStopOf_locked, List.filter_eq_nil_iff]
    intro e hm
    obtain ⟨id2, cfg2, conn2, _, e1, _, _, e4⟩ := h2 e hm
    have hne : id2 ≠ id := by
      rintro rfl
      exact hno cfg2 conn2 e4
    simp [e1, Event.isStopOf, hne]
  · unfold Manager.stopAll
    dsimp only
    rw [List.filter_eq_nil_iff]
    intro e hm
    simp only [List.mem_append, List.mem_singleton] at hm
    rcases hm with (rfl | hm) | rfl
    · simp [Event.isConnect]
    · obtain ⟨_, _, _, _, e1, _⟩ := h2 e hm
      simp [e1, Event.isConnect]
    · simp [Event.isConnect]

/-- C14, as amended. When the `Stop` of a connection returns an error matching
`ErrStopNotSupported`: `StopByBot` returns nil all the same (its only error is
the one for a blank bot ID), and `ensureConnection` returns nil; `Manager.Stop`
returns what the `Stop` of the connection returned, that error included. -/
theorem stop_not_supported_contained {H : Type} (rt : Runtime W) (m : Manager W H) :
    (∀ botID s, (TrimSpace botID ≠ "" → (Manager.StopByBot rt botID s).ret = Ret.nil) ∧
      (TrimSpace botID = "" →
        (Manager.StopByBot rt botID s).ret = Ret.err (GoError.other "bot id is required"))) ∧
    (∀ cfg s conn e, Event.stop cfg.ID conn (some e) ∈ (m.ensureConnection rt cfg s).trace →
      e.isStopNotSupported = true → (m.ensureConnection rt cfg s).ret = Ret.nil) ∧
    (∀ configID s cfg conn e, TrimSpace configID ≠ "" →
      getEntry s.connections (TrimSpace configID) = some ⟨cfg, some conn⟩ →
      (rt.Stop conn s.world).1 = some e → (Manager.Stop rt configID s).ret = Ret.err e) := by
  refine ⟨?_, ?_, ?_⟩
  · intro botID s
    unfold Manager.StopByBot
    constructor
    · intro hb
      simp [hb]
    · intro hb
      simp [hb]
  · intro cfg s conn e
    refine ensureConnection_cases rt m cfg s
      (fun o => Event.stop cfg.ID conn (some e) ∈ o.trace → e.isStopNotSupported = true →
        o.ret = Ret.nil) ?_ ?_ ?_ ?_ ?_ ?_ ?_ ?_
    · intro _ _ _
      rfl
    · intro _ _ _ _ _
      rfl
    · intro _ _ _ _ h
      simp at h
    · intro _ _ e2 _ _ _ _ h hns
      simp only [List.mem_cons, List.mem_singleton, List.not_mem_nil, or_false] at h
      rcases h with h | h | h | h
      all_goals cases h
      simp [hns]
    · intro _ _ _ _ _ _ _ _ _ _ h
      simp at h
    · intro _ _ _ _ _ _ _ _ _ _ _
      rfl
    · intro _ _ _ _ _ h
      simp at h
    · intro _ _ _ _ _ _
      rfl
  · intro configID s cfg conn e hb he hs
    unfold Manager.Stop
    simp [hb, he, hs]

/-- An instance of C14 as amended: connection 7 cannot be stopped; the restart
of `ensureConnection` returns nil. -/
theorem stop_not_supported_contained_witness :
    Event.stop (Scenario.config "x" "a" "active" 2).ID 7 (some GoError.ErrStopNotSupported)
      ∈ (Scenario.manager.ensureConnection Scenario.runtime (Scenario.config "x" "a" "active" 2)
          (Scenario.tracking [("x", some ⟨Scenario.config "x" "a" "active" 1, some 7⟩)])).trace ∧
    (Scenario.manager.ensureConnection Scenario.runtime (Scenario.config "x" "a" "active" 2)
        (Scenario.tracking [("x", some ⟨Scenario.config "x" "a" "active" 1, some 7⟩)])).ret
      = Ret.nil :=
  ⟨by decide,
    (stop_not_supported_contained Scenario.runtime Scenario.manager).2.1
      (Scenario.config "x" "a" "active" 2)
      (Scenario.tracking [("x", some ⟨Scenario.config "x" "a" "active" 1, some 7⟩)])
      7 GoError.ErrStopNotSupported (by decide) (by decide)⟩

/-- C14, counterexample. Connection 7 answers `Stop` with
`ErrStopNotSupported`, and `Manager.Stop` returns that error to its caller. -/
theorem Stop_surfaces_not_supported_counterexample :
    (Manager.Stop Scenario.runtime "x"
        (Scenario.tracking [("x", some ⟨Scenario.config "x" "a" "active" 1, some 7⟩)])).ret
      = Ret.err GoError.ErrStopNotSupported ∧
    GoError.ErrStopNotSupported.isStopNotSupported = true := by
  decide

/-- An instance of C16: of two tracked connections the first cannot be stopped;
`stopAll` stops both and empties the map. -/
theorem stopAll_stops_everything_witness :
    (Manager.stopAll Scenario.runtime
        (Scenario.tracking [("x", some ⟨Scenario.config "x" "a" "active" 1, some 7⟩),
          ("y", some ⟨Scenario.config "y" "b" "active" 1, some 4⟩)])).state.connections = [] ∧
    (Manager.stopAll Scenario.runtime
        (Scenario.tracking [("x", some ⟨Scenario.config "x" "a" "active" 1, some 7⟩),
          ("y", some ⟨Scenario.config "y" "b" "active" 1, some 4⟩)])).trace.filter Event.isStop
      = [Event.stop "x" 7 (some GoError.ErrStopNotSupported), Event.stop "y" 4 none] :=
  ⟨(stopAll_stops_everything Scenario.runtime
      (Scenario.tracking [("x", some ⟨Scenario.config "x" "a" "active" 1, some 7⟩),
        ("y", some ⟨Scenario.config "y" "b" "active" 1, some 4⟩)])).1,
    by decide⟩

end Termination

/-! ## Refresh -/

section Refresh

variable {W H : Type}

theorem fetchConfigs_eq (store : ConfigStore W) (types : List ChannelType)
    (configs : List ChannelConfig) (w : W) :
    fetchConfigs store types configs w
      = ((fetchSequence store types w).map (fun f => Event.listConfigs f.1 f.2.2),
          configs ++ succeededConfigs (fetchSequence store types w),
          worldAfterFetches store types w) := by
  induction types generalizing configs w with
  | nil => simp [fetchConfigs, fetchSequence, succeededConfigs, worldAfterFetches]
  | cons t rest ih =>
    simp only [fetchConfigs, fetchSequence, worldAfterFetches, List.map_cons]
    cases he : (store.ListConfigsByType t w).1.2 with
    | none => simp [ih, succeededConfigs, List.append_assoc]
    | some e => simp [ih, succeededConfigs]

theorem fetchSequence_types (store : ConfigStore W) (types : List ChannelType) (w : W) :
    (fetchSequence store types w).map (fun f => f.1) = types := by
  induction types generalizing w with
  | nil => rfl
  | cons t rest ih => simp [fetchSequence, ih]

/-- No store read is made by `reconcile`. -/
theorem reconcile_fetchArg (rt : Runtime W) (m : Manager W H) (configs : List ChannelConfig)
    (s : State W) : (m.reconcile rt configs s).trace.filterMap Event.fetchArg = [] := by
  rw [List.filterMap_eq_nil_iff]
  intro e he
  have hloop : ∀ e ∈ (m.reconcileLoop rt configs [] s).trace, Event.fetchArg e = none := by
    intro e he
    obtain ⟨c, _, _, hw⟩ := reconcileLoop_within rt m configs [] s e he
    cases e <;> simp_all [Event.within, Event.fetchArg]
  cases hret : (m.reconcileLoop rt configs [] s).ret.2 with
  | true =>
    have : m.reconcile rt configs s
        = ⟨(m.reconcileLoop rt configs [] s).trace, (m.reconcileLoop rt configs [] s).state,
            true⟩ := by
      unfold Manager.reconcile
      simp [hret]
    rw [this] at he
    exact hloop e he
  | false =>
    rw [reconcile_eq rt m configs s hret] at he
    obtain ⟨_, h2, _⟩ := rangeLoop_spec rt
      (fun _ k => !GoMap.hasKey (m.reconcileLoop rt configs [] s).ret.1 k)
      (sweepBody rt (m.reconcileLoop rt configs [] s).ret.1)
      (sweepBody_eq rt _) (fun _ _ _ _ => rfl)
      (GoMap.keys (m.reconcileLoop rt configs [] s).state.connections)
      (GoMap.nodup_keys _) (m.reconcileLoop rt configs [] s).state
    simp only [List.mem_append, List.mem_singleton] at he
    rcases he with ((he | rfl) | he) | rfl
    · exact hloop e he
    · rfl
    · obtain ⟨_, _, _, _, e1, _⟩ := h2 e he
      rw [e1]
      rfl
    · rfl

/-- C17. With a nil store `refresh` does nothing.  With a store, `refresh`
calls `ListConfigsByType` once for each type of the registry, in order, and is
then one `reconcile` of the concatenation, in type order, of the lists that the
fetches without error returned, whatever the other fetches returned. -/
theorem refresh_fetches_then_reconciles (rt : Runtime W) (m : Manager W H) (s : State W) :
    (m.service = none → m.refresh rt s = ⟨[], s, false⟩) ∧
    (∀ store, m.service = some store →
      m.refresh rt s
        = (m.reconcile rt (succeededConfigs (fetchSequence store m.registry.Types s.world))
            { s with world := worldAfterFetches store m.registry.Types s.world }).after
          ((fetchSequence store m.registry.Types s.world).map
            (fun f => Event.listConfigs f.1 f.2.2)) ∧
      (m.refresh rt s).trace.filterMap Event.fetchArg = m.registry.Types) := by
  constructor
  · intro h
    unfold Manager.refresh
    rw [h]
  · intro store h
    have heq : m.refresh rt s
        = (m.reconcile rt (succeededConfigs (fetchSequence store m.registry.Types s.world))
            { s with world := worldAfterFetches store m.registry.Types s.world }).after
          ((fetchSequence store m.registry.Types s.world).map
            (fun f => Event.listConfigs f.1 f.2.2)) := by
      unfold Manager.refresh
      rw [h]
      simp [fetchConfigs_eq]
    refine ⟨heq, ?_⟩
    rw [heq]
    simp only [Outcome.after, List.filterMap_append, reconcile_fetchArg, List.append_nil,
      List.filterMap_map]
    have : (Event.fetchArg ∘ fun f : ChannelType × List ChannelConfig × Option GoError =>
        Event.listConfigs f.1 f.2.2) = fun f => some f.1 := by
      funext f
      rfl
    rw [this]
    have h2 : ∀ l : List (ChannelType × List ChannelConfig × Option GoError),
        l.filterMap (fun f => some f.1) = l.map (fun f => f.1) := by
      intro l
      induction l with
      | nil => rfl
      | cons a rest ih => simp [List.filterMap_cons, ih]
    rw [h2, fetchSequence_types]

/-- An instance of C17: the fetch for `web` fails, the fetch for `telegram`
returns the config "x", which is then connected. -/
theorem refresh_fetches_then_reconciles_witness :
    Scenario.storeManager.service = some Scenario.store ∧
    (Scenario.storeManager.refresh Scenario.runtime (Scenario.tracking [])).trace.filterMap
        Event.fetchArg = ["web", "telegram"] ∧
    (Scenario.storeManager.refresh Scenario.runtime (Scenario.tracking [])).state.connections
      = [("x", some ⟨Scenario.config "x" "a" "active" 1, some 100⟩)] :=
  ⟨rfl,
    ((refresh_fetches_then_reconciles Scenario.runtime Scenario.storeManager
      (Scenario.tracking [])).2 Scenario.store rfl).2,
    by decide⟩

end Refresh

/-! ## The order of the calls within `reconcile` -/

section Ordering

variable {W H : Type}

/-- Every `Stop` call of the first loop of `reconcile` is made for an ID of
the active set. -/
theorem reconcileLoop_stop_active (rt : Runtime W) (m : Manager W H)
    (configs : List ChannelConfig) (s : State W) (id : String) (conn : Connection)
    (err : Option GoError)
    (h : Event.stop id conn err ∈ (m.reconcileLoop rt configs [] s).trace) :
    id ∈ activeIDs rt configs := by
  obtain ⟨c, hc, hel, hw⟩ := reconcileLoop_within rt m configs [] s _ h
  simp only [Event.within, decide_eq_true_eq] at hw
  exact (mem_activeIDs rt configs id).2 ⟨c, hc, hel, hw.symm⟩

/-- What follows the first loop in the trace of `reconcile`: mutex operations
and `Stop` calls, no `Connect` call. -/
theorem reconcile_tail (rt : Runtime W) (m : Manager W H) (configs : List ChannelConfig)
    (s : State W) :
    ∃ tail, (m.reconcile rt configs s).trace = (m.reconcileLoop rt configs [] s).trace ++ tail ∧
      ∀ e ∈ tail, Event.isConnect e = false := by
  cases hret : (m.reconcileLoop rt configs [] s).ret.2 with
  | true =>
    refine ⟨[], ?_, fun e he => by cases he⟩
    unfold Manager.reconcile
    simp [hret]
  | false =>
    rw [reconcile_eq rt m configs s hret]
    obtain ⟨_, h2, _⟩ := rangeLoop_spec rt
      (fun _ k => !GoMap.hasKey (m.reconcileLoop rt configs [] s).ret.1 k)
      (sweepBody rt (m.reconcileLoop rt configs [] s).ret.1)
      (sweepBody_eq rt _) (fun _ _ _ _ => rfl)
      (GoMap.keys (m.reconcileLoop rt configs [] s).state.connections)
      (GoMap.nodup_keys _) (m.reconcileLoop rt configs [] s).state
    refine ⟨[Event.lock] ++ (rangeLoop (sweepBody rt (m.reconcileLoop rt configs [] s).ret.1)
      (GoMap.keys (m.reconcileLoop rt configs [] s).state.connections)
      (m.reconcileLoop rt configs [] s).state).1 ++ [Event.unlock], by simp, ?_⟩
    intro e he
    simp only [List.mem_append, List.mem_singleton] at he
    rcases he with (rfl | he) | rfl
    · rfl
    · obtain ⟨_, _, _, _, e1, _⟩ := h2 e he
      rw [e1]
      rfl
    · rfl

/-- C18. In the trace of one `reconcile` call, no `Connect` call comes after a
`Stop` call made for an ID outside the active set: every `Connect` call of the
run precedes every such `Stop` call. -/
theorem reconcile_starts_before_removals (rt : Runtime W) (m : Manager W H)
    (configs : List ChannelConfig) (s : State W) (pre post : List Event) (id : String)
    (conn : Connection) (err : Option GoError)
    (h : (m.reconcile rt configs s).trace = pre ++ Event.stop id conn err :: post)
    (hid : id ∉ activeIDs rt configs) :
    post.filter Event.isConnect = [] ∧
      (m.reconcile rt configs s).trace.filter Event.isConnect = pre.filter Event.isConnect := by
  have hpost : post.filter Event.isConnect = [] := by
    rw [List.filter_eq_nil_iff]
    intro e he
    obtain ⟨tail, ht, hno⟩ := reconcile_tail rt m configs s
    rw [ht] at h
    rcases List.append_eq_append_iff.1 h with ⟨a, _, h2⟩ | ⟨c, h1, h2⟩
    · -- the `Stop` call lies in the tail
      have : e ∈ tail := by
        rw [h2]
        simp [he]
      simp [hno e this]
    · -- the `Stop` call would lie in the first loop, or it starts the tail
      cases c with
      | nil =>
        simp only [List.nil_append] at h2
        have : e ∈ tail := by
          rw [← h2]
          exact List.mem_cons_of_mem _ he
        simp [hno e this]
      | cons x rest =>
        simp only [List.cons_append, List.cons.injEq] at h2
        have hmem : Event.stop id conn err ∈ (m.reconcileLoop rt configs [] s).trace := by
          rw [h1, h2.1]
          simp
        exact absurd (reconcileLoop_stop_active rt m configs s id conn err hmem) hid
  refine ⟨hpost, ?_⟩
  rw [h, List.filter_append, List.filter_cons]
  simp [Event.isConnect, hpost]

/-- An instance of C18: "x" is connected and "z", no longer in the list, is
stopped; the `Connect` call comes first. -/
theorem reconcile_starts_before_removals_witness :
    ((Scenario.manager.reconcile Scenario.runtime [Scenario.config "x" "a" "active" 1]
        (Scenario.tracking [("z", some ⟨Scenario.config "z" "a" "active" 1, some 4⟩)])).trace
      = [Event.ensureConnection (Scenario.config "x" "a" "active" 1), Event.lock, Event.unlock,
          Event.connect (Scenario.config "x" "a" "active" 1) (some 100) none, Event.lock,
          Event.unlock, Event.lock]
        ++ Event.stop "z" 4 none :: [Event.unlock] ∧
      "z" ∉ activeIDs Scenario.runtime [Scenario.config "x" "a" "active" 1]) ∧
    [Event.unlock].filter Event.isConnect = [] :=
  ⟨⟨by decide, by decide⟩,
    (reconcile_starts_before_removals Scenario.runtime Scenario.manager
      [Scenario.config "x" "a" "active" 1]
      (Scenario.tracking [("z", some ⟨Scenario.config "z" "a" "active" 1, some 4⟩)])
      [Event.ensureConnection (Scenario.config "x" "a" "active" 1), Event.lock, Event.unlock,
        Event.connect (Scenario.config "x" "a" "active" 1) (some 100) none, Event.lock,
        Event.unlock, Event.lock]
      [Event.unlock] "z" 4 none (by decide) (by decide)).1⟩

end Ordering

/-! ## Adapter calls and the mutex -/

section Mutex

variable {W H : Type}

theorem callsOutsideMutex_append (held : Bool) (a b : List Event) :
    callsOutsideMutex held (a ++ b)
      = (callsOutsideMutex held a && callsOutsideMutex (mutexAtEnd held a) b) := by
  induction a generalizing held with
  | nil => simp [callsOutsideMutex, mutexAtEnd]
  | cons e rest ih => simp [callsOutsideMutex, mutexAtEnd, ih, Bool.and_assoc]

theorem mutexAtEnd_append (held : Bool) (a b : List Event) :
    mutexAtEnd held (a ++ b) = mutexAtEnd (mutexAtEnd held a) b := by
  simp [mutexAtEnd, List.foldl_append]

/-- A stretch under the mutex that holds `Stop` calls only. -/
theorem callsUnderMutex_stops (evs : List Event) (h : ∀ e ∈ evs, Event.isStop e = true) :
    callsUnderMutex true (evs ++ [Event.unlock]) = true := by
  induction evs with
  | nil => simp [callsUnderMutex, mutexAfter]
  | cons e rest ih =>
    have he : Event.isStop e = true := h e (List.mem_cons_self _ _)
    have hm : mutexAfter true e = true := by
      cases e <;> simp_all [mutexAfter, Event.isStop]
    simp [callsUnderMutex, hm, ih (fun x hx => h x (List.mem_cons_of_mem _ hx))]

theorem callsUnderMutex_locked (evs : List Event) (h : ∀ e ∈ evs, Event.isStop e = true) :
    callsUnderMutex false ([Event.lock] ++ evs ++ [Event.unlock]) = true := by
  simp only [List.singleton_append, List.cons_append, callsUnderMutex, mutexAfter]
  simp [Event.isAdapterCall, Event.isStop, Event.isConnect, callsUnderMutex_stops evs h]

/-- In `ensureConnection` every adapter call is made with the mutex released,
and the mutex is released at the end. -/
theorem ensureConnection_mutex (rt : Runtime W) (m : Manager W H) (cfg : ChannelConfig)
    (s : State W) :
    callsOutsideMutex false (m.ensureConnection rt cfg s).trace = true ∧
      mutexAtEnd false (m.ensureConnection rt cfg s).trace = false := by
  refine ensureConnection_cases rt m cfg s
    (fun o => callsOutsideMutex false o.trace = true ∧ mutexAtEnd false o.trace = false)
    ?_ ?_ ?_ ?_ ?_ ?_ ?_ ?_
  all_goals intros
  all_goals
    simp [callsOutsideMutex, mutexAtEnd, mutexAfter, Event.isAdapterCall, Event.isStop,
      Event.isConnect]

/-- In the first loop of `reconcile` every adapter call is made with the mutex
released, and the mutex is released at the end. -/
theorem reconcileLoop_mutex (rt : Runtime W) (m : Manager W H) (configs : List ChannelConfig)
    (active : GoMap ChannelConfig) (s : State W) :
    callsOutsideMutex false (m.reconcileLoop rt configs active s).trace = true ∧
      mutexAtEnd false (m.reconcileLoop rt configs active s).trace = false := by
  induction configs generalizing active s with
  | nil => simp [reconcileLoop_nil, callsOutsideMutex, mutexAtEnd]
  | cons cfg rest ih =>
    cases he : eligible rt cfg with
    | false =>
      rw [reconcileLoop_skip _ _ _ _ _ _ he]
      exact ih active s
    | true =>
      obtain ⟨h1, h2⟩ := ensureConnection_mutex rt m cfg s
      by_cases hp : (m.ensureConnection rt cfg s).ret = Ret.panicked
      · rw [reconcileLoop_panic _ _ _ _ _ _ he hp]
        exact ⟨h1, h2⟩
      · rw [reconcileLoop_step _ _ _ _ _ _ he hp]
        obtain ⟨h3, h4⟩ := ih (GoMap.insert active cfg.ID cfg) (m.ensureConnection rt cfg s).state
        simp only [Outcome.after]
        rw [callsOutsideMutex_append, mutexAtEnd_append, h1, h2, h3, h4]
        exact ⟨rfl, rfl⟩

/-- The events of a loop that stops and deletes are `Stop` calls. -/
theorem rangeLoop_stops (rt : Runtime W) (P : State W → String → Bool)
    (body : String → State W → List Event × State W)
    (hbody : ∀ id s, body id s = if P s id = true then stopAndDelete rt id s else ([], s))
    (ks : List String) (s : State W) :
    ∀ e ∈ (rangeLoop body ks s).1, Event.isStop e = true := by
  induction ks generalizing s with
  | nil => simp [rangeLoop]
  | cons k rest ih =>
    intro e he
    simp only [rangeLoop, List.mem_append] at he
    rcases he with he | he
    · rw [hbody] at he
      split at he
      · obtain ⟨_, _, _, e1, _⟩ := stopAndDelete_trace_mem rt k s e he
        rw [e1]
        rfl
      · cases he
    · exact ih _ e he

/-- C19, as amended. In `ensureConnection`, hence in the first loop of
`reconcile`, and in `Manager.Stop`, every `Connect` and `Stop` call is made
with the mutex released.  The removal sweep of `reconcile`, `stopAll` and
`StopByBot` hold the mutex for their whole loop: their `Stop` calls are made
with the mutex held. -/
theorem adapter_calls_and_mutex (rt : Runtime W) (m : Manager W H) :
    (∀ cfg s, callsOutsideMutex false (m.ensureConnection rt cfg s).trace = true) ∧
    (∀ configID s, callsOutsideMutex false (Manager.Stop rt configID s).trace = true) ∧
    (∀ configs s, ∃ sweep,
      (m.reconcile rt configs s).trace = (m.reconcileLoop rt configs [] s).trace ++ sweep ∧
      callsOutsideMutex false (m.reconcileLoop rt configs [] s).trace = true ∧
      mutexAtEnd false (m.reconcileLoop rt configs [] s).trace = false ∧
      callsUnderMutex false sweep = true) ∧
    (∀ s, callsUnderMutex false (Manager.stopAll rt s).trace = true) ∧
    (∀ botID s, callsUnderMutex false (Manager.StopByBot rt botID s).trace = true) := by
  refine ⟨fun cfg s => (ensureConnection_mutex rt m cfg s).1, ?_, ?_, ?_, ?_⟩
  · intro configID s
    unfold Manager.Stop
    dsimp only
    split
    · rfl
    · split <;>
        simp [callsOutsideMutex, mutexAfter, Event.isAdapterCall, Event.isStop, Event.isConnect]
  · intro configs s
    obtain ⟨h1, h2⟩ := reconcileLoop_mutex rt m configs [] s
    cases hret : (m.reconcileLoop rt configs [] s).ret.2 with
    | true =>
      refine ⟨[], ?_, h1, h2, rfl⟩
      unfold Manager.reconcile
      simp [hret]
    | false =>
      rw [reconcile_eq rt m configs s hret]
      refine ⟨[Event.lock] ++ (rangeLoop (sweepBody rt (m.reconcileLoop rt configs [] s).ret.1)
        (GoMap.keys (m.reconcileLoop rt configs [] s).state.connections)
        (m.reconcileLoop rt configs [] s).state).1 ++ [Event.unlock], by simp, h1, h2, ?_⟩
      exact callsUnderMutex_locked _
        (rangeLoop_stops rt (fun _ k => !GoMap.hasKey (m.reconcileLoop rt configs [] s).ret.1 k)
          _ (sweepBody_eq rt _) _ _)
  · intro s
    unfold Manager.stopAll
    exact callsUnderMutex_locked _
      (rangeLoop_stops rt (fun _ _ => true) _ (fun _ _ => by simp) _ _)
  · intro botID s
    unfold Manager.StopByBot
    dsimp only
    split
    · rfl
    · exact callsUnderMutex_locked _
        (rangeLoop_stops rt (fun st k => ownedBy (TrimSpace botID) st k) _
          (stopByBotBody_eq rt _) _ _)

/-- An instance of C19 as amended: a restart by `ensureConnection`, with `Stop`
and `Connect` between the stretches under the mutex. -/
theorem adapter_calls_and_mutex_witness :
    (Scenario.manager.ensureConnection Scenario.runtime (Scenario.config "x" "a" "active" 2)
        (Scenario.tracking [("x", some ⟨Scenario.config "x" "a" "active" 1, some 3⟩)])).trace
      = [Event.ensureConnection (Scenario.config "x" "a" "active" 2), Event.lock, Event.unlock,
          Event.stop "x" 3 none, Event.lock, Event.unlock,
          Event.connect (Scenario.config "x" "a" "active" 2) (some 100) none, Event.lock,
          Event.unlock] ∧
    callsOutsideMutex false
      (Scenario.manager.ensureConnection Scenario.runtime (Scenario.config "x" "a" "active" 2)
        (Scenario.tracking [("x", some ⟨Scenario.config "x" "a" "active" 1, some 3⟩)])).trace
      = true :=
  ⟨by decide, (adapter_calls_and_mutex Scenario.runtime Scenario.manager).1 _ _⟩

/-- C19, counterexample. `stopAll` with one tracked connection: `Stop` is
called between the lock and the unlock of the mutex. -/
theorem stopAll_stops_under_mutex_counterexample :
    (Manager.stopAll Scenario.runtime
        (Scenario.tracking [("x", some ⟨Scenario.config "x" "a" "active" 1, some 4⟩)])).trace
      = [Event.lock, Event.stop "x" 4 none, Event.unlock] ∧
    callsOutsideMutex false (Manager.stopAll Scenario.runtime
        (Scenario.tracking [("x", some ⟨Scenario.config "x" "a" "active" 1, some 4⟩)])).trace
      = false := by
  decide

end Mutex

/-! ## History of an entry -/

section History

variable {W H : Type}

/-- C20. The entry tracked under the ID of `cfg` after `ensureConnection(cfg)`,
if there is one, is not older than the entry tracked before, and it is either
that very entry, or a new entry that stores `cfg` and the connection returned
by a `Connect` call made with `cfg`; in the latter case an entry tracked
before was older than `cfg`, and the `Stop` of its connection had returned nil
before that `Connect` call. -/
theorem ensureConnection_entry_history (rt : Runtime W) (m : Manager W H) (cfg : ChannelConfig)
    (s : State W) (e2 : connectionEntry)
    (h : getEntry (m.ensureConnection rt cfg s).state.connections cfg.ID = some e2) :
    (∀ old, getEntry s.connections cfg.ID = some old →
      old.config.UpdatedAt ≤ e2.config.UpdatedAt) ∧
    (getEntry s.connections cfg.ID = some e2 ∨
      (e2.config = cfg ∧
        ∃ pre post, (m.ensureConnection rt cfg s).trace
            = pre ++ Event.connect cfg e2.connection none :: post ∧
          ∀ old, getEntry s.connections cfg.ID = some old →
            old.config.UpdatedAt < cfg.UpdatedAt ∧
            ∃ c, old.connection = some c ∧ Event.stop cfg.ID c none ∈ pre)) := by
  revert h
  refine ensureConnection_cases rt m cfg s
    (fun o => getEntry o.state.connections cfg.ID = some e2 →
      (∀ old, getEntry s.connections cfg.ID = some old →
        old.config.UpdatedAt ≤ e2.config.UpdatedAt) ∧
      (getEntry s.connections cfg.ID = some e2 ∨
        (e2.config = cfg ∧
          ∃ pre post, o.trace = pre ++ Event.connect cfg e2.connection none :: post ∧
            ∀ old, getEntry s.connections cfg.ID = some old →
              old.config.UpdatedAt < cfg.UpdatedAt ∧
              ∃ c, old.connection = some c ∧ Event.stop cfg.ID c none ∈ pre)))
    ?_ ?_ ?_ ?_ ?_ ?_ ?_ ?_
  · intro _ h
    exact ⟨fun old ho => by rw [h] at ho; cases ho; exact le_refl _, Or.inl h⟩
  · intro _ _ _ h
    exact ⟨fun old ho => by rw [h] at ho; cases ho; exact le_refl _, Or.inl h⟩
  · intro _ _ _ _ h
    exact ⟨fun old ho => by rw [h] at ho; cases ho; exact le_refl _, Or.inl h⟩
  · intro _ _ _ _ _ _ _ h
    exact ⟨fun old ho => by rw [h] at ho; cases ho; exact le_refl _, Or.inl h⟩
  · intro _ _ _ _ _ _ _ _ _ _ h
    simp [getEntry_delete_self] at h
  · intro receiver entry conn _ he hlt hc _ _ h
    simp only [getEntry_insert_self, Option.some.injEq] at h
    subst h
    refine ⟨?_, Or.inr ⟨rfl, ?_⟩⟩
    · intro old ho
      rw [he] at ho
      cases ho
      exact le_of_lt hlt
    · refine ⟨[Event.ensureConnection cfg, Event.lock, Event.unlock,
        Event.stop cfg.ID conn none, Event.lock, Event.unlock], [Event.lock, Event.unlock],
        rfl, ?_⟩
      intro old ho
      rw [he] at ho
      cases ho
      exact ⟨hlt, conn, hc, by simp⟩
  · intro _ _ _ he _ h
    rw [he] at h
    cases h
  · intro receiver _ he _ h
    simp only [getEntry_insert_self, Option.some.injEq] at h
    subst h
    refine ⟨?_, Or.inr ⟨rfl, ?_⟩⟩
    · intro old ho
      rw [he] at ho
      cases ho
    · refine ⟨[Event.ensureConnection cfg, Event.lock, Event.unlock],
        [Event.lock, Event.unlock], rfl, ?_⟩
      intro old ho
      rw [he] at ho
      cases ho

/-- An instance of C20: the config "x" tracked with `UpdatedAt` 1 on connection
3 is restarted for `UpdatedAt` 2 and tracked on connection 100. -/
theorem ensureConnection_entry_history_witness :
    getEntry (Scenario.manager.ensureConnection Scenario.runtime
        (Scenario.config "x" "a" "active" 2)
        (Scenario.tracking [("x", some ⟨Scenario.config "x" "a" "active" 1, some 3⟩)])
      ).state.connections (Scenario.config "x" "a" "active" 2).ID
      = some ⟨Scenario.config "x" "a" "active" 2, some 100⟩ ∧
    ∀ old, getEntry (Scenario.tracking
        [("x", some ⟨Scenario.config "x" "a" "active" 1, some 3⟩)]).connections
        (Scenario.config "x" "a" "active" 2).ID = some old →
      old.config.UpdatedAt
        ≤ (connectionEntry.mk (Scenario.config "x" "a" "active" 2) (some 100)).config.UpdatedAt :=
  ⟨by decide,
    (ensureConnection_entry_history Scenario.runtime Scenario.manager
      (Scenario.config "x" "a" "active" 2)
      (Scenario.tracking [("x", some ⟨Scenario.config "x" "a" "active" 1, some 3⟩)])
      ⟨Scenario.config "x" "a" "active" 2, some 100⟩ (by decide)).1⟩

end History

/-! ## Skipped and failed restarts -/

section Skipped

variable {W H : Type}

/-- C21. When the registry has no receiver for the type of `cfg`,
`ensureConnection` returns nil, makes no `Connect` call and no `Stop` call,
takes no mutex, and leaves the state as it was, whatever is tracked under the
ID of `cfg`. -/
theorem ensureConnection_no_receiver (rt : Runtime W) (m : Manager W H) (cfg : ChannelConfig)
    (s : State W) (hr : m.registry.GetReceiver cfg.ChannelType = none) :
    (m.ensureConnection rt cfg s).ret = Ret.nil ∧
      (m.ensureConnection rt cfg s).trace = [Event.ensureConnection cfg] ∧
      (m.ensureConnection rt cfg s).trace.filter Event.isAdapterCall = [] ∧
      (m.ensureConnection rt cfg s).state = s := by
  unfold Manager.ensureConnection
  simp [hr, Event.isAdapterCall, Event.isStop, Event.isConnect]

/-- An instance of C21: a `web` config, for which the registry of the scenario
has no receiver, while a stale entry is tracked under its ID. -/
theorem ensureConnection_no_receiver_witness :
    Scenario.manager.registry.GetReceiver
        (ChannelConfig.mk "x" "a" "web" [] "" [] [] "active" 0 0 5).ChannelType = none ∧
    (Scenario.manager.ensureConnection Scenario.runtime
        (ChannelConfig.mk "x" "a" "web" [] "" [] [] "active" 0 0 5)
        (Scenario.tracking [("x", some ⟨Scenario.config "x" "a" "active" 1, some 3⟩)])).trace
      = [Event.ensureConnection (ChannelConfig.mk "x" "a" "web" [] "" [] [] "active" 0 0 5)] :=
  ⟨rfl,
    (ensureConnection_no_receiver Scenario.runtime Scenario.manager
      (ChannelConfig.mk "x" "a" "web" [] "" [] [] "active" 0 0 5)
      (Scenario.tracking [("x", some ⟨Scenario.config "x" "a" "active" 1, some 3⟩)]) rfl).2.1⟩

/-- The entry tracked under the ID of `cfg` changes in `ensureConnection` only
after a `Stop` for that ID has returned nil. -/
theorem ensureConnection_removed_after_stop (rt : Runtime W) (m : Manager W H)
    (cfg : ChannelConfig) (s : State W) (entry : connectionEntry)
    (he : getEntry s.connections cfg.ID = some entry)
    (hch : getEntry (m.ensureConnection rt cfg s).state.connections cfg.ID ≠ some entry) :
    ∃ conn, entry.connection = some conn ∧
      Event.stop cfg.ID conn none ∈ (m.ensureConnection rt cfg s).trace := by
  revert hch
  refine ensureConnection_cases rt m cfg s
    (fun o => getEntry o.state.connections cfg.ID ≠ some entry →
      ∃ conn, entry.connection = some conn ∧ Event.stop cfg.ID conn none ∈ o.trace)
    ?_ ?_ ?_ ?_ ?_ ?_ ?_ ?_
  · intro _ h
    exact absurd he h
  · intro _ _ _ h
    exact absurd he h
  · intro _ _ _ _ h
    exact absurd he h
  · intro _ _ _ _ _ _ _ h
    exact absurd he h
  · intro _ entry2 conn _ _ he2 _ hc _ _ _
    rw [he] at he2
    cases he2
    exact ⟨conn, hc, by simp⟩
  · intro _ entry2 conn _ he2 _ hc _ _ _
    rw [he] at he2
    cases he2
    exact ⟨conn, hc, by simp⟩
  · intro _ _ _ _ _ h
    exact absurd he h
  · intro _ _ he2 _ _
    rw [he] at he2
    cases he2

/-- C22. When the tracked entry is stale, the type has a receiver, and `Stop`
on the connection of the entry returns an error that does not match
`ErrStopNotSupported`, `ensureConnection` returns that error, makes no
`Connect` call, and leaves the map as it was.  In general the entry tracked
under the ID is removed or replaced only after a `Stop` for it returned nil. -/
theorem ensureConnection_stop_error (rt : Runtime W) (m : Manager W H) (cfg : ChannelConfig)
    (s : State W) (receiver : Receiver W H) (entry : connectionEntry) (conn : Connection)
    (e : GoError) (hr : m.registry.GetReceiver cfg.ChannelType = some receiver)
    (he : getEntry s.connections cfg.ID = some entry)
    (hstale : entry.config.UpdatedAt < cfg.UpdatedAt) (hc : entry.connection = some conn)
    (hs : (rt.Stop conn s.world).1 = some e) (hns : e.isStopNotSupported = false) :
    ((m.ensureConnection rt cfg s).ret = Ret.err e ∧
      (m.ensureConnection rt cfg s).trace.filter Event.isAdapterCall
        = [Event.stop cfg.ID conn (some e)] ∧
      (m.ensureConnection rt cfg s).state.connections = s.connections ∧
      getEntry (m.ensureConnection rt cfg s).state.connections cfg.ID = some entry) ∧
    (∀ (s2 : State W) (entry2 : connectionEntry),
      getEntry s2.connections cfg.ID = some entry2 →
      getEntry (m.ensureConnection rt cfg s2).state.connections cfg.ID ≠ some entry2 →
      ∃ conn2, entry2.connection = some conn2 ∧
        Event.stop cfg.ID conn2 none ∈ (m.ensureConnection rt cfg s2).trace) := by
  constructor
  · have heq : m.ensureConnection rt cfg s
        = ⟨[Event.ensureConnection cfg, Event.lock, Event.unlock,
            Event.stop cfg.ID conn (some e)],
          { s with world := (rt.Stop conn s.world).2 }, Ret.err e⟩ := by
      unfold Manager.ensureConnection
      simp [hr, he, hstale, hc, hs, hns]
    rw [heq]
    simp [Event.isAdapterCall, Event.isStop, Event.isConnect, he]
  · intro s2 entry2 h1 h2
    exact ensureConnection_removed_after_stop rt m cfg s2 entry2 h1 h2

/-- An instance of C22: stopping connection 9 fails with an error that is not
the sentinel. -/
theorem ensureConnection_stop_error_witness :
    (getEntry (Scenario.tracking [("x", some ⟨Scenario.config "x" "a" "active" 1, some 9⟩)]
        ).connections (Scenario.config "x" "a" "active" 2).ID
      = some ⟨Scenario.config "x" "a" "active" 1, some 9⟩ ∧
      (Scenario.runtime.Stop 9 (Scenario.tracking
        [("x", some ⟨Scenario.config "x" "a" "active" 1, some 9⟩)]).world).1
      = some (GoError.other "stop failed")) ∧
    (Scenario.manager.ensureConnection Scenario.runtime (Scenario.config "x" "a" "active" 2)
        (Scenario.tracking [("x", some ⟨Scenario.config "x" "a" "active" 1, some 9⟩)])).ret
      = Ret.err (GoError.other "stop failed") :=
  ⟨⟨by decide, by decide⟩,
    (ensureConnection_stop_error Scenario.runtime Scenario.manager
      (Scenario.config "x" "a" "active" 2)
      (Scenario.tracking [("x", some ⟨Scenario.config "x" "a" "active" 1, some 9⟩)])
      Scenario.receiver ⟨Scenario.config "x" "a" "active" 1, some 9⟩ 9
      (GoError.other "stop failed") rfl (by decide) (by decide) rfl (by decide) rfl).1.1⟩

end Skipped

/-! ## Failed fetches -/

section FailedFetch

variable {W H : Type}

theorem succeededConfigs_all_failed
    (fetches : List (ChannelType × List ChannelConfig × Option GoError))
    (h : ∀ f ∈ fetches, f.2.2 ≠ none) : succeededConfigs fetches = [] := by
  induction fetches with
  | nil => rfl
  | cons f rest ih =>
    obtain ⟨t, items, err⟩ := f
    cases err with
    | none => exact absurd rfl (h (t, items, none) (List.mem_cons_self _ _))
    | some e =>
      simp only [succeededConfigs]
      exact ih (fun f hf => h f (List.mem_cons_of_mem _ hf))

theorem refresh_eq (rt : Runtime W) (m : Manager W H) (s : State W) (store : ConfigStore W)
    (hs : m.service = some store) :
    m.refresh rt s
      = (m.reconcile rt (succeededConfigs (fetchSequence store m.registry.Types s.world))
          { s with world := worldAfterFetches store m.registry.Types s.world }).after
        ((fetchSequence store m.registry.Types s.world).map
          (fun f => Event.listConfigs f.1 f.2.2)) := by
  unfold Manager.refresh
  rw [hs]
  simp [fetchConfigs_eq]

theorem filter_isStopOf_fetches (id : String)
    (fetches : List (ChannelType × List ChannelConfig × Option GoError)) (evs : List Event) :
    (fetches.map (fun f => Event.listConfigs f.1 f.2.2) ++ evs).filter (Event.isStopOf id)
      = evs.filter (Event.isStopOf id) := by
  rw [List.filter_append]
  have : (fetches.map (fun f => Event.listConfigs f.1 f.2.2)).filter (Event.isStopOf id)
      = [] := by
    rw [List.filter_eq_nil_iff]
    intro e he
    obtain ⟨f, _, rfl⟩ := List.mem_map.1 he
    simp [Event.isStopOf]
  rw [this, List.nil_append]

/-- In a `refresh` that returns, every tracked ID that the fetches without
error do not return as eligible is removed from the map, with exactly one
`Stop` call on its connection if it has one; the IDs of a type whose fetch
failed are among them.  When every fetch fails, `refresh` returns, stops every
tracked connection and leaves the map empty. -/
theorem refresh_failed_fetch_removes (rt : Runtime W) (m : Manager W H) (s : State W)
    (store : ConfigStore W) (hs : m.service = some store) :
    (∀ id, (m.refresh rt s).ret = false →
      id ∉ activeIDs rt (succeededConfigs (fetchSequence store m.registry.Types s.world)) →
      GoMap.lookup (m.refresh rt s).state.connections id = none ∧
      ∀ cfg conn, getEntry s.connections id = some ⟨cfg, some conn⟩ →
        ∃ err, (m.refresh rt s).trace.filter (Event.isStopOf id) = [Event.stop id conn err]) ∧
    ((∀ f ∈ fetchSequence store m.registry.Types s.world, f.2.2 ≠ none) →
      (m.refresh rt s).ret = false ∧ (m.refresh rt s).state.connections = [] ∧
      ∀ id cfg conn, getEntry s.connections id = some ⟨cfg, some conn⟩ →
        ∃ err, (m.refresh rt s).trace.filter (Event.isStopOf id) = [Event.stop id conn err]) := by
  have key : ∀ id, (m.refresh rt s).ret = false →
      id ∉ activeIDs rt (succeededConfigs (fetchSequence store m.registry.Types s.world)) →
      GoMap.lookup (m.refresh rt s).state.connections id = none ∧
      ∀ cfg conn, getEntry s.connections id = some ⟨cfg, some conn⟩ →
        ∃ err, (m.refresh rt s).trace.filter (Event.isStopOf id)
          = [Event.stop id conn err] := by
    intro id hret hid
    rw [refresh_eq rt m s store hs] at hret ⊢
    simp only [Outcome.after] at hret ⊢
    obtain ⟨h1, h2, _⟩ := reconcile_sweep_inactive rt m _ _ hret id hid
    refine ⟨h1, ?_⟩
    intro cfg conn he
    obtain ⟨err, herr⟩ := h2 cfg conn he
    exact ⟨err, by rw [filter_isStopOf_fetches]; exact herr⟩
  refine ⟨key, ?_⟩
  intro hall
  have hnil := succeededConfigs_all_failed _ hall
  have hret : (m.refresh rt s).ret = false := by
    rw [refresh_eq rt m s store hs, hnil]
    simp [Outcome.after, reconcile_ret, reconcileLoop_nil]
  have hid : ∀ id, id ∉ activeIDs rt
      (succeededConfigs (fetchSequence store m.registry.Types s.world)) := by
    intro id
    rw [hnil]
    simp [activeIDs]
  exact ⟨hret, GoMap.eq_nil_of_lookup_none _ (fun id => (key id hret (hid id)).1),
    fun id cfg conn he => (key id hret (hid id)).2 cfg conn he⟩

/-- A run in which every fetch fails: a manager whose only type is `web`,
whose fetch fails; the tracked telegram connection is stopped and removed. -/
theorem refresh_failed_fetch_removes_witness :
    (∀ f ∈ fetchSequence Scenario.store ["web"] (100 : Nat), f.2.2 ≠ none) ∧
    (Manager.refresh Scenario.runtime
        (Manager.mk (H := Unit) ⟨["web"], fun _ => some Scenario.receiver⟩ (some Scenario.store)
          [] ())
        (Scenario.tracking [("x", some ⟨Scenario.config "x" "a" "active" 1, some 4⟩)])
      ).state.connections = [] ∧
    (Manager.refresh Scenario.runtime
        (Manager.mk (H := Unit) ⟨["web"], fun _ => some Scenario.receiver⟩ (some Scenario.store)
          [] ())
        (Scenario.tracking [("x", some ⟨Scenario.config "x" "a" "active" 1, some 4⟩)])
      ).trace
      = [Event.listConfigs "web" (some (GoError.other "store down")), Event.lock,
          Event.stop "x" 4 none, Event.unlock] :=
  ⟨by decide,
    ((refresh_failed_fetch_removes Scenario.runtime
      (Manager.mk (H := Unit) ⟨["web"], fun _ => some Scenario.receiver⟩ (some Scenario.store)
        [] ())
      (Scenario.tracking [("x", some ⟨Scenario.config "x" "a" "active" 1, some 4⟩)])
      Scenario.store rfl).2 (by decide)).2.1,
    by decide⟩

/-- C25, failing run. The fetch for `web` fails and the fetch for `telegram`
returns the config "x" with `UpdatedAt` 1. Tracked are "x", older and with a
nil connection, and the `web` entry "w" with connection 4, whose ID no fetch
returned. `ensureConnection` for "x" calls `Stop` on the nil connection and
panics: `refresh` does not return, no `Stop` is called at all, and "w" is
still in the map. -/
theorem refresh_panic_keeps_failed_type :
    (fetchSequence Scenario.store Scenario.storeManager.registry.Types (100 : Nat)).map
        (fun f => (f.1, f.2.2))
      = [("web", some (GoError.other "store down")), ("telegram", none)] ∧
    "w" ∉ activeIDs Scenario.runtime
      (succeededConfigs
        (fetchSequence Scenario.store Scenario.storeManager.registry.Types (100 : Nat))) ∧
    (Scenario.storeManager.refresh Scenario.runtime
        (Scenario.tracking [("x", some ⟨Scenario.config "x" "a" "active" 0, none⟩),
          ("w", some ⟨Scenario.webConfig "w" 1, some 4⟩)])).ret = true ∧
    (Scenario.storeManager.refresh Scenario.runtime
        (Scenario.tracking [("x", some ⟨Scenario.config "x" "a" "active" 0, none⟩),
          ("w", some ⟨Scenario.webConfig "w" 1, some 4⟩)])).trace.filter Event.isStop = [] ∧
    getEntry (Scenario.storeManager.refresh Scenario.runtime
        (Scenario.tracking [("x", some ⟨Scenario.config "x" "a" "active" 0, none⟩),
          ("w", some ⟨Scenario.webConfig "w" 1, some 4⟩)])).state.connections "w"
      = some ⟨Scenario.webConfig "w" 1, some 4⟩ := by
  refine ⟨?_, ?_, ?_, ?_, ?_⟩ <;> decide

end FailedFetch

/-! ## After `Manager.Stop` -/

section AfterStop

variable {W H : Type}

theorem Stop_connections (rt : Runtime W) (configID : String) (s : State W) :
    (Manager.Stop rt configID s).state.connections = s.connections := by
  unfold Manager.Stop
  dsimp only
  split
  · rfl
  · split <;> rfl

theorem Event.isConnect_of_isConnectOf {id : String} {e : Event}
    (h : Event.isConnectOf id e = true) : Event.isConnect e = true := by
  cases e <;> simp_all [Event.isConnectOf, Event.isConnect]

theorem Event.touches_false_of_not_adapterCall {id : String} {e : Event}
    (h : Event.isAdapterCall e = false) : Event.touches id e = false := by
  cases e <;>
    simp_all [Event.touches, Event.isStopOf, Event.isConnectOf, Event.isAdapterCall,
      Event.isStop, Event.isConnect]

/-- While an entry is tracked under an ID and no eligible config of that ID in
the list is newer than it, the first loop of `reconcile` keeps the entry and
makes no adapter call for the ID. -/
theorem reconcileLoop_keeps_fresh (rt : Runtime W) (m : Manager W H)
    (configs : List ChannelConfig) (active : GoMap ChannelConfig) (s : State W) (id : String)
    (entry : connectionEntry) (he : getEntry s.connections id = some entry)
    (hfresh : ∀ c ∈ configs, eligible rt c = true → c.ID = id →
      ¬ entry.config.UpdatedAt < c.UpdatedAt) :
    getEntry (m.reconcileLoop rt configs active s).state.connections id = some entry ∧
      ∀ e ∈ (m.reconcileLoop rt configs active s).trace, Event.touches id e = false := by
  induction configs generalizing active s with
  | nil => simp [reconcileLoop_nil, he]
  | cons cfg rest ih =>
    have hrest : ∀ c ∈ rest, eligible rt c = true → c.ID = id →
        ¬ entry.config.UpdatedAt < c.UpdatedAt :=
      fun c hc => hfresh c (List.mem_cons_of_mem _ hc)
    cases hel : eligible rt cfg with
    | false =>
      rw [reconcileLoop_skip _ _ _ _ _ _ hel]
      exact ih active s he hrest
    | true =>
      have hstep : getEntry (m.ensureConnection rt cfg s).state.connections id = some entry ∧
          ∀ e ∈ (m.ensureConnection rt cfg s).trace, Event.touches id e = false := by
        by_cases hid : cfg.ID = id
        · obtain ⟨_, n2, n3⟩ := ensureConnection_noop rt m cfg s
            (Or.inr ⟨entry, hid ▸ he, hfresh cfg (List.mem_cons_self _ _) hel hid⟩)
          refine ⟨by rw [n3]; exact he, ?_⟩
          intro e hm
          apply Event.touches_false_of_not_adapterCall
          have := List.filter_eq_nil_iff.1 n2 e hm
          simpa using this
        · refine ⟨(getEntry_congr (ensureConnection_lookup_ne rt m cfg s (Ne.symm hid))).trans he,
            fun e hm => Event.touches_of_within (ensureConnection_within rt m cfg s e hm) hid⟩
      by_cases hp : (m.ensureConnection rt cfg s).ret = Ret.panicked
      · rw [reconcileLoop_panic _ _ _ _ _ _ hel hp]
        exact hstep
      · rw [reconcileLoop_step _ _ _ _ _ _ hel hp]
        obtain ⟨h1, h2⟩ := ih (GoMap.insert active cfg.ID cfg) _ hstep.1 hrest
        refine ⟨by simpa [Outcome.after] using h1, ?_⟩
        intro e hm
        simp only [Outcome.after, List.mem_append] at hm
        rcases hm with hm | hm
        · exact hstep.2 e hm
        · exact h2 e hm

/-- C26. `Manager.Stop` leaves the connection map as it was, also when `Stop`
returned nil: an entry tracked before is tracked after.  A later
`ensureConnection` with a config of that ID that is not newer than the stored
one makes no adapter call and changes nothing, and a later `reconcile` whose
eligible configs of that ID are not newer makes no `Connect` call for the
ID. -/
theorem Stop_keeps_entry (rt : Runtime W) (m : Manager W H) (configID : String) (s : State W) :
    (Manager.Stop rt configID s).state.connections = s.connections ∧
    (∀ entry, getEntry s.connections (TrimSpace configID) = some entry →
      getEntry (Manager.Stop rt configID s).state.connections (TrimSpace configID)
        = some entry ∧
      (∀ cfg, cfg.ID = TrimSpace configID → ¬ entry.config.UpdatedAt < cfg.UpdatedAt →
        (m.ensureConnection rt cfg (Manager.Stop rt configID s).state).trace.filter
            Event.isAdapterCall = [] ∧
        (m.ensureConnection rt cfg (Manager.Stop rt configID s).state).state.connections
          = s.connections) ∧
      (∀ configs, (∀ c ∈ configs, eligible rt c = true → c.ID = TrimSpace configID →
          ¬ entry.config.UpdatedAt < c.UpdatedAt) →
        (m.reconcile rt configs (Manager.Stop rt configID s).state).trace.filter
            (Event.isConnectOf (TrimSpace configID)) = [])) := by
  have hc := Stop_connections rt configID s
  refine ⟨hc, ?_⟩
  intro entry he
  have he2 : getEntry (Manager.Stop rt configID s).state.connections (TrimSpace configID)
      = some entry := by rw [hc]; exact he
  refine ⟨he2, ?_, ?_⟩
  · intro cfg hid hfresh
    obtain ⟨_, n2, n3⟩ := ensureConnection_noop rt m cfg (Manager.Stop rt configID s).state
      (Or.inr ⟨entry, hid ▸ he2, hfresh⟩)
    exact ⟨n2, by rw [n3, hc]⟩
  · intro configs hfresh
    rw [List.filter_eq_nil_iff]
    intro e hm hcon
    obtain ⟨tail, ht, hno⟩ := reconcile_tail rt m configs (Manager.Stop rt configID s).state
    rw [ht, List.mem_append] at hm
    rcases hm with hm | hm
    · have := (reconcileLoop_keeps_fresh rt m configs [] _ _ entry he2 hfresh).2 e hm
      simp only [Event.touches, Bool.or_eq_false_iff] at this
      rw [this.2] at hcon
      cases hcon
    · have := hno e hm
      rw [Event.isConnect_of_isConnectOf hcon] at this
      cases this

/-- An instance of C26: `Stop("x")` succeeds on connection 4; the entry stays,
and a `reconcile` with the same config does not connect again. -/
theorem Stop_keeps_entry_witness :
    getEntry (Scenario.tracking [("x", some ⟨Scenario.config "x" "a" "active" 1, some 4⟩)]
        ).connections (TrimSpace "x") = some ⟨Scenario.config "x" "a" "active" 1, some 4⟩ ∧
    (Manager.Stop Scenario.runtime "x"
        (Scenario.tracking [("x", some ⟨Scenario.config "x" "a" "active" 1, some 4⟩)])).ret
      = Ret.nil ∧
    (Scenario.manager.reconcile Scenario.runtime [Scenario.config "x" "a" "active" 1]
        (Manager.Stop Scenario.runtime "x"
          (Scenario.tracking [("x", some ⟨Scenario.config "x" "a" "active" 1, some 4⟩)])).state
      ).trace.filter (Event.isConnectOf (TrimSpace "x")) = [] :=
  ⟨by decide, by decide,
    ((Stop_keeps_entry Scenario.runtime Scenario.manager "x"
      (Scenario.tracking [("x", some ⟨Scenario.config "x" "a" "active" 1, some 4⟩)])).2
      ⟨Scenario.config "x" "a" "active" 1, some 4⟩ (by decide)).2.2
      [Scenario.config "x" "a" "active" 1] (by decide)⟩

end AfterStop

/-! ## Keys and configs -/

section KeyConsistency

variable {W H : Type}

/-- Where a value of the map comes from after `ensureConnection`: it was there
before, or the call connected it. -/
theorem ensureConnection_origin (rt : Runtime W) (m : Manager W H) (cfg : ChannelConfig)
    (s : State W) (k : String) (v : Option connectionEntry)
    (h : GoMap.lookup (m.ensureConnection rt cfg s).state.connections k = some v) :
    GoMap.lookup s.connections k = some v ∨
      connectedIn (m.ensureConnection rt cfg s).trace k v := by
  by_cases hk : k = cfg.ID
  · subst hk
    revert h
    refine ensureConnection_cases rt m cfg s
      (fun o => GoMap.lookup o.state.connections cfg.ID = some v →
        GoMap.lookup s.connections cfg.ID = some v ∨ connectedIn o.trace cfg.ID v)
      ?_ ?_ ?_ ?_ ?_ ?_ ?_ ?_
    · intro _ h
      exact Or.inl h
    · intro _ _ _ h
      exact Or.inl h
    · intro _ _ _ _ h
      exact Or.inl h
    · intro _ _ _ _ _ _ _ h
      exact Or.inl h
    · intro _ _ _ _ _ _ _ _ _ _ h
      simp [GoMap.lookup_delete_self] at h
    · intro _ _ _ _ _ _ _ _ _ h
      simp only [GoMap.lookup_insert_self, Option.some.injEq] at h
      subst h
      exact Or.inr ⟨_, rfl, rfl, by simp⟩
    · intro _ _ _ _ _ h
      exact Or.inl h
    · intro _ _ _ _ h
      simp only [GoMap.lookup_insert_self, Option.some.injEq] at h
      subst h
      exact Or.inr ⟨_, rfl, rfl, by simp⟩
  · left
    rw [← h]
    exact (ensureConnection_lookup_ne rt m cfg s hk).symm

theorem connectedIn_mono {a b : List Event} {k : String} {v : Option connectionEntry}
    (h : connectedIn a k v) (hsub : ∀ e ∈ a, e ∈ b) : connectedIn b k v := by
  obtain ⟨entry, h1, h2, h3⟩ := h
  exact ⟨entry, h1, h2, hsub _ h3⟩

theorem reconcileLoop_origin (rt : Runtime W) (m : Manager W H) (configs : List ChannelConfig)
    (active : GoMap ChannelConfig) (s : State W) (k : String) (v : Option connectionEntry)
    (h : GoMap.lookup (m.reconcileLoop rt configs active s).state.connections k = some v) :
    GoMap.lookup s.connections k = some v ∨
      connectedIn (m.reconcileLoop rt configs active s).trace k v := by
  induction configs generalizing active s with
  | nil => exact Or.inl h
  | cons cfg rest ih =>
    cases hel : eligible rt cfg with
    | false =>
      rw [reconcileLoop_skip _ _ _ _ _ _ hel] at h ⊢
      exact ih active s h
    | true =>
      by_cases hp : (m.ensureConnection rt cfg s).ret = Ret.panicked
      · rw [reconcileLoop_panic _ _ _ _ _ _ hel hp] at h ⊢
        exact ensureConnection_origin rt m cfg s k v h
      · rw [reconcileLoop_step _ _ _ _ _ _ hel hp] at h ⊢
        simp only [Outcome.after] at h ⊢
        rcases ih _ _ h with h1 | h1
        · rcases ensureConnection_origin rt m cfg s k v h1 with h2 | h2
          · exact Or.inl h2
          · exact Or.inr (connectedIn_mono h2 (fun e he => List.mem_append_left _ he))
        · exact Or.inr (connectedIn_mono h1 (fun e he => List.mem_append_right _ he))

/-- A loop that stops and deletes adds nothing to the map. -/
theorem rangeLoop_origin (rt : Runtime W) (P : State W → String → Bool)
    (body : String → State W → List Event × State W)
    (hbody : ∀ id s, body id s = if P s id = true then stopAndDelete rt id s else ([], s))
    (hP : ∀ s s2 id, getEntry s.connections id = getEntry s2.connections id → P s id = P s2 id)
    (s : State W) (k : String) (v : Option connectionEntry)
    (h : GoMap.lookup (rangeLoop body (GoMap.keys s.connections) s).2.connections k = some v) :
    GoMap.lookup s.connections k = some v := by
  obtain ⟨h1, _, _⟩ := rangeLoop_spec rt P body hbody hP (GoMap.keys s.connections)
    (GoMap.nodup_keys _) s
  rw [h1] at h
  split at h
  · cases h
  · exact h

theorem reconcile_origin (rt : Runtime W) (m : Manager W H) (configs : List ChannelConfig)
    (s : State W) (k : String) (v : Option connectionEntry)
    (h : GoMap.lookup (m.reconcile rt configs s).state.connections k = some v) :
    GoMap.lookup s.connections k = some v ∨ connectedIn (m.reconcile rt configs s).trace k v := by
  obtain ⟨tail, ht, _⟩ := reconcile_tail rt m configs s
  have hloop : GoMap.lookup (m.reconcileLoop rt configs [] s).state.connections k = some v := by
    cases hret : (m.reconcileLoop rt configs [] s).ret.2 with
    | true =>
      have : m.reconcile rt configs s
          = ⟨(m.reconcileLoop rt configs [] s).trace, (m.reconcileLoop rt configs [] s).state,
              true⟩ := by
        unfold Manager.reconcile
        simp [hret]
      rw [this] at h
      exact h
    | false =>
      rw [reconcile_eq rt m configs s hret] at h
      exact rangeLoop_origin rt
        (fun _ k => !GoMap.hasKey (m.reconcileLoop rt configs [] s).ret.1 k) _
        (sweepBody_eq rt _) (fun _ _ _ _ => rfl) _ k v h
  rcases reconcileLoop_origin rt m configs [] s k v hloop with h1 | h1
  · exact Or.inl h1
  · exact Or.inr (connectedIn_mono h1 (fun e he => by rw [ht]; exact List.mem_append_left _ he))

theorem call_origin (rt : Runtime W) (m : Manager W H) (c : Call) (s : State W) (k : String)
    (v : Option connectionEntry)
    (h : GoMap.lookup (m.call rt c s).state.connections k = some v) :
    GoMap.lookup s.connections k = some v ∨ connectedIn (m.call rt c s).trace k v := by
  cases c with
  | reconcile configs => exact reconcile_origin rt m configs s k v h
  | ensureConnection cfg => exact ensureConnection_origin rt m cfg s k v h
  | stopAll =>
    simp only [Manager.call] at h
    rw [stopAll_lookup] at h
    cases h
  | Stop configID =>
    simp only [Manager.call, Stop_connections] at h
    exact Or.inl h
  | StopByBot botID =>
    left
    simp only [Manager.call, Manager.StopByBot] at h
    split at h
    · exact h
    · exact rangeLoop_origin rt (fun st k => ownedBy (TrimSpace botID) st k) _
        (stopByBotBody_eq rt _) (ownedBy_congr _) s k v h

theorem run_origin (rt : Runtime W) (m : Manager W H) (calls : List Call) (s : State W)
    (k : String) (v : Option connectionEntry)
    (h : GoMap.lookup (m.run rt calls s).state.connections k = some v) :
    GoMap.lookup s.connections k = some v ∨ connectedIn (m.run rt calls s).trace k v := by
  induction calls generalizing s with
  | nil => exact Or.inl h
  | cons c rest ih =>
    simp only [Manager.run] at h ⊢
    split at h
    · rename_i hp
      simp only [hp, if_true]
      exact call_origin rt m c s k v h
    · rename_i hp
      simp only [hp]
      simp only [Outcome.after] at h ⊢
      rcases ih _ h with h1 | h1
      · rcases call_origin rt m c s k v h1 with h2 | h2
        · exact Or.inl h2
        · exact Or.inr (connectedIn_mono h2 (fun e he => List.mem_append_left _ he))
      · exact Or.inr (connectedIn_mono h1 (fun e he => List.mem_append_right _ he))

theorem keysConsistent_single (entry : connectionEntry) :
    keysConsistent [(entry.config.ID, some entry)] := by
  intro k v h
  simp only [GoMap.lookup] at h
  split at h
  · rename_i hk
    cases h
    exact ⟨entry, rfl, hk⟩
  · cases h

/-- C27, as amended. If in the initial state every key holds an entry whose
config has the key as its ID, then after any sequence of `reconcile`,
`ensureConnection`, `stopAll`, `Manager.Stop` and `StopByBot` calls every key
of the map still holds an entry whose config has the key as its ID, and the
value under a key is either the one the initial state had there or an entry
whose connection a `Connect` call of the sequence, made with its config,
returned without error. -/
theorem run_keeps_keys_consistent (rt : Runtime W) (m : Manager W H) (calls : List Call)
    (s : State W) (h : keysConsistent s.connections) :
    keysConsistent (m.run rt calls s).state.connections ∧
      ∀ k v, GoMap.lookup (m.run rt calls s).state.connections k = some v →
        GoMap.lookup s.connections k = some v ∨ connectedIn (m.run rt calls s).trace k v := by
  refine ⟨?_, fun k v hl => run_origin rt m calls s k v hl⟩
  intro k v hl
  rcases run_origin rt m calls s k v hl with h1 | ⟨entry, h1, h2, _⟩
  · exact h k v h1
  · exact ⟨entry, h1, h2⟩

/-- An instance of C27: "x" is tracked with connection 3; `ensureConnection`
for "y", `Manager.Stop("x")` and `StopByBot("b")` follow. -/
theorem run_keeps_keys_consistent_witness :
    keysConsistent
      (Scenario.tracking [("x", some ⟨Scenario.config "x" "a" "active" 1, some 3⟩)]).connections ∧
    (keysConsistent (Scenario.manager.run Scenario.runtime
        [Call.ensureConnection (Scenario.config "y" "b" "active" 1), Call.Stop "x",
          Call.StopByBot "b"]
        (Scenario.tracking [("x", some ⟨Scenario.config "x" "a" "active" 1, some 3⟩)])
      ).state.connections ∧
      ∀ k v, GoMap.lookup (Scenario.manager.run Scenario.runtime
          [Call.ensureConnection (Scenario.config "y" "b" "active" 1), Call.Stop "x",
            Call.StopByBot "b"]
          (Scenario.tracking [("x", some ⟨Scenario.config "x" "a" "active" 1, some 3⟩)])
        ).state.connections k = some v →
        GoMap.lookup (Scenario.tracking
            [("x", some ⟨Scenario.config "x" "a" "active" 1, some 3⟩)]).connections k = some v ∨
          connectedIn (Scenario.manager.run Scenario.runtime
            [Call.ensureConnection (Scenario.config "y" "b" "active" 1), Call.Stop "x",
              Call.StopByBot "b"]
            (Scenario.tracking [("x", some ⟨Scenario.config "x" "a" "active" 1, some 3⟩)])
          ).trace k v) :=
  ⟨keysConsistent_single ⟨Scenario.config "x" "a" "active" 1, some 3⟩,
    run_keeps_keys_consistent Scenario.runtime Scenario.manager
      [Call.ensureConnection (Scenario.config "y" "b" "active" 1), Call.Stop "x",
        Call.StopByBot "b"]
      (Scenario.tracking [("x", some ⟨Scenario.config "x" "a" "active" 1, some 3⟩)])
      (keysConsistent_single ⟨Scenario.config "x" "a" "active" 1, some 3⟩)⟩

/-- C27, counterexample. The initial state tracks "x" with connection 3, every
key holding an entry of that ID; the sequence is the one call
`Manager.Stop("x")`. Afterwards "x" still holds the entry with connection 3,
and the sequence has made no `Connect` call at all: no `Connect` of the
sequence returned that connection. -/
theorem run_untouched_entry_counterexample :
    keysConsistent
      (Scenario.tracking [("x", some ⟨Scenario.config "x" "a" "active" 1, some 3⟩)]).connections ∧
    GoMap.lookup (Scenario.manager.run Scenario.runtime [Call.Stop "x"]
        (Scenario.tracking [("x", some ⟨Scenario.config "x" "a" "active" 1, some 3⟩)])
      ).state.connections "x" = some (some ⟨Scenario.config "x" "a" "active" 1, some 3⟩) ∧
    (Scenario.manager.run Scenario.runtime [Call.Stop "x"]
        (Scenario.tracking [("x", some ⟨Scenario.config "x" "a" "active" 1, some 3⟩)])
      ).trace.filter Event.isConnect = [] ∧
    ¬ connectedIn (Scenario.manager.run Scenario.runtime [Call.Stop "x"]
        (Scenario.tracking [("x", some ⟨Scenario.config "x" "a" "active" 1, some 3⟩)])).trace
      "x" (some ⟨Scenario.config "x" "a" "active" 1, some 3⟩) := by
  have hf : (Scenario.manager.run Scenario.runtime [Call.Stop "x"]
        (Scenario.tracking [("x", some ⟨Scenario.config "x" "a" "active" 1, some 3⟩)])
      ).trace.filter Event.isConnect = [] := by decide
  refine ⟨keysConsistent_single ⟨Scenario.config "x" "a" "active" 1, some 3⟩, by decide, hf, ?_⟩
  rintro ⟨entry, _, _, h3⟩
  have : Event.connect entry.config entry.connection none ∈
      (Scenario.manager.run Scenario.runtime [Call.Stop "x"]
        (Scenario.tracking [("x", some ⟨Scenario.config "x" "a" "active" 1, some 3⟩)])
      ).trace.filter Event.isConnect := List.mem_filter.mpr ⟨h3, rfl⟩
  rw [hf] at this
  cases this

end KeyConsistency

/-! ## Configless channel types -/

section Configless

variable {W : Type}

theorem normalizeChannelConfig_type
    (DecodeConfigMap : String → List (String × String) × Option GoError) (row : BotChannelConfig)
    (h : (normalizeChannelConfig DecodeConfigMap row).2 = none) :
    (normalizeChannelConfig DecodeConfigMap row).1.ChannelType = row.ChannelType := by
  unfold normalizeChannelConfig at h ⊢
  cases h1 : (DecodeConfigMap row.Credentials).2 with
  | some e => simp [h1] at h
  | none =>
    cases h2 : (DecodeConfigMap row.SelfIdentity).2 with
    | some e => simp [h1, h2] at h
    | none =>
      cases h3 : (DecodeConfigMap row.Routing).2 with
      | some e => simp [h1, h2, h3] at h
      | none => simp [h1, h2, h3]

theorem normalizeRows_mem (DecodeConfigMap : String → List (String × String) × Option GoError)
    (rows : List BotChannelConfig) (items : List ChannelConfig) (cfg : ChannelConfig)
    (h : cfg ∈ (normalizeRows DecodeConfigMap rows items).1) :
    cfg ∈ items ∨ ∃ row ∈ rows, cfg.ChannelType = row.ChannelType := by
  induction rows generalizing items with
  | nil => exact Or.inl h
  | cons row rest ih =>
    unfold normalizeRows at h
    cases hn : (normalizeChannelConfig DecodeConfigMap row).2 with
    | some e =>
      simp [hn] at h
    | none =>
      simp only [hn] at h
      rcases ih _ h with h1 | ⟨r, hr, h1⟩
      · rcases List.mem_append.1 h1 with h2 | h2
        · exact Or.inl h2
        · right
          refine ⟨row, List.mem_cons_self _ _, ?_⟩
          rw [List.mem_singleton.1 h2]
          exact normalizeChannelConfig_type DecodeConfigMap row hn
      · exact Or.inr ⟨r, List.mem_cons_of_mem _ hr, h1⟩

/-- A fetch of a configless type returns the empty list and no error, and
leaves the world as it is. -/
theorem ListConfigsByType_of_configless
    (DecodeConfigMap : String → List (String × String) × Option GoError) (svc : Service W)
    (queries : ConfigQueries W) (hq : svc.queries = some queries) (t : ChannelType) (w : W)
    (ht : svc.IsConfigless t = true) :
    svc.ListConfigsByType DecodeConfigMap t w = (([], none), w) := by
  unfold Service.ListConfigsByType
  rw [hq]
  simp [ht]

/-- What a fetch returns was read from the store for a type that is not
configless. -/
theorem ListConfigsByType_mem
    (DecodeConfigMap : String → List (String × String) × Option GoError) (svc : Service W)
    (queries : ConfigQueries W) (hq : svc.queries = some queries) (t : ChannelType) (w : W)
    (cfg : ChannelConfig) (h : cfg ∈ (svc.ListConfigsByType DecodeConfigMap t w).1.1) :
    svc.IsConfigless t = false ∧
      ∃ row ∈ (queries.ListBotChannelConfigsByType t w).1.1,
        cfg.ChannelType = row.ChannelType := by
  unfold Service.ListConfigsByType at h
  rw [hq] at h
  cases hc : svc.IsConfigless t with
  | true => simp [hc] at h
  | false =>
    refine ⟨rfl, ?_⟩
    simp only [hc, Bool.false_eq_true, if_false] at h
    cases he : (queries.ListBotChannelConfigsByType t w).1.2 with
    | some e => simp [he] at h
    | none =>
      simp only [he] at h
      rcases normalizeRows_mem DecodeConfigMap _ _ cfg h with h1 | h1
      · cases h1
      · exact h1

theorem succeededConfigs_mem (store : ConfigStore W) (types : List ChannelType) (w : W)
    (cfg : ChannelConfig) (h : cfg ∈ succeededConfigs (fetchSequence store types w)) :
    ∃ t ∈ types, ∃ w2, cfg ∈ (store.ListConfigsByType t w2).1.1 := by
  induction types generalizing w with
  | nil => simp [fetchSequence, succeededConfigs] at h
  | cons t rest ih =>
    simp only [fetchSequence] at h
    cases he : (store.ListConfigsByType t w).1.2 with
    | some e =>
      simp only [he, succeededConfigs] at h
      obtain ⟨t2, ht2, hw⟩ := ih _ h
      exact ⟨t2, List.mem_cons_of_mem _ ht2, hw⟩
    | none =>
      simp only [he, succeededConfigs, List.mem_append] at h
      rcases h with h | h
      · exact ⟨t, List.mem_cons_self _ _, w, h⟩
      · obtain ⟨t2, ht2, hw⟩ := ih _ h
        exact ⟨t2, List.mem_cons_of_mem _ ht2, hw⟩

/-- C23. With queries configured, `Service.ListConfigsByType` for a type the
registry reports as configless returns the empty list and a nil error and
leaves the world as it is, whatever the store queries are: the store is not
read. A `refresh` of a manager whose store is this service therefore passes to
`reconcile` only configs that a fetch of a type that is not configless
returned; when the store query returns rows of the type asked for, no config
passed to `reconcile` is of a configless type. -/
theorem ListConfigsByType_configless
    (DecodeConfigMap : String → List (String × String) × Option GoError) (svc : Service W)
    (queries : ConfigQueries W) (hq : svc.queries = some queries) :
    (∀ t w, svc.IsConfigless t = true →
      svc.ListConfigsByType DecodeConfigMap t w = (([], none), w) ∧
      ∀ other : ConfigQueries W,
        Service.ListConfigsByType DecodeConfigMap ⟨some other, svc.IsConfigless⟩ t w
          = (([], none), w)) ∧
    (∀ (H : Type) (rt : Runtime W) (m : Manager W H) (s : State W),
      m.service = some (svc.asConfigStore DecodeConfigMap) →
      m.refresh rt s
        = (m.reconcile rt
            (succeededConfigs
              (fetchSequence (svc.asConfigStore DecodeConfigMap) m.registry.Types s.world))
            { s with world :=
                (worldAfterFetches (svc.asConfigStore DecodeConfigMap) m.registry.Types
                  s.world) }).after
          ((fetchSequence (svc.asConfigStore DecodeConfigMap) m.registry.Types s.world).map
            (fun f => Event.listConfigs f.1 f.2.2)) ∧
      (∀ cfg ∈ succeededConfigs
          (fetchSequence (svc.asConfigStore DecodeConfigMap) m.registry.Types s.world),
        ∃ t ∈ m.registry.Types, svc.IsConfigless t = false ∧
          ∃ w2, cfg ∈ (svc.ListConfigsByType DecodeConfigMap t w2).1.1) ∧
      ((∀ t w2 row, row ∈ (queries.ListBotChannelConfigsByType t w2).1.1 →
          row.ChannelType = t) →
        ∀ cfg ∈ succeededConfigs
          (fetchSequence (svc.asConfigStore DecodeConfigMap) m.registry.Types s.world),
          svc.IsConfigless cfg.ChannelType = false)) := by
  refine ⟨fun t w ht => ⟨ListConfigsByType_of_configless DecodeConfigMap svc queries hq t w ht,
    fun other => ListConfigsByType_of_configless DecodeConfigMap ⟨some other, svc.IsConfigless⟩
      other rfl t w ht⟩, ?_⟩
  intro H rt m s hs
  refine ⟨refresh_eq rt m s _ hs, ?_, ?_⟩
  · intro cfg hcfg
    obtain ⟨t, ht, w2, hw⟩ := succeededConfigs_mem _ _ _ cfg hcfg
    exact ⟨t, ht, (ListConfigsByType_mem DecodeConfigMap svc queries hq t w2 cfg hw).1, w2, hw⟩
  · intro hrows cfg hcfg
    obtain ⟨t, _, w2, hw⟩ := succeededConfigs_mem _ _ _ cfg hcfg
    obtain ⟨hc, row, hrow, htype⟩ := ListConfigsByType_mem DecodeConfigMap svc queries hq t w2 cfg hw
    rw [htype, hrows t w2 row hrow]
    exact hc

/-- An instance of C23: `web` is configless and `telegram` is not; the fetch
for `web` reads nothing, and the refresh passes no `web` config on. -/
theorem ListConfigsByType_configless_witness :
    Scenario.configService.queries = some Scenario.configQueries ∧
    Scenario.configService.ListConfigsByType Scenario.decode "web" 0 = (([], none), 0) ∧
    ∀ cfg ∈ succeededConfigs
        (fetchSequence (Scenario.configService.asConfigStore Scenario.decode)
          Scenario.serviceManager.registry.Types (Scenario.tracking []).world),
      Scenario.configService.IsConfigless cfg.ChannelType = false :=
  ⟨rfl,
    ((ListConfigsByType_configless Scenario.decode Scenario.configService Scenario.configQueries
      rfl).1 "web" 0 (by decide)).1,
    ((ListConfigsByType_configless Scenario.decode Scenario.configService Scenario.configQueries
      rfl).2 Unit Scenario.runtime Scenario.serviceManager (Scenario.tracking []) rfl).2.2
      (fun t w2 row hrow => by
        simp only [Scenario.configQueries, List.mem_singleton] at hrow
        rw [hrow]
        rfl)⟩

end Configless

end Channel

/-! ## Model validation -/

namespace Models

/-- C28. Provided `uuid.Parse` rejects the empty string (as it does),
`Validate` returns nil exactly when `ModelID` is non-empty, `LlmProviderID`
parses as a UUID, `Type` is chat or embedding, `Dimensions` is positive for an
embedding model, and `EnableAs`, when set, is embedding for an embedding model
and chat or memory for a chat model. With `EnableAs` unset the first four
conditions decide. -/
theorem Validate_nil_iff (uuidParse : String → Bool) (hempty : uuidParse "" = false)
    (m : Model) :
    (m.Validate uuidParse = none ↔
      m.ModelID ≠ "" ∧ uuidParse m.LlmProviderID = true ∧
      (m.type = ModelTypeChat ∨ m.type = ModelTypeEmbedding) ∧
      (m.type = ModelTypeEmbedding → 0 < m.Dimensions) ∧
      ∀ enableAs, m.EnableAs = some enableAs →
        (m.type = ModelTypeEmbedding → enableAs = EnableAsEmbedding) ∧
        (m.type = ModelTypeChat → enableAs = EnableAsChat ∨ enableAs = EnableAsMemory)) ∧
    (m.EnableAs = none →
      (m.Validate uuidParse = none ↔
        m.ModelID ≠ "" ∧ uuidParse m.LlmProviderID = true ∧
        (m.type = ModelTypeChat ∨ m.type = ModelTypeEmbedding) ∧
        (m.type = ModelTypeEmbedding → 0 < m.Dimensions))) := by
  have hce : ModelTypeChat ≠ ModelTypeEmbedding := by decide
  have key : m.Validate uuidParse = none ↔
      m.ModelID ≠ "" ∧ uuidParse m.LlmProviderID = true ∧
      (m.type = ModelTypeChat ∨ m.type = ModelTypeEmbedding) ∧
      (m.type = ModelTypeEmbedding → 0 < m.Dimensions) ∧
      ∀ enableAs, m.EnableAs = some enableAs →
        (m.type = ModelTypeEmbedding → enableAs = EnableAsEmbedding) ∧
        (m.type = ModelTypeChat → enableAs = EnableAsChat ∨ enableAs = EnableAsMemory) := by
    unfold Model.Validate
    by_cases h1 : m.ModelID = ""
    · simp [h1]
    by_cases h2 : m.LlmProviderID = ""
    · simp [h1, h2, hempty]
    cases h3 : uuidParse m.LlmProviderID with
    | false => simp [h1, h2]
    | true =>
      by_cases hc : m.type = ModelTypeChat
      · cases he : m.EnableAs with
        | none => simp [h1, h2, hc, hce]
        | some e =>
          by_cases e1 : e = EnableAsChat
          · simp [h1, h2, hc, hce, e1]
          · by_cases e2 : e = EnableAsMemory
            · simp [h1, h2, hc, hce, e2]
            · simp [h1, h2, hc, hce, e1, e2]
      · by_cases hem : m.type = ModelTypeEmbedding
        · by_cases hd : m.Dimensions ≤ 0
          · simp [h1, h2, hem, hce.symm, hd]
          · have hd2 : 0 < m.Dimensions := not_le.1 hd
            cases he : m.EnableAs with
            | none => simp [h1, h2, hem, hce.symm, hd, hd2]
            | some e =>
              by_cases e1 : e = EnableAsEmbedding
              · simp [h1, h2, hem, hce.symm, hd, hd2, e1]
              · simp [h1, h2, hem, hce.symm, hd, hd2, e1]
        · simp [h1, h2, hc, hem]
  refine ⟨key, fun hnone => ?_⟩
  rw [key]
  simp [hnone]

/-- An instance of C28: a chat model enabled as memory passes, with the
recogniser of canonical UUIDs for `uuid.Parse`. -/
theorem Validate_nil_iff_witness :
    Scenario.canonicalUUID "" = false ∧
    Scenario.chatModel.Validate Scenario.canonicalUUID = none :=
  ⟨by decide,
    ((Validate_nil_iff Scenario.canonicalUUID (by decide) Scenario.chatModel).1).2
      ⟨by decide, by decide, Or.inl rfl, fun h => absurd h (by decide),
        fun enableAs h => ⟨fun h2 => absurd h2 (by decide),
          fun _ => Or.inr (Option.some.inj h).symm⟩⟩⟩

end Models

/-! ## Access to bots -/

namespace Bots

open Channel (GoMap)

section Access

variable {W : Type}

/-- A `Get` that returned a bot was made with queries configured. -/
theorem Get_queries (env : Env) (s : Service W) (botID : String) (w : W) (b : Bot)
    (hget : (s.Get env botID w).1 = (b, none)) : ∃ queries, s.queries = some queries := by
  cases hq : s.queries with
  | some queries => exact ⟨queries, rfl⟩
  | none =>
    unfold Service.Get at hget
    rw [hq] at hget
    cases hget

/-- The three ways `AuthorizeAccess` ends for a bot that exists. -/
theorem AuthorizeAccess_eq (env : Env) (s : Service W) (userID botID : String) (isAdmin : Bool)
    (policy : AccessPolicy) (w : W) (b : Bot) (hget : (s.Get env botID w).1 = (b, none)) :
    (s.AuthorizeAccess env userID botID isAdmin policy w).1
      = if isAdmin = true ∨ b.OwnerUserID = userID ∨
            (policy.AllowPublicMember = true ∧ b.type = env.BotTypePublic ∧
              (s.GetMember env botID userID (s.Get env botID w).2).1.2 = none) then (b, none)
        else (Bot.zero, some Error.ErrBotAccessDenied) := by
  obtain ⟨queries, hq⟩ := Get_queries env s botID w b hget
  have h1 : (s.Get env botID w).1.1 = b := by rw [hget]
  have h2 : (s.Get env botID w).1.2 = none := by rw [hget]
  unfold Service.AuthorizeAccess
  simp only [hq, h1, h2]
  by_cases ha : isAdmin = true ∨ b.OwnerUserID = userID
  · have : isAdmin = true ∨ b.OwnerUserID = userID ∨
        (policy.AllowPublicMember = true ∧ b.type = env.BotTypePublic ∧
          (s.GetMember env botID userID (s.Get env botID w).2).1.2 = none) := by
      rcases ha with ha | ha
      · exact Or.inl ha
      · exact Or.inr (Or.inl ha)
    rw [if_pos ha, if_pos this]
  · rw [if_neg ha]
    have ha1 : ¬ isAdmin = true := fun h => ha (Or.inl h)
    have ha2 : ¬ b.OwnerUserID = userID := fun h => ha (Or.inr h)
    by_cases hp : policy.AllowPublicMember = true ∧ b.type = env.BotTypePublic
    · rw [if_pos hp]
      cases hm : (s.GetMember env botID userID (s.Get env botID w).2).1.2 with
      | none =>
        rw [if_pos (Or.inr (Or.inr ⟨hp.1, hp.2, rfl⟩))]
      | some e =>
        rw [if_neg]
        rintro (h | h | ⟨_, _, h⟩)
        · exact ha1 h
        · exact ha2 h
        · cases h
    · rw [if_neg hp, if_neg]
      rintro (h | h | ⟨h3, h4, _⟩)
      · exact ha1 h
      · exact ha2 h
      · exact hp ⟨h3, h4⟩

/-- C29. For a bot `b` that exists (`Get` returns it without error),
`AuthorizeAccess` returns `(b, nil)` exactly when `isAdmin` is true, or the
owner of `b` is the user, or the policy allows public members, `b` is public
and the member lookup for the bot and the user succeeds; in every other case
it returns the empty bot and `ErrBotAccessDenied`. With `AllowPublicMember`
false a user who is neither admin nor owner is denied. -/
theorem AuthorizeAccess_iff (env : Env) (s : Service W) (userID botID : String) (isAdmin : Bool)
    (policy : AccessPolicy) (w : W) (b : Bot) (hget : (s.Get env botID w).1 = (b, none)) :
    ((s.AuthorizeAccess env userID botID isAdmin policy w).1 = (b, none) ↔
      isAdmin = true ∨ b.OwnerUserID = userID ∨
        (policy.AllowPublicMember = true ∧ b.type = env.BotTypePublic ∧
          (s.GetMember env botID userID (s.Get env botID w).2).1.2 = none)) ∧
    ((s.AuthorizeAccess env userID botID isAdmin policy w).1 ≠ (b, none) →
      (s.AuthorizeAccess env userID botID isAdmin policy w).1
        = (Bot.zero, some Error.ErrBotAccessDenied)) ∧
    (policy.AllowPublicMember = false → isAdmin = false → b.OwnerUserID ≠ userID →
      (s.AuthorizeAccess env userID botID isAdmin policy w).1
        = (Bot.zero, some Error.ErrBotAccessDenied)) := by
  rw [AuthorizeAccess_eq env s userID botID isAdmin policy w b hget]
  refine ⟨?_, ?_, ?_⟩
  · constructor
    · intro h
      by_contra hn
      rw [if_neg hn] at h
      cases (Prod.mk.inj h).2
    · intro h
      rw [if_pos h]
  · intro h
    split
    · rename_i hc
      rw [if_pos hc] at h
      exact absurd rfl h
    · rfl
  · intro hp ha ho
    rw [if_neg]
    rintro (h | h | ⟨h, _, _⟩)
    · rw [ha] at h
      cases h
    · exact ho h
    · rw [hp] at h
      cases h

/-- An instance of C29: the public bot "b1" of "alice"; "bob" is a member and
gets in under a policy that allows public members, and is denied under the
policy of the preauth handler. -/
theorem AuthorizeAccess_iff_witness :
    (Scenario.service.Get Scenario.env "b1" 0).1
      = (Scenario.bot "b1" "alice" "public" "one", none) ∧
    (Scenario.service.AuthorizeAccess Scenario.env "bob" "b1" false ⟨true⟩ 0).1
      = (Scenario.bot "b1" "alice" "public" "one", none) ∧
    (Scenario.service.AuthorizeAccess Scenario.env "bob" "b1" false ⟨false⟩ 0).1
      = (Bot.zero, some Error.ErrBotAccessDenied) :=
  ⟨by decide,
    ((AuthorizeAccess_iff Scenario.env Scenario.service "bob" "b1" false ⟨true⟩ 0
      (Scenario.bot "b1" "alice" "public" "one") (by decide)).1).2
      (Or.inr (Or.inr ⟨rfl, rfl, by decide⟩)),
    (AuthorizeAccess_iff Scenario.env Scenario.service "bob" "b1" false ⟨false⟩ 0
      (Scenario.bot "b1" "alice" "public" "one") (by decide)).2.2 rfl rfl (by decide)⟩

end Access

section Accessible

variable {W : Type}

/-- The map after the first loop: an ID of the owned list holds a bot of the
owned list, any other key is as before. -/
theorem lookup_seenOwned (owned : List Bot) (seen : GoMap Bot) (k : String) :
    (k ∉ owned.map Bot.ID → GoMap.lookup (seenOwned owned seen) k = GoMap.lookup seen k) ∧
    (k ∈ owned.map Bot.ID →
      ∃ b ∈ owned, b.ID = k ∧ GoMap.lookup (seenOwned owned seen) k = some b) := by
  induction owned generalizing seen with
  | nil => exact ⟨fun _ => rfl, fun h => by simp at h⟩
  | cons item rest ih =>
    have hstep : seenOwned (item :: rest) seen
        = seenOwned rest (GoMap.insert seen item.ID item) := rfl
    rw [hstep]
    by_cases hr : k ∈ rest.map Bot.ID
    · refine ⟨fun h => absurd (by simp at hr ⊢; exact Or.inr hr) h, fun _ => ?_⟩
      obtain ⟨b, hb, h1, h2⟩ := (ih (GoMap.insert seen item.ID item)).2 hr
      exact ⟨b, List.mem_cons_of_mem _ hb, h1, h2⟩
    · have h0 := (ih (GoMap.insert seen item.ID item)).1 hr
      rw [h0]
      by_cases hk : k = item.ID
      · subst hk
        refine ⟨fun h => absurd (by simp) h, fun _ => ?_⟩
        exact ⟨item, List.mem_cons_self _ _, rfl, Channel.GoMap.lookup_insert_self _ _ _⟩
      · refine ⟨fun _ => Channel.GoMap.lookup_insert_ne _ _ hk, fun h => ?_⟩
        simp only [List.map_cons, List.mem_cons] at h
        rcases h with h | h
        · exact absurd h hk
        · exact absurd h hr

/-- The map after the second loop: a key that was there is kept; of the other
keys, the IDs of the member list hold a bot of that list. -/
theorem lookup_seenMembers (members : List Bot) (seen : GoMap Bot) (k : String) :
    ((GoMap.lookup seen k).isSome = true →
      GoMap.lookup (seenMembers members seen) k = GoMap.lookup seen k) ∧
    (GoMap.lookup seen k = none → k ∉ members.map Bot.ID →
      GoMap.lookup (seenMembers members seen) k = none) ∧
    (GoMap.lookup seen k = none → k ∈ members.map Bot.ID →
      ∃ b ∈ members, b.ID = k ∧ GoMap.lookup (seenMembers members seen) k = some b) := by
  induction members generalizing seen with
  | nil => exact ⟨fun _ => rfl, fun h _ => h, fun _ h => by simp at h⟩
  | cons item rest ih =>
    have hstep : seenMembers (item :: rest) seen
        = seenMembers rest
            (if GoMap.hasKey seen item.ID then seen else GoMap.insert seen item.ID item) := rfl
    rw [hstep]
    by_cases hh : GoMap.hasKey seen item.ID = true
    · simp only [hh, if_true]
      refine ⟨(ih seen).1, fun h1 h2 => (ih seen).2.1 h1 ?_, fun h1 h2 => ?_⟩
      · simp only [List.map_cons, List.mem_cons, not_or] at h2
        exact h2.2
      · have hk : k ≠ item.ID := by
          rintro rfl
          simp [GoMap.hasKey, h1] at hh
        simp only [List.map_cons, List.mem_cons] at h2
        rcases h2 with h2 | h2
        · exact absurd h2 hk
        · obtain ⟨b, hb, h3, h4⟩ := (ih seen).2.2 h1 h2
          exact ⟨b, List.mem_cons_of_mem _ hb, h3, h4⟩
    · simp only [hh, Bool.false_eq_true, if_false]
      have hnone : GoMap.lookup seen item.ID = none := by
        cases hl : GoMap.lookup seen item.ID with
        | none => rfl
        | some b => simp [GoMap.hasKey, hl] at hh
      by_cases hk : k = item.ID
      · subst hk
        have hins : GoMap.lookup (GoMap.insert seen item.ID item) item.ID = some item :=
          Channel.GoMap.lookup_insert_self _ _ _
        have hkeep := (ih (GoMap.insert seen item.ID item)).1 (by rw [hins]; rfl)
        refine ⟨fun h => ?_, fun _ h2 => absurd (by simp) h2, fun _ _ => ?_⟩
        · rw [hnone] at h
          cases h
        · exact ⟨item, List.mem_cons_self _ _, rfl, by rw [hkeep, hins]⟩
      · have hne : GoMap.lookup (GoMap.insert seen item.ID item) k = GoMap.lookup seen k :=
          Channel.GoMap.lookup_insert_ne _ _ hk
        refine ⟨fun h => ?_, fun h1 h2 => ?_, fun h1 h2 => ?_⟩
        · rw [← hne]
          exact (ih _).1 (by rw [hne]; exact h)
        · refine (ih _).2.1 (by rw [hne]; exact h1) ?_
          simp only [List.map_cons, List.mem_cons, not_or] at h2
          exact h2.2
        · simp only [List.map_cons, List.mem_cons] at h2
          rcases h2 with h2 | h2
          · exact absurd h2 hk
          · obtain ⟨b, hb, h3, h4⟩ := (ih _).2.2 (by rw [hne]; exact h1) h2
            exact ⟨b, List.mem_cons_of_mem _ hb, h3, h4⟩

/-- What the map built by the first two loops holds under a key. -/
theorem lookup_seen (owned members : List Bot) (k : String) :
    (k ∈ owned.map Bot.ID →
      ∃ b ∈ owned, b.ID = k ∧
        GoMap.lookup (seenMembers members (seenOwned owned [])) k = some b) ∧
    (k ∉ owned.map Bot.ID → k ∈ members.map Bot.ID →
      ∃ b ∈ members, b.ID = k ∧
        GoMap.lookup (seenMembers members (seenOwned owned [])) k = some b) ∧
    (k ∉ owned.map Bot.ID → k ∉ members.map Bot.ID →
      GoMap.lookup (seenMembers members (seenOwned owned [])) k = none) := by
  refine ⟨fun h => ?_, fun h1 h2 => ?_, fun h1 h2 => ?_⟩
  · obtain ⟨b, hb, h3, h4⟩ := (lookup_seenOwned owned [] k).2 h
    refine ⟨b, hb, h3, ?_⟩
    rw [(lookup_seenMembers members (seenOwned owned []) k).1 (by rw [h4]; rfl), h4]
  · have h0 : GoMap.lookup (seenOwned owned []) k = none := by
      rw [(lookup_seenOwned owned [] k).1 h1]
      rfl
    exact (lookup_seenMembers members (seenOwned owned []) k).2.2 h0 h2
  · have h0 : GoMap.lookup (seenOwned owned []) k = none := by
      rw [(lookup_seenOwned owned [] k).1 h1]
      rfl
    exact (lookup_seenMembers members (seenOwned owned []) k).2.1 h0 h2

/-- The IDs of the items are the keys of the map when every key holds a bot
of that ID. -/
theorem seenItems_ids (seen : GoMap Bot)
    (h : ∀ k b, GoMap.lookup seen k = some b → b.ID = k) :
    (seenItems seen).map Bot.ID = GoMap.keys seen := by
  unfold seenItems
  have hk : ∀ k ∈ GoMap.keys seen, (GoMap.lookup seen k).isSome = true :=
    fun k hk => (Channel.GoMap.mem_keys seen k).1 hk
  generalize GoMap.keys seen = ks at hk
  induction ks with
  | nil => rfl
  | cons k rest ih =>
    have h1 := hk k (List.mem_cons_self _ _)
    obtain ⟨b, hb⟩ := Option.isSome_iff_exists.1 h1
    rw [List.filterMap_cons, hb]
    simp only [List.map_cons]
    rw [h k b hb, ih (fun k2 hk2 => hk k2 (List.mem_cons_of_mem _ hk2))]

/-- C24. When `ListByOwner` returns the list `owned` and `ListByMember` the
list `members`, `ListAccessible` returns without error a list in which every
bot ID of either list occurs exactly once and no other ID occurs; the record
returned for an ID of the owned list is a record of the owned list, and the
record returned for any other ID is a record of the member list. -/
theorem ListAccessible_each_once (env : Env) (s : Service W) (channelIdentityID : String)
    (w : W) (owned members : List Bot)
    (ho : (s.ListByOwner env channelIdentityID w).1 = (owned, none))
    (hm : (s.ListByMember env channelIdentityID (s.ListByOwner env channelIdentityID w).2).1
      = (members, none)) :
    (s.ListAccessible env channelIdentityID w).1.2 = none ∧
    (∀ id, ((s.ListAccessible env channelIdentityID w).1.1.map Bot.ID).count id
      = if id ∈ owned.map Bot.ID ∨ id ∈ members.map Bot.ID then 1 else 0) ∧
    (∀ b ∈ (s.ListAccessible env channelIdentityID w).1.1,
      (b.ID ∈ owned.map Bot.ID → b ∈ owned) ∧ (b.ID ∉ owned.map Bot.ID → b ∈ members)) := by
  have ho1 : (s.ListByOwner env channelIdentityID w).1.1 = owned := by rw [ho]
  have ho2 : (s.ListByOwner env channelIdentityID w).1.2 = none := by rw [ho]
  have hm1 : (s.ListByMember env channelIdentityID
      (s.ListByOwner env channelIdentityID w).2).1.1 = members := by rw [hm]
  have hm2 : (s.ListByMember env channelIdentityID
      (s.ListByOwner env channelIdentityID w).2).1.2 = none := by rw [hm]
  have hres : (s.ListAccessible env channelIdentityID w).1
      = (seenItems (seenMembers members (seenOwned owned [])), none) := by
    unfold Service.ListAccessible
    simp only [ho2, hm2, ho1, hm1]
  have hval : ∀ k b, GoMap.lookup (seenMembers members (seenOwned owned [])) k = some b →
      b.ID = k ∧ (k ∈ owned.map Bot.ID → b ∈ owned) ∧ (k ∉ owned.map Bot.ID → b ∈ members) := by
    intro k b hb
    by_cases h1 : k ∈ owned.map Bot.ID
    · obtain ⟨b2, hb2, h3, h4⟩ := (lookup_seen owned members k).1 h1
      rw [hb] at h4
      cases h4
      exact ⟨h3, fun _ => hb2, fun h => absurd h1 h⟩
    · by_cases h2 : k ∈ members.map Bot.ID
      · obtain ⟨b2, hb2, h3, h4⟩ := (lookup_seen owned members k).2.1 h1 h2
        rw [hb] at h4
        cases h4
        exact ⟨h3, fun h => absurd h h1, fun _ => hb2⟩
      · rw [(lookup_seen owned members k).2.2 h1 h2] at hb
        cases hb
  have hids := seenItems_ids (seenMembers members (seenOwned owned []))
    (fun k b hb => (hval k b hb).1)
  rw [hres]
  refine ⟨rfl, fun id => ?_, fun b hb => ?_⟩
  · simp only [hids]
    have hmem : id ∈ GoMap.keys (seenMembers members (seenOwned owned []))
        ↔ id ∈ owned.map Bot.ID ∨ id ∈ members.map Bot.ID := by
      rw [Channel.GoMap.mem_keys]
      constructor
      · intro h
        by_contra hn
        rw [not_or] at hn
        rw [(lookup_seen owned members id).2.2 hn.1 hn.2] at h
        cases h
      · intro h
        by_cases h1 : id ∈ owned.map Bot.ID
        · obtain ⟨b, _, _, h4⟩ := (lookup_seen owned members id).1 h1
          rw [h4]
          rfl
        · obtain ⟨b, _, _, h4⟩ :=
            (lookup_seen owned members id).2.1 h1 (h.resolve_left h1)
          rw [h4]
          rfl
    by_cases h : id ∈ owned.map Bot.ID ∨ id ∈ members.map Bot.ID
    · rw [if_pos h]
      exact List.count_eq_one_of_mem (Channel.GoMap.nodup_keys _) (hmem.2 h)
    · rw [if_neg h]
      exact List.count_eq_zero_of_not_mem (fun hc => h (hmem.1 hc))
  · simp only [seenItems, List.mem_filterMap] at hb
    obtain ⟨k, _, hk⟩ := hb
    obtain ⟨h1, h2, h3⟩ := hval k b hk
    rw [h1]
    exact ⟨h2, h3⟩

/-- An instance of C24: "alice" owns "b1" and "b2" and is listed as a member
of "b2" and "b3"; the three IDs are returned once each, "b2" with the record
of the owned list. -/
theorem ListAccessible_each_once_witness :
    (Scenario.service.ListByOwner Scenario.env "alice" 0).1
      = ([Scenario.bot "b1" "alice" "public" "one", Scenario.bot "b2" "alice" "public" "two"],
          none) ∧
    (Scenario.service.ListByMember Scenario.env "alice"
        (Scenario.service.ListByOwner Scenario.env "alice" 0).2).1
      = ([Scenario.bot "b2" "alice" "public" "deux",
          Scenario.bot "b3" "carol" "public" "three"], none) ∧
    ((Scenario.service.ListAccessible Scenario.env "alice" 0).1.1.map Bot.ID).count "b2" = 1 ∧
    ∀ b ∈ (Scenario.service.ListAccessible Scenario.env "alice" 0).1.1,
      b.ID = "b2" → b = Scenario.bot "b2" "alice" "public" "two" :=
  ⟨by decide, by decide,
    (ListAccessible_each_once Scenario.env Scenario.service "alice" 0
      [Scenario.bot "b1" "alice" "public" "one", Scenario.bot "b2" "alice" "public" "two"]
      [Scenario.bot "b2" "alice" "public" "deux", Scenario.bot "b3" "carol" "public" "three"]
      (by decide) (by decide)).2.1 "b2",
    fun b hb hid => by
      have h := ((ListAccessible_each_once Scenario.env Scenario.service "alice" 0
        [Scenario.bot "b1" "alice" "public" "one", Scenario.bot "b2" "alice" "public" "two"]
        [Scenario.bot "b2" "alice" "public" "deux", Scenario.bot "b3" "carol" "public" "three"]
        (by decide) (by decide)).2.2 b hb).1 (by rw [hid]; decide)
      simp only [List.mem_cons, List.mem_singleton, List.not_mem_nil, or_false] at h
      rcases h with h | h
      · rw [h] at hid
        exact absurd hid (by decide)
      · exact h⟩

end Accessible

end Bots

/-! ## Merging user settings -/

namespace UserSettings

open Channel (TrimSpace)

section Merge

variable {W : Type}

/-- The merge of `Upsert`: a field of the request that is set replaces the
current value, any other field keeps it. -/
theorem mergeRequest_fields (current : Settings) (req : UpsertRequest) :
    (mergeRequest current req).ChatModelID
      = (if TrimSpace req.ChatModelID ≠ "" then TrimSpace req.ChatModelID
          else current.ChatModelID) ∧
    (mergeRequest current req).MemoryModelID
      = (if TrimSpace req.MemoryModelID ≠ "" then TrimSpace req.MemoryModelID
          else current.MemoryModelID) ∧
    (mergeRequest current req).EmbeddingModelID
      = (if TrimSpace req.EmbeddingModelID ≠ "" then TrimSpace req.EmbeddingModelID
          else current.EmbeddingModelID) ∧
    (mergeRequest current req).Language
      = (if TrimSpace req.Language ≠ "" then TrimSpace req.Language else current.Language) ∧
    (∀ value, req.MaxContextLoadTime = some value → 0 < value →
      (mergeRequest current req).MaxContextLoadTime = value) ∧
    (∀ value, req.MaxContextLoadTime = some value → value ≤ 0 →
      (mergeRequest current req).MaxContextLoadTime = current.MaxContextLoadTime) ∧
    (req.MaxContextLoadTime = none →
      (mergeRequest current req).MaxContextLoadTime = current.MaxContextLoadTime) := by
  refine ⟨rfl, rfl, rfl, rfl, ?_, ?_, ?_⟩
  · intro value h hpos
    simp [mergeRequest, h, hpos]
  · intro value h hle
    simp [mergeRequest, h, not_lt.2 hle]
  · intro h
    simp [mergeRequest, h]

/-- The conversion to `int32` keeps a value exactly when it fits. -/
theorem toInt32_eq_iff (x : Int) : toInt32 x = x ↔ -2 ^ 31 ≤ x ∧ x < 2 ^ 31 := by
  unfold toInt32
  constructor
  · intro h
    have h1 := Int.emod_nonneg (x + 2 ^ 31) (show (2 ^ 32 : Int) ≠ 0 by norm_num)
    have h2 := Int.emod_lt_of_pos (x + 2 ^ 31) (show (0 : Int) < 2 ^ 32 by norm_num)
    constructor <;> omega
  · rintro ⟨h1, h2⟩
    rw [Int.emod_eq_of_lt (by omega) (by omega)]
    omega

/-- What a successful `Upsert` returns and what it hands to the store: the
strings handed over are the ones returned, and `MaxContextLoadTime` is handed
over after its conversion to `int32`, which keeps it only when it fits. -/
theorem upsertParams_fields (pgID : Channel.Pg String) (current : Settings) :
    (upsertParams pgID current).ChatModelID.value = current.ChatModelID ∧
    (upsertParams pgID current).MemoryModelID.value = current.MemoryModelID ∧
    (upsertParams pgID current).EmbeddingModelID.value = current.EmbeddingModelID ∧
    (upsertParams pgID current).Language = current.Language ∧
    ((upsertParams pgID current).MaxContextLoadTime = current.MaxContextLoadTime ↔
      -2 ^ 31 ≤ current.MaxContextLoadTime ∧ current.MaxContextLoadTime < 2 ^ 31) :=
  ⟨rfl, rfl, rfl, rfl, toInt32_eq_iff _⟩

/-- C30, failing run. The user, whose ID is a UUID, has no settings row; the
request sets `MaxContextLoadTime` to 2147483648. `Upsert` succeeds and returns
settings whose `MaxContextLoadTime` is 2147483648, while the parameters it
handed to the store hold -2147483648; the `Get` that follows returns the
default. -/
theorem Upsert_stores_truncated :
    (Scenario.service.Upsert Scenario.env Scenario.userID (Scenario.request 2147483648) []).1
      = (⟨"", "", "", 2147483648, "auto", false⟩, none) ∧
    (Scenario.service.Upsert Scenario.env Scenario.userID (Scenario.request 2147483648) []).2
      = [⟨⟨Scenario.userID, true⟩, ⟨"", false⟩, ⟨"", false⟩, ⟨"", false⟩, -2147483648, "auto"⟩] ∧
    (Scenario.service.Get Scenario.env Scenario.userID
        (Scenario.service.Upsert Scenario.env Scenario.userID (Scenario.request 2147483648)
          []).2).map (fun r => r.1)
      = some (⟨"", "", "", 1440, "auto", false⟩, none) := by
  refine ⟨?_, ?_, ?_⟩ <;> decide

end Merge

end UserSettings
